import Mathlib

/-!
Verification of the salt-lsp incremental SLS parser against its specification.

This file gives a shallow embedding of the core of the repository:

* `Position` and its comparison operators (`salt_lsp/types.py`);
* the AST node model (`Tree`, `StateNode`, `StateCallNode`,
  `StateParameterNode`, `RequisitesNode`, `RequisiteNode`, `IncludesNode`,
  `IncludeNode`, `ExtendNode`, `TokenNode`) as a node arena (`Store`) of
  `Node` values addressed by natural-number ids, with parent back references
  stored as ids; Python object mutation becomes explicit store update, and
  Python structural `==` on dataclass nodes becomes `nodeEqB` (fuelled
  structural comparison, `parent` excluded as in the dataclasses);
* the key-setter / reclassification protocol (`StateParameterNode.set_key`,
  `StateCallNode.convert`, `StateNode.set_key`, `Tree.convert`);
* the token-stream fold of `Parser._process_token` together with its helper
  handlers, and the scan-error recovery walk of `Parser.parse`
  (`salt_lsp/parser.py`); Python exceptions (IndexError on indexing an empty
  breadcrumb list, AttributeError on a missing `set_key` attribute,
  ValueError from `list.remove`, TypeError from a wrong-arity call) are
  modelled with `Except PyErr`;
* the Jinja stub object `MagicResponder` (`salt_lsp/magic_responder.py`).

The external tokenizer (pyyaml `yaml.scan`) is out of scope of the
repository; the embedded parser therefore consumes the token stream as an
explicit list, and a scanner failure is passed as an explicit optional
`ScanErr` carrying the context and problem marks, exactly the data the
Python code reads from `yaml.scanner.ScannerError`.  The concrete token
lists used below are the streams `yaml.scan` yields for the stated
documents; a scanner error discards tokens that were scanned but not yet
yielded, which the token lists reflect.
-/

set_option maxHeartbeats 1000000

namespace SaltLsp

/-- Single quote character, used when building Python-repr style strings. -/
def sq : String := Char.toString (Char.ofNat 39)

/-! ## Position (salt_lsp/types.py, class Position) -/

/-- Document position: `Position(line, col)`.  Python ints are unbounded,
hence `Int`. -/
structure Position where
  line : Int
  col : Int
deriving DecidableEq, Repr

/-- `Position.__lt__`. -/
def Position.lt (p q : Position) : Bool :=
  p.line < q.line || (p.line == q.line && p.col < q.col)

/-- `Position.__gt__`. -/
def Position.gt (p q : Position) : Bool :=
  p.line > q.line || (p.line == q.line && p.col > q.col)

/-- `Position.__le__`: `self < other or self == other`. -/
def Position.le (p q : Position) : Bool :=
  Position.lt p q || p == q

/-- `Position.__ge__`: `self > other or self == other`. -/
def Position.ge (p q : Position) : Bool :=
  Position.gt p q || p == q

/-! ## Tokens (pyyaml token taxonomy, as consumed by the parser) -/

/-- Scanner mark: line, column and character index into the scanned text.
The parser reads `line`/`column` of token marks and additionally `index` of
the error marks. -/
structure Mark where
  line : Int
  col : Int
  index : Nat
deriving DecidableEq, Repr

/-- Kinds of pyyaml tokens the parser inspects; a scalar token carries its
string value. -/
inductive TokKind where
  | streamStart
  | streamEnd
  | blockMappingStart
  | blockSequenceStart
  | flowSequenceStart
  | flowMappingStart
  | blockEnd
  | flowSequenceEnd
  | flowMappingEnd
  | key
  | value
  | blockEntry
  | scalar (v : String)
deriving DecidableEq, Repr

/-- A token with its start and end marks (only line/col of token marks are
ever read by the parser, so marks are plain positions here). -/
structure Token where
  kind : TokKind
  start_mark : Position
  end_mark : Position
deriving DecidableEq, Repr

/-- Class tag, for `isinstance(self.token, type(other.token))` comparisons:
all concrete pyyaml token classes are distinct leaves. -/
def TokKind.tag : TokKind → Nat
  | .streamStart => 0
  | .streamEnd => 1
  | .blockMappingStart => 2
  | .blockSequenceStart => 3
  | .flowSequenceStart => 4
  | .flowMappingStart => 5
  | .blockEnd => 6
  | .flowSequenceEnd => 7
  | .flowMappingEnd => 8
  | .key => 9
  | .value => 10
  | .blockEntry => 11
  | .scalar _ => 12

/-- Same token class (constructor), ignoring a scalar value. -/
def sameTokenClass (a b : TokKind) : Bool := a.tag == b.tag

/-- The `scalar_equal or not is_scalar` part of `TokenNode.__eq__`:
for scalar tokens the values must agree, other kinds carry no value. -/
def scalarValEq : TokKind → TokKind → Bool
  | .scalar v1, .scalar v2 => v1 == v2
  | .scalar _, _ => false
  | _, _ => true

/-- The start-of-block token kinds (block/flow mapping or sequence start). -/
def TokKind.isStarStart : TokKind → Bool
  | .blockMappingStart => true
  | .blockSequenceStart => true
  | .flowSequenceStart => true
  | .flowMappingStart => true
  | _ => false

/-- The end-of-block token kinds handled by `_process_star_end`. -/
def TokKind.isStarEnd : TokKind → Bool
  | .blockEnd => true
  | .flowSequenceEnd => true
  | .flowMappingEnd => true
  | _ => false

/-! ## The AST node model as an arena -/

/-- Python exceptions the embedded code can raise. -/
inductive PyErr where
  | indexError
  | attributeError
  | valueError
  | typeError
deriving DecidableEq, Repr

/-- Value of a `StateParameterNode.value` field (`Any` in Python): `None`,
a scalar string, or a list of `TokenNode`s (stored as arena ids). -/
inductive PValue where
  | vnone
  | vstr (s : String)
  | vtokens (ids : List Nat)
deriving DecidableEq, Repr

/-- Variant-specific data of each AST node class; child nodes are arena
ids.  `IncludesNode` is not an `AstMapNode` in the source (it subclasses
`AstNode` directly), which matters for the `Key`-token handler. -/
inductive NodeData where
  | tree (includes : Option Nat) (extendNode : Option Nat) (states : List Nat)
  | includesNode (includes : List Nat)
  | includeNode (value : Option String)
  | stateNode (identifier : Option String) (states : List Nat)
  | stateCallNode (name : Option String) (parameters : List Nat) (requisites : List Nat)
  | stateParameterNode (name : Option String) (value : PValue)
  | requisitesNode (kind : Option String) (requisites : List Nat)
  | requisiteNode (module : Option String) (reference : Option String)
  | extendNode (states : List Nat)
  | tokenNode (token : Token)
deriving DecidableEq, Repr

/-- One AST node: the shared `AstNode` fields plus the variant data.  The
`id` field of `AstNode` exists but is never assigned anywhere in the
repository; it participates in dataclass equality, so it is kept. -/
structure Node where
  start : Option Position
  end_ : Option Position
  parent : Option Nat
  id : Option String
  data : NodeData
deriving DecidableEq, Repr

/-- The node used when reading an absent arena slot (never reached on the
states the parser builds; its data is a bare `Tree`). -/
def defaultNode : Node :=
  { start := none, end_ := none, parent := none, id := none,
    data := .tree none none [] }

/-- The arena of nodes; id `i` addresses `nodes[i]`, id 0 is the root
`Tree` of a parse. -/
abbrev Store := List Node

/-- Read a node. -/
def storeGet (s : Store) (i : Nat) : Node :=
  (List.get? s i).getD defaultNode

/-- Write a node (no-op out of range, which the embedded code never hits on
ids it has allocated). -/
def storeSet (s : Store) (i : Nat) (n : Node) : Store :=
  List.set s i n

/-- Number of allocated nodes. -/
def storeSize (s : Store) : Nat := List.length s

/-- Allocate a fresh node, returning its id. -/
def storeAlloc (s : Store) (n : Node) : Store × Nat :=
  (s ++ [n], storeSize s)

/-- Update node `i` in place. -/
def storeUpdate (s : Store) (i : Nat) (f : Node → Node) : Store :=
  storeSet s i (f (storeGet s i))

/-- Replace only the variant data of node `i`. -/
def storeSetData (s : Store) (i : Nat) (d : NodeData) : Store :=
  storeUpdate s i (fun n => { n with data := d })

/-- Assign `node.start`. -/
def storeSetStart (s : Store) (i : Nat) (p : Option Position) : Store :=
  storeUpdate s i (fun n => { n with start := p })

/-- Assign `node.end`. -/
def storeSetEnd (s : Store) (i : Nat) (p : Option Position) : Store :=
  storeUpdate s i (fun n => { n with end_ := p })

/-- Assign `node.parent`. -/
def storeSetParent (s : Store) (i : Nat) (p : Option Nat) : Store :=
  storeUpdate s i (fun n => { n with parent := p })

/-! ## Structural node equality (Python dataclass `==`)

All AST dataclasses compare `start`, `end`, `id` (the `parent` field has
`compare=False`) and then the variant fields, recursively through child
lists.  `TokenNode` defines `__eq__` itself: same class, compatible wrapped
token class, the dataclass fields, and equal scalar values.  Since children
are arena ids here, the comparison materialises the subtrees with a fuel
that is at least the number of nodes, which suffices on the acyclic stores
the parser builds. -/

/-- Elementwise id-list comparison with a given node comparison. -/
def idsEqWith (eq : Nat → Nat → Bool) : List Nat → List Nat → Bool
  | [], [] => true
  | x :: xs, y :: ys => eq x y && idsEqWith eq xs ys
  | _, _ => false

/-- Optional-id comparison with a given node comparison
(`None == None`, node vs `None` is unequal). -/
def optIdEqWith (eq : Nat → Nat → Bool) : Option Nat → Option Nat → Bool
  | none, none => true
  | some x, some y => eq x y
  | _, _ => false

/-- `StateParameterNode.value` comparison with a given node comparison. -/
def pvalueEqWith (eq : Nat → Nat → Bool) : PValue → PValue → Bool
  | .vnone, .vnone => true
  | .vstr a, .vstr b => a == b
  | .vtokens xs, .vtokens ys => idsEqWith eq xs ys
  | _, _ => false

/-- Fuelled structural equality of the nodes at ids `i`, `j`. -/
def nodeEqFuel (s : Store) : Nat → Nat → Nat → Bool
  | 0, _, _ => false
  | Nat.succ f, i, j =>
    let a := storeGet s i
    let b := storeGet s j
    let eq := nodeEqFuel s f
    (a.start == b.start) && (a.end_ == b.end_) && (a.id == b.id) &&
    (match a.data, b.data with
     | .tree i1 e1 l1, .tree i2 e2 l2 =>
         optIdEqWith eq i1 i2 && optIdEqWith eq e1 e2 && idsEqWith eq l1 l2
     | .includesNode l1, .includesNode l2 => idsEqWith eq l1 l2
     | .includeNode v1, .includeNode v2 => v1 == v2
     | .stateNode n1 l1, .stateNode n2 l2 => n1 == n2 && idsEqWith eq l1 l2
     | .stateCallNode n1 p1 r1, .stateCallNode n2 p2 r2 =>
         n1 == n2 && idsEqWith eq p1 p2 && idsEqWith eq r1 r2
     | .stateParameterNode n1 v1, .stateParameterNode n2 v2 =>
         n1 == n2 && pvalueEqWith eq v1 v2
     | .requisitesNode k1 l1, .requisitesNode k2 l2 =>
         k1 == k2 && idsEqWith eq l1 l2
     | .requisiteNode m1 r1, .requisiteNode m2 r2 => m1 == m2 && r1 == r2
     | .extendNode l1, .extendNode l2 => idsEqWith eq l1 l2
     | .tokenNode t1, .tokenNode t2 =>
         sameTokenClass t1.kind t2.kind && scalarValEq t1.kind t2.kind
     | _, _ => false)

/-- Python `==` between the nodes at ids `i` and `j`. -/
def nodeEqB (s : Store) (i j : Nat) : Bool :=
  nodeEqFuel s (storeSize s + 1) i j

/-- Python `list.remove(x)`: drop the first structurally equal element;
`none` models the ValueError raised when nothing matches. -/
def pyListRemove (s : Store) : List Nat → Nat → Option (List Nat)
  | [], _ => none
  | x :: xs, target =>
    if nodeEqB s x target then some xs
    else (pyListRemove s xs target).map (fun l => x :: l)

/-! ## Node kind predicates (isinstance checks) -/

def NodeData.isTree : NodeData → Bool
  | .tree _ _ _ => true
  | _ => false

def NodeData.isIncludesNode : NodeData → Bool
  | .includesNode _ => true
  | _ => false

def NodeData.isIncludeNode : NodeData → Bool
  | .includeNode _ => true
  | _ => false

def NodeData.isStateNode : NodeData → Bool
  | .stateNode _ _ => true
  | _ => false

def NodeData.isStateCall : NodeData → Bool
  | .stateCallNode _ _ _ => true
  | _ => false

def NodeData.isStateParameter : NodeData → Bool
  | .stateParameterNode _ _ => true
  | _ => false

def NodeData.isRequisitesNode : NodeData → Bool
  | .requisitesNode _ _ => true
  | _ => false

def NodeData.isRequisiteNode : NodeData → Bool
  | .requisiteNode _ _ => true
  | _ => false

def NodeData.isExtendNode : NodeData → Bool
  | .extendNode _ => true
  | _ => false

def NodeData.isTokenNode : NodeData → Bool
  | .tokenNode _ => true
  | _ => false

/-- `isinstance(node, AstMapNode)`: `RequisitesNode`, `StateCallNode`,
`StateNode`, `ExtendNode` and `Tree` subclass `AstMapNode`;
`IncludesNode` and `IncludeNode` do not. -/
def NodeData.isMapNode (d : NodeData) : Bool :=
  d.isTree || d.isStateNode || d.isStateCall || d.isRequisitesNode || d.isExtendNode

/-- Classes defining a `set_key` method (`getattr(node, "set_key")` raises
AttributeError on the others). -/
def NodeData.hasSetKey (d : NodeData) : Bool :=
  d.isStateParameter || d.isRequisiteNode || d.isRequisitesNode ||
  d.isStateCall || d.isStateNode

/-! ## add / set_key / convert (salt_lsp/types.py) -/

/-- The 21 requisite keywords of `StateParameterNode.set_key`. -/
def requisites_keys : List String :=
  ["require", "onchanges", "watch", "listen", "prereq", "onfail", "use"]

/-- `requisites_keys + [k + "_any" ...] + [k + "_in" ...]`. -/
def all_requisites_keys : List String :=
  requisites_keys ++ requisites_keys.map (fun k => k ++ "_any")
    ++ requisites_keys.map (fun k => k ++ "_in")

/-- The `add` method of the node at `i`: append a fresh child (only
`parent` set on it, as each dataclass constructor call does) and return its
id.  Classes without `add` raise. -/
def addChild (s : Store) (i : Nat) : Except PyErr (Store × Nat) :=
  match (storeGet s i).data with
  | .tree inc ext sts =>
    let (s1, nid) := storeAlloc s
      { start := none, end_ := none, parent := some i, id := none,
        data := .stateNode none [] }
    .ok (storeSetData s1 i (.tree inc ext (sts ++ [nid])), nid)
  | .includesNode l =>
    let (s1, nid) := storeAlloc s
      { start := none, end_ := none, parent := some i, id := none,
        data := .includeNode none }
    .ok (storeSetData s1 i (.includesNode (l ++ [nid])), nid)
  | .stateNode nm sts =>
    let (s1, nid) := storeAlloc s
      { start := none, end_ := none, parent := some i, id := none,
        data := .stateCallNode none [] [] }
    .ok (storeSetData s1 i (.stateNode nm (sts ++ [nid])), nid)
  | .stateCallNode nm ps rs =>
    let (s1, nid) := storeAlloc s
      { start := none, end_ := none, parent := some i, id := none,
        data := .stateParameterNode none .vnone }
    .ok (storeSetData s1 i (.stateCallNode nm (ps ++ [nid]) rs), nid)
  | .requisitesNode k rs =>
    let (s1, nid) := storeAlloc s
      { start := none, end_ := none, parent := some i, id := none,
        data := .requisiteNode none none }
    .ok (storeSetData s1 i (.requisitesNode k (rs ++ [nid])), nid)
  | .extendNode sts =>
    let (s1, nid) := storeAlloc s
      { start := none, end_ := none, parent := some i, id := none,
        data := .stateNode none [] }
    .ok (storeSetData s1 i (.extendNode (sts ++ [nid])), nid)
  | _ => .error .attributeError

/-- `StateCallNode.convert(param, name)`: remove the parameter from
`parameters`, append a fresh `RequisitesNode(kind=name, parent=self)`
inheriting the parameter's start, and return it. -/
def stateCall_convert (s : Store) (callId pid : Nat) (name : String) :
    Except PyErr (Store × Nat) :=
  match (storeGet s callId).data with
  | .stateCallNode nm ps rs =>
    match pyListRemove s ps pid with
    | none => .error .valueError
    | some ps1 =>
      let s1 := storeSetData s callId (.stateCallNode nm ps1 rs)
      let (s2, rid) := storeAlloc s1
        { start := (storeGet s pid).start, end_ := none,
          parent := some callId, id := none,
          data := .requisitesNode (some name) [] }
      .ok (storeSetData s2 callId (.stateCallNode nm ps1 (rs ++ [rid])), rid)
  | _ => .error .attributeError

/-- `Tree.convert(state, name)`: remove the state from `states`; for
`include`/`extend` create the singleton field node inheriting the state's
start and return it; otherwise return the tree itself. -/
def tree_convert (s : Store) (treeId sid : Nat) (name : String) :
    Except PyErr (Store × Nat) :=
  match (storeGet s treeId).data with
  | .tree inc ext sts =>
    match pyListRemove s sts sid with
    | none => .error .valueError
    | some sts1 =>
      if name == "include" then
        let (s1, nid) := storeAlloc (storeSetData s treeId (.tree inc ext sts1))
          { start := (storeGet s sid).start, end_ := none,
            parent := some treeId, id := none, data := .includesNode [] }
        .ok (storeSetData s1 treeId (.tree (some nid) ext sts1), nid)
      else if name == "extend" then
        let (s1, nid) := storeAlloc (storeSetData s treeId (.tree inc ext sts1))
          { start := (storeGet s sid).start, end_ := none,
            parent := some treeId, id := none, data := .extendNode [] }
        .ok (storeSetData s1 treeId (.tree inc (some nid) sts1), nid)
      else
        .ok (storeSetData s treeId (.tree inc ext sts1), treeId)
  | _ => .error .attributeError

/-- `isinstance(self.parent, StateCallNode)` for the node at `i`
(`isinstance(None, X)` is false). -/
def parentIsStateCall (s : Store) (i : Nat) : Bool :=
  match (storeGet s i).parent with
  | some p => (storeGet s p).data.isStateCall
  | none => false

/-- `isinstance(self.parent, Tree)` for the node at `i`. -/
def parentIsTree (s : Store) (i : Nat) : Bool :=
  match (storeGet s i).parent with
  | some p => (storeGet s p).data.isTree
  | none => false

/-- The `set_key` method of the node at `i` (dispatch over the classes that
define one).  Returns the updated store and the node that finally got the
key, which differs from `i` exactly when a reclassification happened. -/
def set_key (s : Store) (i : Nat) (key : String) : Except PyErr (Store × Nat) :=
  let n := storeGet s i
  match n.data with
  | .stateParameterNode _nm v =>
    if all_requisites_keys.contains key && parentIsStateCall s i then
      match n.parent with
      | some p => stateCall_convert s p i key
      | none => .error .attributeError
    else
      .ok (storeSetData s i (.stateParameterNode (some key) v), i)
  | .requisiteNode _ ref =>
    .ok (storeSetData s i (.requisiteNode (some key) ref), i)
  | .requisitesNode _ rs =>
    .ok (storeSetData s i (.requisitesNode (some key) rs), i)
  | .stateCallNode _ ps rs =>
    .ok (storeSetData s i (.stateCallNode (some key) ps rs), i)
  | .stateNode _nm sts =>
    if (key == "include" || key == "extend") && parentIsTree s i then
      match n.parent with
      | some p => tree_convert s p i key
      | none => .error .attributeError
    else
      .ok (storeSetData s i (.stateNode (some key) sts), i)
  | _ => .error .attributeError

/-! ## TokenNode construction and equality (C9) -/

/-- `TokenNode.__init__`: start/end are taken from the wrapped token's
marks. -/
def mkTokenNode (t : Token) : Node :=
  { start := some t.start_mark, end_ := some t.end_mark,
    parent := none, id := none, data := .tokenNode t }

/-- `TokenNode.__eq__` on two standalone nodes: both must be `TokenNode`s
of compatible wrapped token class; then the dataclass fields
(start, end, id) must agree and, for scalar tokens, the values. -/
def tokenNodeEq (a b : Node) : Bool :=
  match a.data, b.data with
  | .tokenNode t1, .tokenNode t2 =>
    sameTokenClass t1.kind t2.kind &&
    ((a.start == b.start) && (a.end_ == b.end_) && (a.id == b.id)) &&
    scalarValEq t1.kind t2.kind
  | _, _ => false

/-- The equality relation the specification describes for `RawTokenNode`:
the wrapped tokens have the same kind and, when they are scalar tokens, the
same value.  (Stated from the words of the spec, for comparison with the
code's `tokenNodeEq`.) -/
def specTokenNodeEq (a b : Node) : Bool :=
  match a.data, b.data with
  | .tokenNode t1, .tokenNode t2 =>
    sameTokenClass t1.kind t2.kind && scalarValEq t1.kind t2.kind
  | _, _ => false

/-! ## MagicResponder (salt_lsp/magic_responder.py) -/

/-- Python values passed to the stub (only data the stub stringifies). -/
inductive PyVal where
  | pstr (s : String)
  | pint (n : Int)
deriving DecidableEq, Repr

/-- `stringify`: strings are single-quoted, others use `str`. -/
def stringify : PyVal → String
  | .pstr s => sq ++ s ++ sq
  | .pint n => toString n

/-- `stringify_array`. -/
def stringify_array (vec : List PyVal) : List String :=
  match vec with
  | [] => ["[]"]
  | _ => vec.map stringify

/-- The stub object: carries the accumulated expression text. -/
structure MagicResponder where
  parent_string : String
deriving DecidableEq, Repr

/-- `MagicResponder.__call__`. -/
def MagicResponder.call (m : MagicResponder) (args : List PyVal) : MagicResponder :=
  ⟨m.parent_string ++ "(" ++ String.intercalate (", ") (stringify_array args) ++ ")"⟩

/-- `MagicResponder.get` (keyword arguments rendered as `k= v` and
concatenated after the positional ones, exactly as the f-string does). -/
def MagicResponder.get (m : MagicResponder) (args : List PyVal)
    (kwargs : List (String × String)) : MagicResponder :=
  let kw_strings := kwargs.map (fun kv => kv.1 ++ "= " ++ kv.2)
  ⟨m.parent_string ++ "." ++ "get(" ++
    (String.intercalate (", ") (stringify_array args) ++
      String.intercalate (", ") kw_strings) ++ ")"⟩

/-- `MagicResponder.__getattr__`. -/
def MagicResponder.getattr (m : MagicResponder) (attr : String) : MagicResponder :=
  ⟨m.parent_string ++ "." ++ attr⟩

/-- `MagicResponder.__getitem__`. -/
def MagicResponder.getitem (m : MagicResponder) (attr : PyVal) : MagicResponder :=
  ⟨m.parent_string ++ "[" ++ stringify attr ++ "]"⟩

/-- `MagicResponder.__str__`: the accumulated expression wrapped in double
quotes. -/
def MagicResponder.str (m : MagicResponder) : String :=
  "\"" ++ m.parent_string ++ "\""

/-! ## Parser state (salt_lsp/parser.py, class Parser) -/

/-- The mutable state of one `Parser` instance.  `breadcrumbs` and
`blockStarts` are Python lists (append/pop at the end), kept here in the
same order; nodes are referenced by arena id. -/
structure PState where
  store : Store
  breadcrumbs : List Nat
  blockStarts : List (Token × Nat)
  nextScalarAsKey : Bool
  nextTokenIsValue : Bool
  unprocessedTokens : Option (List Nat)
  lastStart : Option Position
  colAdjustment : Int
deriving Repr

/-- `Parser.__init__`: a fresh tree at id 0, breadcrumbs `[tree]`. -/
def initState : PState :=
  { store := [defaultNode], breadcrumbs := [0], blockStarts := [],
    nextScalarAsKey := false, nextTokenIsValue := false,
    unprocessedTokens := none, lastStart := none, colAdjustment := 0 }

/-- `Parser._is_last_breadcrumb(classinfo)`. -/
def isLastBreadcrumb (st : PState) (p : NodeData → Bool) : Bool :=
  match st.breadcrumbs.getLast? with
  | none => false
  | some i => p (storeGet st.store i).data

/-- `Parser._process_token_star_start`. -/
def processTokenStarStart (st : PState) (tok : Token) : PState :=
  let st1 :=
    match st.breadcrumbs.getLast? with
    | none => st
    | some b =>
      let cond :=
        match st.blockStarts.getLast? with
        | none => true
        | some pr => !(nodeEqB st.store pr.2 b)
      if cond then { st with blockStarts := st.blockStarts ++ [(tok, b)] }
      else st
  { st1 with nextTokenIsValue := false }

/-- `Parser._process_unprocessed_tokens` (caller guarantees the buffer is
active; the `assert` can therefore not fire). -/
def processUnprocessedTokens (st : PState) (tok : Token) : PState :=
  match st.unprocessedTokens with
  | none => st
  | some l =>
    let append :=
      !(isLastBreadcrumb st NodeData.isStateParameter && tok.kind == .blockEnd)
    let next :=
      if append then
        let (s1, tid) := storeAlloc st.store (mkTokenNode tok)
        { st with store := s1, unprocessedTokens := some (l ++ [tid]) }
      else st
    if tok.kind.isStarStart then
      match (next.unprocessedTokens.getD []).getLast? with
      | some tid =>
        { next with breadcrumbs := next.breadcrumbs ++ [tid],
                    blockStarts := next.blockStarts ++ [(tok, tid)],
                    nextTokenIsValue := false }
      | none => next
    else next

/-- The while loop of `_process_star_end`: pop breadcrumbs until the node
the matched block start was registered against, stamping `end` on each node
popped along the way.  Fuel is the breadcrumb length plus one, so the fuel
never runs out before the loop condition fails. -/
def starEndWhile (te : Position) (target : Nat) :
    Nat → Store → List Nat → Nat → Store × List Nat × Nat
  | 0, s, bc, closed => (s, bc, closed)
  | Nat.succ f, s, bc, closed =>
    if bc.length > 0 && !(nodeEqB s closed target) then
      let s1 := storeSetEnd s closed (some te)
      let closed1 := (bc.getLast?).getD 0
      starEndWhile te target f s1 bc.dropLast closed1
    else (s, bc, closed)

/-- Set each buffered token's parent to the parameter and assign the whole
buffer as its compound value. -/
def assignTokens (s : Store) (pid : Nat) (l : List Nat) : Store :=
  let s1 := l.foldl (fun acc tid => storeSetParent acc tid (some pid)) s
  match (storeGet s1 pid).data with
  | .stateParameterNode nm _ => storeSetData s1 pid (.stateParameterNode nm (.vtokens l))
  | _ => s1

/-- `Parser._process_star_end`: empty-stack closes are logged no-ops; the
finally reached parameter absorbs a pending verbatim buffer. -/
def processStarEnd (st : PState) (token_end : Position) : PState :=
  match st.blockStarts.getLast?, st.breadcrumbs.getLast? with
  | some lastStartPair, some lastTop =>
    let bs1 := st.blockStarts.dropLast
    let bc0 := st.breadcrumbs.dropLast
    let r := starEndWhile token_end lastStartPair.2 (bc0.length + 1) st.store bc0 lastTop
    let s1 := r.1
    let bc1 := r.2.1
    let last := r.2.2
    let s2 :=
      if !(storeGet s1 last).data.isTokenNode then storeSetEnd s1 last (some token_end)
      else s1
    let st1 := { st with store := s2, blockStarts := bs1, breadcrumbs := bc1 }
    let st2 :=
      if (storeGet st1.store last).data.isStateCall && st1.colAdjustment > 0 then
        { st1 with colAdjustment := 0 }
      else st1
    if (storeGet st2.store last).data.isStateParameter then
      match st2.unprocessedTokens with
      | some l =>
        let st3 :=
          match l with
          | [tid] =>
            match (storeGet st2.store tid).data with
            | .tokenNode t =>
              match t.kind with
              | .scalar v =>
                match (storeGet st2.store last).data with
                | .stateParameterNode nm _ =>
                  { st2 with store :=
                      storeSetData st2.store last (.stateParameterNode nm (.vstr v)) }
                | _ => st2
              | _ => { st2 with store := assignTokens st2.store last l }
            | _ => { st2 with store := assignTokens st2.store last l }
          | _ => { st2 with store := assignTokens st2.store last l }
        { st3 with unprocessedTokens := none }
      | none => st2
    else st2
  | _, _ => st

/-- `Parser._process_token_blockEntry`. -/
def processTokenBlockEntry (st : PState) (tok : Token) (token_start : Position) :
    Except PyErr PState := do
  let sameLevel : Option Int :=
    match st.breadcrumbs.getLast? with
    | none => none
    | some b =>
      match (storeGet st.store b).start with
      | none => none
      | some p => if p.col == tok.start_mark.col + st.colAdjustment then some p.col else none
  let st1 :=
    match sameLevel, st.breadcrumbs.getLast? with
    | some col, some b =>
      if tok.kind == .blockEntry && (storeGet st.store b).data.isStateCall then
        let fakeToken : Token :=
          { kind := .blockMappingStart, start_mark := tok.start_mark,
            end_mark := tok.end_mark }
        { st with colAdjustment := col,
                  blockStarts := st.blockStarts ++ [(fakeToken, b)] }
      else
        { st with breadcrumbs := st.breadcrumbs.dropLast,
                  store := storeSetEnd st.store b (some token_start) }
    | _, _ => st
  if st1.breadcrumbs.length > 0 then
    if isLastBreadcrumb st1 (fun d =>
        d.isStateCall || d.isIncludesNode || d.isRequisitesNode) then
      match st1.breadcrumbs.getLast? with
      | some cur => do
        let (s1, nid) ← addChild st1.store cur
        .ok { st1 with store := storeSetStart s1 nid (some token_start),
                       breadcrumbs := st1.breadcrumbs ++ [nid] }
      | none => .ok st1
    else .ok st1
  else .ok st1

/-- `Parser._process_token_scalar`.  Indexing `breadcrumbs[-1]` on an empty
list raises IndexError; `getattr(node, "set_key")` on a node of a class
without that method raises AttributeError. -/
def processTokenScalar (st : PState) (v : String)
    (token_start token_end : Position) : Except PyErr PState := do
  let stA ←
    if st.nextScalarAsKey then
      match st.breadcrumbs.getLast? with
      | none => .error PyErr.indexError
      | some top =>
        if !(storeGet st.store top).data.hasSetKey then .error PyErr.attributeError
        else do
          let (s1, changed) ← set_key st.store top v
          let st1 :=
            if !(nodeEqB s1 changed top) then
              { st with store := s1,
                        breadcrumbs := st.breadcrumbs.dropLast ++ [changed],
                        blockStarts := st.blockStarts.map (fun pr =>
                          if nodeEqB s1 pr.2 top then (pr.1, changed) else pr) }
            else { st with store := s1 }
          .ok { st1 with nextScalarAsKey := false }
    else do
      let st1 :=
        if isLastBreadcrumb st NodeData.isIncludeNode then
          match st.breadcrumbs.getLast? with
          | some top =>
            let s1 :=
              match (storeGet st.store top).data with
              | .includeNode _ => storeSetData st.store top (.includeNode (some v))
              | _ => st.store
            let s2 := storeSetEnd s1 top (some token_end)
            { st with store := s2, breadcrumbs := st.breadcrumbs.dropLast }
          | none => st
        else st
      let st2 :=
        if isLastBreadcrumb st1 NodeData.isRequisiteNode then
          match st1.breadcrumbs.getLast? with
          | some top =>
            match (storeGet st1.store top).data with
            | .requisiteNode m _ =>
              { st1 with store := storeSetData st1.store top (.requisiteNode m (some v)) }
            | _ => st1
          | none => st1
        else st1
      match st2.breadcrumbs.getLast? with
      | none => .error PyErr.indexError
      | some cur3 =>
        let st3 :=
          match (storeGet st2.store cur3).data with
          | .stateParameterNode none pv =>
            { st2 with store :=
                storeSetData st2.store cur3 (.stateParameterNode (some v) pv) }
          | _ => st2
        if isLastBreadcrumb st3 (fun d => d.isStateNode || d.isTree) then
          match st3.breadcrumbs.getLast? with
          | some cur4 => do
            let (s1, nid) ← addChild st3.store cur4
            let s2 := storeSetStart s1 nid (some token_start)
            let s3 := storeSetEnd s2 nid (some token_end)
            if !(storeGet s3 nid).data.hasSetKey then .error PyErr.attributeError
            else do
              let (s4, _) ← set_key s3 nid v
              let st4 := { st3 with store := s4 }
              if st4.nextTokenIsValue then
                match st4.breadcrumbs.getLast? with
                | some lastB =>
                  let st5 := { st4 with breadcrumbs := st4.breadcrumbs.dropLast }
                  if (storeGet st5.store lastB).end_ = none then
                    .ok { st5 with store := storeSetEnd st5.store lastB (some token_end) }
                  else .ok st5
                | none => .error PyErr.indexError
              else .ok st4
          | none => .ok st3
        else .ok st3
  .ok { stA with nextTokenIsValue := false }

/-- The `KeyToken` case of `_process_token`. -/
def processKey (st : PState) (token_start : Position) : Except PyErr PState := do
  let st1 := { st with nextScalarAsKey := true }
  if isLastBreadcrumb st1 NodeData.isMapNode &&
     !(isLastBreadcrumb st1 (fun d => d.isRequisiteNode || d.isStateParameter)) then
    match st1.breadcrumbs.getLast? with
    | some cur => do
      let (s1, nid) ← addChild st1.store cur
      let start :=
        match st1.lastStart with
        | some p => p
        | none => token_start
      .ok { st1 with store := storeSetStart s1 nid (some start),
                     breadcrumbs := st1.breadcrumbs ++ [nid],
                     lastStart := none }
    | none => .ok st1
  else .ok st1

/-- The truthiness test `not self._unprocessed_tokens`: true for `None` and
for an empty list. -/
def bufferFalsy : Option (List Nat) → Bool
  | none => true
  | some [] => true
  | some (_ :: _) => false

/-- The part of `_process_token` after the `ValueToken` early return. -/
def processTokenRest (st : PState) (tok : Token)
    (token_start token_end : Position) : Except PyErr PState := do
  let st1 :=
    if st.unprocessedTokens.isSome then processUnprocessedTokens st tok else st
  let st2 :=
    if tok.kind.isStarEnd then processStarEnd st1 token_end else st1
  if st2.unprocessedTokens.isSome then
    .ok { st2 with nextTokenIsValue := false }
  else do
    let st3 ← if tok.kind == .key then processKey st2 token_start else .ok st2
    let st4 ← if tok.kind == .blockEntry then processTokenBlockEntry st3 tok token_start
              else .ok st3
    match tok.kind with
    | .scalar v => processTokenScalar st4 v token_start token_end
    | _ => .ok st4

/-- `Parser._process_token`. -/
def processToken (st : PState) (tok : Token) : Except PyErr PState :=
  let token_start := tok.start_mark
  let token_end := tok.end_mark
  let st1 :=
    if tok.kind == .streamStart then
      { st with store := storeSetStart st.store 0 (some token_start) }
    else st
  let st2 :=
    if tok.kind == .streamEnd then
      { st1 with store := storeSetEnd st1.store 0 (some token_end) }
    else st1
  let st3 :=
    if tok.kind.isStarStart then processTokenStarStart st2 tok else st2
  if tok.kind == .value then
    let st4 := { st3 with nextTokenIsValue := true }
    if isLastBreadcrumb st4 NodeData.isStateParameter &&
       bufferFalsy st4.unprocessedTokens then
      .ok { st4 with unprocessedTokens := some [] }
    else
      processTokenRest st4 tok token_start token_end
  else
    processTokenRest st3 tok token_start token_end

/-- Fold of `_process_token` over the yielded token stream; an exception
aborts the fold, as in the Python `for` loop. -/
def runTokens : PState → List Token → Except PyErr PState
  | st, [] => .ok st
  | st, t :: ts => do
    let st1 ← processToken st t
    runTokens st1 ts

/-! ## Error recovery (Parser.parse, except-branch) -/

/-- The data of `yaml.scanner.ScannerError` the recovery reads. -/
structure ScanErr where
  context_mark : Option Mark
  problem_mark : Option Mark
deriving DecidableEq, Repr

/-- Whether a character is stripped by `strip("\r\n")`. -/
def isCRLFChar (c : Char) : Bool := c == Char.ofNat 13 || c == Char.ofNat 10

/-- `document[a:b].strip("\r\n")`. -/
def sliceStrip (document : String) (a b : Nat) : String :=
  let l := (document.toList.drop a).take (b - a)
  String.mk (((l.dropWhile isCRLFChar).reverse.dropWhile isCRLFChar).reverse)

/-- The `BlockEndToken(start_mark=err.context_mark, end_mark=err.context_mark)`
synthesized during recovery. -/
def blockEndTokenAt (cm : Mark) : Token :=
  { kind := .blockEnd, start_mark := ⟨cm.line, cm.col⟩,
    end_mark := ⟨cm.line, cm.col⟩ }

/-- One iteration body of the recovery walk, for the node read from the
breadcrumb list at the current reverse-iterator index. -/
def recoverBody (document : String) (e : ScanErr) (st : PState) (nid : Nat) :
    Except PyErr PState :=
  let n := storeGet st.store nid
  match n.start, e.context_mark with
  | some sp, some cm =>
    if cm.col < sp.col then
      processToken st (blockEndTokenAt cm)
    else if cm.col == sp.col then do
      let st1 ← processToken st (blockEndTokenAt cm)
      match e.problem_mark with
      | some pm =>
        let value := sliceStrip document cm.index pm.index
        processToken st1
          { kind := .scalar value, start_mark := ⟨cm.line, cm.col⟩,
            end_mark := ⟨pm.line, pm.col⟩ }
      | none => .ok st1
    else
      match e.problem_mark with
      | some pm => .ok { st with store := storeSetEnd st.store nid (some ⟨pm.line, pm.col⟩) }
      | none => .ok st
  | _, _ =>
    match e.problem_mark with
    | some pm => .ok { st with store := storeSetEnd st.store nid (some ⟨pm.line, pm.col⟩) }
    | none => .ok st

/-- The `for node in reversed(self._breadcrumbs)` walk.  A Python reverse
list iterator keeps a decreasing index into the live list and stops for
good once the index falls outside the current list, which the fuel argument
mirrors: fuel `i + 1` means current index `i`. -/
def recoverLoop (document : String) (e : ScanErr) : PState → Nat → Except PyErr PState
  | st, 0 => .ok st
  | st, Nat.succ i =>
    if i < st.breadcrumbs.length then
      match st.breadcrumbs.get? i with
      | some nid => do
        let st1 ← recoverBody document e st nid
        recoverLoop document e st1 i
      | none => .ok st
    else .ok st

/-- `Parser.parse` after template rendering: fold the yielded tokens; on a
scanner error (and at least one yielded token) run the recovery walk.
Exceptions other than the scanner error propagate. -/
def parseModel (document : String) (tokens : List Token) (err : Option ScanErr) :
    Except PyErr PState := do
  let st ← runTokens initState tokens
  match err with
  | none => .ok st
  | some e =>
    if tokens.isEmpty then .ok st
    else recoverLoop document e st st.breadcrumbs.length

/-! ## Tree query (salt_lsp/utils.py, construct_path_to_position) -/

/-- Embedding of `utils.construct_path_to_position(document, pos)`.  Its
first statement is `tree = parser.parse(document)`, which passes a single
argument to the two-parameter `parser.parse(uri, document)`; Python raises
TypeError there, before any traversal work, on every call.  The shallow
embedding therefore returns that error unconditionally. -/
def construct_path_to_position (_document : String) (_pos : Position) :
    Except PyErr (List Nat) :=
  .error PyErr.typeError


/-! ## Invariant of the parser state (used for claim C3) -/

/-- The id list of the root tree's `states`. -/
def rootStates (s : Store) : List Nat :=
  match (storeGet s 0).data with
  | .tree _ _ sts => sts
  | _ => []

/-- The `identifier` of a `StateNode`, `none` on other kinds. -/
def stateIdentifier (s : Store) (i : Nat) : Option String :=
  match (storeGet s i).data with
  | .stateNode nm _ => nm
  | _ => none

/-- Store part of the parser invariant: the root slot holds the tree, and
every member of the root's state list is a `StateNode` owned by the root
whose identifier is neither `include` nor `extend`. -/
def InvStore (s : Store) : Prop :=
  0 < storeSize s ∧
  (storeGet s 0).data.isTree = true ∧
  ∀ sid ∈ rootStates s,
    (∃ nm sts, (storeGet s sid).data = NodeData.stateNode nm sts ∧
      nm ≠ some ("include") ∧ nm ≠ some ("extend")) ∧
    (storeGet s sid).parent = some 0

/-- Full parser-state invariant: the store invariant, plus every id in an
active verbatim buffer wraps a raw token. -/
def InvP (st : PState) : Prop :=
  InvStore st.store ∧
  ∀ uid ∈ st.unprocessedTokens.getD [], (storeGet st.store uid).data.isTokenNode = true

/-! ## Concrete scenario data

Each token list below is the stream `yaml.scan` yields for the stated
document after template rendering (Jinja drops one trailing newline); a
scan error aborts the stream with the stated context and problem marks,
and tokens already scanned but not yet yielded are discarded. -/

def docC1 : String := "include:\n  - foo: bar\n"

/-- Tokens of `docC1` up to the point where the parser raises; the remaining tokens of the stream (value, scalar bar, three block ends, stream end) are never consumed because the exception aborts the loop, which the Except fold mirrors. -/
def toksC1 : List Token := [
  ⟨.streamStart, ⟨0,0⟩, ⟨0,0⟩⟩,
  ⟨.blockMappingStart, ⟨0,0⟩, ⟨0,0⟩⟩,
  ⟨.key, ⟨0,0⟩, ⟨0,0⟩⟩,
  ⟨.scalar ("include"), ⟨0,0⟩, ⟨0,7⟩⟩,
  ⟨.value, ⟨0,7⟩, ⟨0,8⟩⟩,
  ⟨.blockSequenceStart, ⟨1,2⟩, ⟨1,2⟩⟩,
  ⟨.blockEntry, ⟨1,2⟩, ⟨1,3⟩⟩,
  ⟨.blockMappingStart, ⟨1,4⟩, ⟨1,4⟩⟩,
  ⟨.key, ⟨1,4⟩, ⟨1,4⟩⟩,
  ⟨.scalar ("foo"), ⟨1,4⟩, ⟨1,7⟩⟩,
  ⟨.value, ⟨1,7⟩, ⟨1,8⟩⟩,
  ⟨.scalar ("bar"), ⟨1,9⟩, ⟨1,12⟩⟩,
  ⟨.blockEnd, ⟨1,12⟩, ⟨1,12⟩⟩,
  ⟨.blockEnd, ⟨1,12⟩, ⟨1,12⟩⟩,
  ⟨.blockEnd, ⟨1,12⟩, ⟨1,12⟩⟩,
  ⟨.streamEnd, ⟨1,12⟩, ⟨1,12⟩⟩
]

def docC2 : String := "a:\n  b.c:\n    - require\n    - require: x\n"

/-- Token stream of `docC2`: a bare `- require` list item followed by a `- require: x` keyed item under the state call `b.c`. -/
def toksC2 : List Token := [
  ⟨.streamStart, ⟨0,0⟩, ⟨0,0⟩⟩,
  ⟨.blockMappingStart, ⟨0,0⟩, ⟨0,0⟩⟩,
  ⟨.key, ⟨0,0⟩, ⟨0,0⟩⟩,
  ⟨.scalar ("a"), ⟨0,0⟩, ⟨0,1⟩⟩,
  ⟨.value, ⟨0,1⟩, ⟨0,2⟩⟩,
  ⟨.blockMappingStart, ⟨1,2⟩, ⟨1,2⟩⟩,
  ⟨.key, ⟨1,2⟩, ⟨1,2⟩⟩,
  ⟨.scalar ("b.c"), ⟨1,2⟩, ⟨1,5⟩⟩,
  ⟨.value, ⟨1,5⟩, ⟨1,6⟩⟩,
  ⟨.blockSequenceStart, ⟨2,4⟩, ⟨2,4⟩⟩,
  ⟨.blockEntry, ⟨2,4⟩, ⟨2,5⟩⟩,
  ⟨.scalar ("require"), ⟨2,6⟩, ⟨2,13⟩⟩,
  ⟨.blockEntry, ⟨3,4⟩, ⟨3,5⟩⟩,
  ⟨.blockMappingStart, ⟨3,6⟩, ⟨3,6⟩⟩,
  ⟨.key, ⟨3,6⟩, ⟨3,6⟩⟩,
  ⟨.scalar ("require"), ⟨3,6⟩, ⟨3,13⟩⟩,
  ⟨.value, ⟨3,13⟩, ⟨3,14⟩⟩,
  ⟨.scalar ("x"), ⟨3,15⟩, ⟨3,16⟩⟩,
  ⟨.blockEnd, ⟨3,16⟩, ⟨3,16⟩⟩,
  ⟨.blockEnd, ⟨3,16⟩, ⟨3,16⟩⟩,
  ⟨.blockEnd, ⟨3,16⟩, ⟨3,16⟩⟩,
  ⟨.blockEnd, ⟨3,16⟩, ⟨3,16⟩⟩,
  ⟨.streamEnd, ⟨3,16⟩, ⟨3,16⟩⟩
]

def docC4 : String := "a:\n  b:\n    c: \"x"

/-- Tokens of `docC4` yielded before the scanner raises inside the unterminated quoted scalar on line 2. -/
def toksC4 : List Token := [
  ⟨.streamStart, ⟨0,0⟩, ⟨0,0⟩⟩,
  ⟨.blockMappingStart, ⟨0,0⟩, ⟨0,0⟩⟩,
  ⟨.key, ⟨0,0⟩, ⟨0,0⟩⟩,
  ⟨.scalar ("a"), ⟨0,0⟩, ⟨0,1⟩⟩,
  ⟨.value, ⟨0,1⟩, ⟨0,2⟩⟩,
  ⟨.blockMappingStart, ⟨1,2⟩, ⟨1,2⟩⟩,
  ⟨.key, ⟨1,2⟩, ⟨1,2⟩⟩,
  ⟨.scalar ("b"), ⟨1,2⟩, ⟨1,3⟩⟩,
  ⟨.value, ⟨1,3⟩, ⟨1,4⟩⟩,
  ⟨.blockMappingStart, ⟨2,4⟩, ⟨2,4⟩⟩,
  ⟨.key, ⟨2,4⟩, ⟨2,4⟩⟩,
  ⟨.scalar ("c"), ⟨2,4⟩, ⟨2,5⟩⟩,
  ⟨.value, ⟨2,5⟩, ⟨2,6⟩⟩
]

/-- The scanner error for `docC4`: while scanning a quoted scalar, context
at the opening quote (2,7), problem at the end of the stream (2,9). -/
def errC4 : ScanErr := { context_mark := some ⟨2,7,15⟩, problem_mark := some ⟨2,9,17⟩ }

/-- The stub trace text `pillar.get(&user&).get(&name&)` with single
quotes in place of `&`. -/
def magicV : String :=
  "pillar.get(" ++ sq ++ "user" ++ sq ++ ").get(" ++ sq ++ "name" ++ sq ++ ")"

/-- Token stream of the rendered form of a document whose line 2 is the list item assigning parameter `d` the Jinja expression over `pillar`; after rendering, that value is the double-quoted stub trace, which the tokenizer turns into a scalar token whose value is `magicV` (the double quotes delimit the scalar and are not part of its value). -/
def toksC7 : List Token := [
  ⟨.streamStart, ⟨0,0⟩, ⟨0,0⟩⟩,
  ⟨.blockMappingStart, ⟨0,0⟩, ⟨0,0⟩⟩,
  ⟨.key, ⟨0,0⟩, ⟨0,0⟩⟩,
  ⟨.scalar ("a"), ⟨0,0⟩, ⟨0,1⟩⟩,
  ⟨.value, ⟨0,1⟩, ⟨0,2⟩⟩,
  ⟨.blockMappingStart, ⟨1,2⟩, ⟨1,2⟩⟩,
  ⟨.key, ⟨1,2⟩, ⟨1,2⟩⟩,
  ⟨.scalar ("b.c"), ⟨1,2⟩, ⟨1,5⟩⟩,
  ⟨.value, ⟨1,5⟩, ⟨1,6⟩⟩,
  ⟨.blockSequenceStart, ⟨2,4⟩, ⟨2,4⟩⟩,
  ⟨.blockEntry, ⟨2,4⟩, ⟨2,5⟩⟩,
  ⟨.blockMappingStart, ⟨2,6⟩, ⟨2,6⟩⟩,
  ⟨.key, ⟨2,6⟩, ⟨2,6⟩⟩,
  ⟨.scalar ("d"), ⟨2,6⟩, ⟨2,7⟩⟩,
  ⟨.value, ⟨2,7⟩, ⟨2,8⟩⟩,
  ⟨.scalar magicV, ⟨2,9⟩, ⟨2,41⟩⟩,
  ⟨.blockEnd, ⟨2,41⟩, ⟨2,41⟩⟩,
  ⟨.blockEnd, ⟨2,41⟩, ⟨2,41⟩⟩,
  ⟨.blockEnd, ⟨2,41⟩, ⟨2,41⟩⟩,
  ⟨.blockEnd, ⟨2,41⟩, ⟨2,41⟩⟩,
  ⟨.streamEnd, ⟨2,41⟩, ⟨2,41⟩⟩
]

def docC3w : String := "include:\n  - web\nfoo:\n  bar.baz:\n    - x\n"

/-- Token stream of `docC3w`: an include list followed by an ordinary top-level state. -/
def toksC3w : List Token := [
  ⟨.streamStart, ⟨0,0⟩, ⟨0,0⟩⟩,
  ⟨.blockMappingStart, ⟨0,0⟩, ⟨0,0⟩⟩,
  ⟨.key, ⟨0,0⟩, ⟨0,0⟩⟩,
  ⟨.scalar ("include"), ⟨0,0⟩, ⟨0,7⟩⟩,
  ⟨.value, ⟨0,7⟩, ⟨0,8⟩⟩,
  ⟨.blockSequenceStart, ⟨1,2⟩, ⟨1,2⟩⟩,
  ⟨.blockEntry, ⟨1,2⟩, ⟨1,3⟩⟩,
  ⟨.scalar ("web"), ⟨1,4⟩, ⟨1,7⟩⟩,
  ⟨.blockEnd, ⟨2,0⟩, ⟨2,0⟩⟩,
  ⟨.key, ⟨2,0⟩, ⟨2,0⟩⟩,
  ⟨.scalar ("foo"), ⟨2,0⟩, ⟨2,3⟩⟩,
  ⟨.value, ⟨2,3⟩, ⟨2,4⟩⟩,
  ⟨.blockMappingStart, ⟨3,2⟩, ⟨3,2⟩⟩,
  ⟨.key, ⟨3,2⟩, ⟨3,2⟩⟩,
  ⟨.scalar ("bar.baz"), ⟨3,2⟩, ⟨3,9⟩⟩,
  ⟨.value, ⟨3,9⟩, ⟨3,10⟩⟩,
  ⟨.blockSequenceStart, ⟨4,4⟩, ⟨4,4⟩⟩,
  ⟨.blockEntry, ⟨4,4⟩, ⟨4,5⟩⟩,
  ⟨.scalar ("x"), ⟨4,6⟩, ⟨4,7⟩⟩,
  ⟨.blockEnd, ⟨4,7⟩, ⟨4,7⟩⟩,
  ⟨.blockEnd, ⟨4,7⟩, ⟨4,7⟩⟩,
  ⟨.blockEnd, ⟨4,7⟩, ⟨4,7⟩⟩,
  ⟨.streamEnd, ⟨4,7⟩, ⟨4,7⟩⟩
]

/-- Two raw-token wrappers around scalar tokens with the same value `x`
but different source positions. -/
def tokC9a : Token := { kind := .scalar ("x"), start_mark := ⟨0,0⟩, end_mark := ⟨0,1⟩ }

/-- Companion token of `tokC9a`, same kind and value, later position. -/
def tokC9b : Token := { kind := .scalar ("x"), start_mark := ⟨1,0⟩, end_mark := ⟨1,1⟩ }

/-- `TokenNode(tokC9a)`. -/
def nodeC9a : Node := mkTokenNode tokC9a

/-- `TokenNode(tokC9b)`. -/
def nodeC9b : Node := mkTokenNode tokC9b


/-- Every breadcrumb entry below reverse-iterator index `f` names a node
whose start column is strictly smaller than `c` (the context-mark column):
the hypothesis under which the recovery walk only stamps ends. -/
def recoverAllBelow (st : PState) (f : Nat) (c : Int) : Bool :=
  (st.breadcrumbs.take f).all (fun nid =>
    match (storeGet st.store nid).start with
    | some sp => decide (sp.col < c)
    | none => false)

/-- The parser state after folding the yielded tokens of `docC4`, before
recovery runs (the error arm is never taken: the fold succeeds). -/
def c4Pre : PState :=
  match runTokens initState toksC4 with
  | .ok st => st
  | .error _ => initState

/-- The parser state after folding the first 15 tokens of `toksC2`, i.e.
just before the key scalar `require` of line 3 is processed: breadcrumbs
are `[0, 1, 2, 4]` with the provisional parameter 4 innermost, and the
block-start registry's last entry references node 4. -/
def c6Pre : PState :=
  match runTokens initState (toksC2.take 15) with
  | .ok st => st
  | .error _ => initState

/-- The store and node returned by `set_key` for the C6 scenario (the
error arm is never taken). -/
def c6Out : Store × Nat :=
  match set_key c6Pre.store 4 ("require") with
  | .ok p => p
  | .error _ => (c6Pre.store, 0)

/-- A two-node store for the C2 witness: a state call at 0 whose only
parameter is node 1. -/
def c2wStore : Store :=
  [{ start := some ⟨1, 2⟩, end_ := none, parent := none, id := none,
     data := .stateCallNode (some ("b.c")) [1] [] },
   { start := some ⟨2, 4⟩, end_ := none, parent := some 0, id := none,
     data := .stateParameterNode none .vnone }]

/-- The rendered form of the C7 document: the Jinja expression has been
replaced by the stub trace in double quotes. -/
def docC7r : String :=
  "a:\n  b.c:\n    - d: " ++ "\"" ++ magicV ++ "\""


/-- The parser state of the `docC3w` run, used as the concrete C3 scenario:
an include list followed by an ordinary top-level state. -/
def c3St : PState :=
  match parseModel docC3w toksC3w none with
  | .ok st => st
  | .error _ => initState

/-! # Theorems -/

/-! ## Store access lemmas -/

theorem storeSize_set (s : Store) (j : Nat) (n : Node) :
    storeSize (storeSet s j n) = storeSize s := by
  simp [storeSize, storeSet]

theorem storeSize_alloc (s : Store) (n : Node) :
    storeSize (s ++ [n]) = storeSize s + 1 := by
  simp [storeSize]

theorem storeSize_setData (s : Store) (j : Nat) (d : NodeData) :
    storeSize (storeSetData s j d) = storeSize s :=
  storeSize_set _ _ _

theorem storeGet_set_ne (s : Store) (j : Nat) (n : Node) (i : Nat) (h : j ≠ i) :
    storeGet (storeSet s j n) i = storeGet s i := by
  simp [storeGet, storeSet, List.getElem?_set_ne h]

theorem storeGet_set_self (s : Store) (j : Nat) (n : Node) (h : j < storeSize s) :
    storeGet (storeSet s j n) j = n := by
  simp [storeGet, storeSet, List.getElem?_set_eq_of_lt n h]

theorem storeGet_alloc_lt (s : Store) (n : Node) (i : Nat) (h : i < storeSize s) :
    storeGet (s ++ [n]) i = storeGet s i := by
  simp [storeGet, List.getElem?_append_left h]

theorem storeGet_alloc_self (s : Store) (n : Node) :
    storeGet (s ++ [n]) (storeSize s) = n := by
  simp [storeGet, storeSize, List.getElem?_concat_length]

theorem storeGet_setData_self (s : Store) (j : Nat) (d : NodeData)
    (h : j < storeSize s) :
    storeGet (storeSetData s j d) j = { storeGet s j with data := d } :=
  storeGet_set_self _ _ _ h

theorem storeGet_setData_ne (s : Store) (j : Nat) (d : NodeData) (i : Nat)
    (h : j ≠ i) : storeGet (storeSetData s j d) i = storeGet s i :=
  storeGet_set_ne _ _ _ _ h

theorem storeGet_out_of_range (s : Store) (i : Nat) (h : storeSize s ≤ i) :
    storeGet s i = defaultNode := by
  simp [storeGet, List.getElem?_eq_none h]

theorem storeUpdate_oor (s : Store) (i : Nat) (f : Node → Node)
    (h : storeSize s ≤ i) : storeUpdate s i f = s := by
  rw [storeUpdate, storeSet, List.set_eq_of_length_le h]

theorem storeGet_update_self (s : Store) (i : Nat) (f : Node → Node)
    (h : i < storeSize s) : storeGet (storeUpdate s i f) i = f (storeGet s i) :=
  storeGet_set_self _ _ _ h

theorem storeGet_update_ne (s : Store) (i : Nat) (f : Node → Node) (j : Nat)
    (h : i ≠ j) : storeGet (storeUpdate s i f) j = storeGet s j :=
  storeGet_set_ne _ _ _ _ h

theorem storeSize_update (s : Store) (i : Nat) (f : Node → Node) :
    storeSize (storeUpdate s i f) = storeSize s :=
  storeSize_set _ _ _

/-- Reading after an in-place update: the updated node if `i = j` is in
range, the old node otherwise. -/
theorem storeGet_update (s : Store) (i : Nat) (f : Node → Node) (j : Nat) :
    storeGet (storeUpdate s i f) j =
      if i = j ∧ i < storeSize s then f (storeGet s i) else storeGet s j := by
  by_cases hij : i = j
  · subst hij
    by_cases hi : i < storeSize s
    · rw [storeGet_update_self s i f hi, if_pos ⟨rfl, hi⟩]
    · rw [storeUpdate_oor s i f (Nat.le_of_not_lt hi),
        if_neg (fun h => hi h.2)]
  · rw [storeGet_update_ne s i f j hij, if_neg (fun h => hij h.1)]

theorem data_storeUpdate (s : Store) (i : Nat) (f : Node → Node)
    (hf : ∀ n, (f n).data = n.data) (j : Nat) :
    (storeGet (storeUpdate s i f) j).data = (storeGet s j).data := by
  rw [storeGet_update]
  by_cases h : i = j ∧ i < storeSize s
  · rw [if_pos h, hf, h.1]
  · rw [if_neg h]

theorem parent_storeUpdate (s : Store) (i : Nat) (f : Node → Node)
    (hf : ∀ n, (f n).parent = n.parent) (j : Nat) :
    (storeGet (storeUpdate s i f) j).parent = (storeGet s j).parent := by
  rw [storeGet_update]
  by_cases h : i = j ∧ i < storeSize s
  · rw [if_pos h, hf, h.1]
  · rw [if_neg h]

/-- Any node whose data is not the bare default tree lives inside the
allocated range. -/
theorem lt_size_of_data_ne (s : Store) (i : Nat)
    (h : (storeGet s i).data ≠ defaultNode.data) : i < storeSize s := by
  by_contra hge
  exact h (by rw [storeGet_out_of_range s i (Nat.le_of_not_lt hge)])

/-! ## C8: the Position order -/

/-- C8: `Position` comparison is a total order: `p < q` holds exactly when
`(p.line, p.col)` is lexicographically smaller than `(q.line, q.col)`;
`>` mirrors `<`; `<=` is `<`-or-structurally-equal and `>=` mirrors it; and
`<` is irreflexive, transitive and total (trichotomy), so the order is
total. -/
theorem c8_position_total_order :
    (∀ p q : Position, Position.lt p q = true ↔
        (p.line < q.line ∨ (p.line = q.line ∧ p.col < q.col)))
  ∧ (∀ p q : Position, Position.gt p q = true ↔ Position.lt q p = true)
  ∧ (∀ p q : Position, Position.le p q = true ↔ (Position.lt p q = true ∨ p = q))
  ∧ (∀ p q : Position, Position.ge p q = true ↔ (Position.lt q p = true ∨ p = q))
  ∧ (∀ p : Position, Position.lt p p = false)
  ∧ (∀ p q r : Position, Position.lt p q = true → Position.lt q r = true →
        Position.lt p r = true)
  ∧ (∀ p q : Position, Position.lt p q = true ∨ p = q ∨ Position.lt q p = true) := by
  refine ⟨?_, ?_, ?_, ?_, ?_, ?_, ?_⟩
  · intro p q
    simp only [Position.lt, Bool.or_eq_true, Bool.and_eq_true, decide_eq_true_eq,
      beq_iff_eq]
  · intro p q
    simp only [Position.gt, Position.lt, Bool.or_eq_true, Bool.and_eq_true,
      decide_eq_true_eq, beq_iff_eq]
    omega
  · intro p q
    cases p with | mk pl pc =>
    cases q with | mk ql qc =>
    simp only [Position.le, Position.lt, Bool.or_eq_true, Bool.and_eq_true,
      decide_eq_true_eq, beq_iff_eq, Position.mk.injEq]
  · intro p q
    cases p with | mk pl pc =>
    cases q with | mk ql qc =>
    simp only [Position.ge, Position.gt, Position.lt, Bool.or_eq_true,
      Bool.and_eq_true, decide_eq_true_eq, beq_iff_eq, Position.mk.injEq]
    omega
  · intro p
    simp only [Position.lt, Bool.or_eq_false_iff, Bool.and_eq_false_iff,
      decide_eq_false_iff_not]
    omega
  · intro p q r
    simp only [Position.lt, Bool.or_eq_true, Bool.and_eq_true, decide_eq_true_eq,
      beq_iff_eq]
    omega
  · intro p q
    cases p with | mk pl pc =>
    cases q with | mk ql qc =>
    simp only [Position.lt, Bool.or_eq_true, Bool.and_eq_true, decide_eq_true_eq,
      beq_iff_eq, Position.mk.injEq]
    omega

theorem c8_position_total_order_witness :
    Position.lt ⟨0, 0⟩ ⟨2, 1⟩ = true :=
  c8_position_total_order.2.2.2.2.2.1 ⟨0, 0⟩ ⟨1, 5⟩ ⟨2, 1⟩ (by decide) (by decide)



/-! ## C9: RawTokenNode equality -/

/-- C9 counterexample: two raw-token wrappers around scalar tokens of the
same kind and value but different positions.  The specification relation
(`same kind, and for scalars same value`) holds, yet `TokenNode.__eq__`
returns false, because the inherited dataclass comparison also requires the
`start`/`end` positions (and `id`) to agree.  This refutes the claimed
`if and only if`. -/
theorem c9_counterexample :
    specTokenNodeEq nodeC9a nodeC9b = true ∧ tokenNodeEq nodeC9a nodeC9b = false :=
  ⟨rfl, rfl⟩

/-- C9 (amended): two `TokenNode`s are equal iff their wrapped tokens have
the same kind — and, for scalar tokens, the same value — and in addition
the nodes' `start`, `end` and `id` fields coincide (the dataclass part of
the comparison, which the original claim omitted). -/
theorem c9_raw_token_equality (a b : Node) :
    tokenNodeEq a b = true ↔
      (specTokenNodeEq a b = true ∧ a.start = b.start ∧ a.end_ = b.end_ ∧ a.id = b.id) := by
  cases ha : a.data <;> cases hb : b.data <;>
    simp only [tokenNodeEq, specTokenNodeEq, ha, hb, Bool.and_eq_true, beq_iff_eq,
      false_and, and_false, false_iff, not_false_eq_true, iff_false] <;>
    try tauto

/-! ## C10: requisite keyword with a parent that is not a state call -/

/-- C10: when `StateParameterNode.set_key` receives one of the 21 requisite
keywords but the parameter's parent is not a `StateCallNode`, no
reclassification happens: the keyword is stored as the parameter's ordinary
`name` and the very same node is returned as the current node. -/
theorem c10_requisite_key_without_call_parent
    (s : Store) (i : Nat) (key : String) (nm : Option String) (v : PValue)
    (hdata : (storeGet s i).data = NodeData.stateParameterNode nm v)
    (_hkey : key ∈ all_requisites_keys)
    (hpar : parentIsStateCall s i = false) :
    set_key s i key =
      .ok (storeSetData s i (.stateParameterNode (some key) v), i) := by
  simp only [set_key, hdata, hpar, Bool.and_false, Bool.false_eq_true, if_false]

theorem c10_requisite_key_without_call_parent_witness :
    set_key [defaultNode,
      { start := none, end_ := none, parent := some 0, id := none,
        data := .stateParameterNode none .vnone }] 1 ("require") =
    .ok (storeSetData [defaultNode,
      { start := none, end_ := none, parent := some 0, id := none,
        data := .stateParameterNode none .vnone }] 1
        (.stateParameterNode (some ("require")) .vnone), 1) :=
  c10_requisite_key_without_call_parent _ 1 ("require") none .vnone rfl
    (by decide) rfl

/-! ## C1: parse on a valid document raises -/

/-- C1 (failing input): for the document `include:` followed by the list
item `- foo: bar` — plain valid YAML whose template rendering succeeds —
the parser does not return a tree at all: when the key scalar `foo` arrives
while the innermost open node is an `IncludeNode`, the key path evaluates
`getattr(self._breadcrumbs[-1], "set_key")` and `IncludeNode` defines no
`set_key`, so `parse` raises AttributeError.  This contradicts the claimed
guarantee that `parse` terminates without raising and returns a tree whose
root end is set. -/
theorem c1_parse_raises_on_valid_document :
    parseModel docC1 toksC1 none = .error PyErr.attributeError := rfl

/-! ## C5: construct_path_to_position -/

/-- C5: every call of `construct_path_to_position` fails with TypeError —
its first statement invokes the two-parameter `parser.parse(uri, document)`
with a single argument — so the claimed traversal behaviour (visit every
node containing P, return the path to the last match, empty path when
nothing matches) is never reached on any input. -/
theorem c5_construct_path_always_raises (document : String) (pos : Position) :
    construct_path_to_position document pos = .error PyErr.typeError := rfl

/-! ## C7: the stub trace round trip -/

/-- C7: composing the pillar stub as `pillar.get(..).get(..)` stringifies
to the accumulated call trace wrapped in double quotes, and parsing the
rendered document leaves exactly that trace (the scalar token value, with
the wrapping quotes consumed by the tokenizer as scalar delimiters) as the
parameter's value. -/
theorem c7_stub_trace_roundtrip :
    (((MagicResponder.mk ("pillar")).get [PyVal.pstr ("user")] []).get
        [PyVal.pstr ("name")] []).str = "\"" ++ magicV ++ "\""
  ∧ (parseModel docC7r toksC7 none).map (fun st => storeGet st.store 3) =
      .ok { start := some ⟨2, 4⟩, end_ := some ⟨2, 41⟩, parent := some 2, id := none,
            data := .stateParameterNode (some ("d")) (.vstr magicV) } :=
  ⟨rfl, rfl⟩

/-! ## C2: counterexample -/

/-- C2 counterexample: in `docC2` the requisite keyword `require` is used
as a parameter key directly under the state call `b.c` (line 3), and that
occurrence is indeed reclassified — node 5 is the `RequisitesNode` of kind
`require`, appended to the call's requisites and inheriting the converted
parameter's start (3,4).  Yet the resulting tree still contains a
`StateParameterNode` whose name is `require`: node 3, named by the bare
(un-keyed) scalar list item of line 2, survives in the call's parameter
list.  This refutes the claim's closing sentence that the resulting tree
never contains a `StateParameterNode` with that keyword as its name. -/
theorem c2_counterexample :
    (parseModel docC2 toksC2 none).map
      (fun st => (storeGet st.store 2, storeGet st.store 3, storeGet st.store 5)) =
    .ok ({ start := some ⟨1, 2⟩, end_ := some ⟨3, 16⟩, parent := some 1, id := none,
           data := .stateCallNode (some ("b.c")) [3] [5] },
         { start := some ⟨2, 4⟩, end_ := some ⟨3, 4⟩, parent := some 2, id := none,
           data := .stateParameterNode (some ("require")) .vnone },
         { start := some ⟨3, 4⟩, end_ := some ⟨3, 16⟩, parent := some 2, id := none,
           data := .requisitesNode (some ("require")) [] }) := rfl




/-! ## C4: the recovery walk over ancestors below the context column -/

theorem storeGet_setEnd_ne (s : Store) (j : Nat) (p : Option Position) (i : Nat)
    (h : j ≠ i) : storeGet (storeSetEnd s j p) i = storeGet s i :=
  storeGet_set_ne _ _ _ _ h

theorem storeGet_setEnd_self (s : Store) (j : Nat) (p : Option Position)
    (h : j < storeSize s) :
    storeGet (storeSetEnd s j p) j = { storeGet s j with end_ := p } :=
  storeGet_set_self _ _ _ h

theorem start_storeSetEnd (s : Store) (j : Nat) (p : Option Position) (i : Nat) :
    (storeGet (storeSetEnd s j p) i).start = (storeGet s i).start := by
  by_cases hji : j = i
  · subst hji
    by_cases hj : j < storeSize s
    · rw [storeGet_setEnd_self s j p hj]
    · rw [storeSetEnd, storeUpdate, storeSet,
        List.set_eq_of_length_le (Nat.le_of_not_lt hj)]
  · rw [storeGet_setEnd_ne s j p i hji]

theorem lt_size_of_start_some (s : Store) (i : Nat) (sp : Position)
    (h : (storeGet s i).start = some sp) : i < storeSize s := by
  by_contra hge
  rw [storeGet_out_of_range s i (Nat.le_of_not_lt hge)] at h
  simp [defaultNode] at h

theorem mem_take_of_get? {l : List Nat} {f n : Nat} {x : Nat}
    (h : l.get? n = some x) (hn : n < f) : x ∈ l.take f := by
  have h2 : (l.take f).get? n = some x := by
    simp only [List.get?_eq_getElem?] at *
    rw [List.getElem?_take_of_lt hn]
    exact h
  exact List.get?_mem h2

/-- C4 (amended): suppose a scanner error supplies both marks and every
breadcrumb node at reverse-iterator index below `f` has its start strictly
left of the context column.  Then the recovery walk visits them all: it
stamps every one of these nodes' `end` at the problem mark, synthesizes no
tokens, leaves the rest of the parser state (breadcrumbs, block starts,
flags, buffer, every other node) unchanged — and in particular it does not
stop at the innermost such node: the outer ancestors are stamped too. -/
theorem c4_recovery_walk_stamps_all_ancestors (document : String) (e : ScanErr)
    (cm pm : Mark) (hc : e.context_mark = some cm) (hp : e.problem_mark = some pm) :
    ∀ (f : Nat) (st : PState),
      f ≤ st.breadcrumbs.length →
      recoverAllBelow st f cm.col = true →
      ∃ st1, recoverLoop document e st f = .ok st1 ∧
        st1.breadcrumbs = st.breadcrumbs ∧
        st1.blockStarts = st.blockStarts ∧
        st1.nextScalarAsKey = st.nextScalarAsKey ∧
        st1.nextTokenIsValue = st.nextTokenIsValue ∧
        st1.unprocessedTokens = st.unprocessedTokens ∧
        st1.lastStart = st.lastStart ∧
        st1.colAdjustment = st.colAdjustment ∧
        ∀ j : Nat, storeGet st1.store j =
          (if j ∈ st.breadcrumbs.take f
           then { storeGet st.store j with end_ := some ⟨pm.line, pm.col⟩ }
           else storeGet st.store j) := by
  intro f
  induction f with
  | zero =>
    intro st _ _
    exact ⟨st, rfl, rfl, rfl, rfl, rfl, rfl, rfl, rfl, by simp⟩
  | succ f ih =>
    intro st hlen hall
    have hflt : f < st.breadcrumbs.length := Nat.lt_of_succ_le hlen
    obtain ⟨nid, hnid⟩ : ∃ x, st.breadcrumbs.get? f = some x :=
      ⟨_, List.get?_eq_get hflt⟩
    have hmemf : nid ∈ st.breadcrumbs.take (f + 1) :=
      mem_take_of_get? hnid (Nat.lt_succ_self f)
    simp only [recoverAllBelow, List.all_eq_true] at hall
    obtain ⟨sp, hs, hcol⟩ :
        ∃ sp, (storeGet st.store nid).start = some sp ∧ sp.col < cm.col := by
      have h1 := hall nid hmemf
      cases hsc : (storeGet st.store nid).start with
      | none => rw [hsc] at h1; simp at h1
      | some sp => rw [hsc] at h1; exact ⟨sp, rfl, by simpa using h1⟩
    have hnlt : nid < storeSize st.store := lt_size_of_start_some _ _ _ hs
    have hbody : recoverBody document e st nid =
        .ok { st with store := storeSetEnd st.store nid (some ⟨pm.line, pm.col⟩) } := by
      simp only [recoverBody, hs, hc, hp]
      rw [if_neg (by omega)]
      rw [if_neg (by simp only [beq_iff_eq]; omega)]
    set st1 : PState :=
      { st with store := storeSetEnd st.store nid (some ⟨pm.line, pm.col⟩) } with hst1
    have hall1 : recoverAllBelow st1 f cm.col = true := by
      simp only [recoverAllBelow, List.all_eq_true]
      intro x hx
      have hx1 : x ∈ st.breadcrumbs.take (f + 1) := by
        rw [List.take_succ]
        exact List.mem_append_left _ hx
      have h1 := hall x hx1
      have hseq : (storeGet st1.store x).start = (storeGet st.store x).start :=
        start_storeSetEnd _ _ _ _
      rw [hseq]
      exact h1
    obtain ⟨st2, hrec, hbc, hbs, hk, hv, hu, hl, hca, hstore⟩ :=
      ih st1 (by simpa using hlen.trans (Nat.le_succ _) |>.trans (le_refl _) |>.trans (le_refl _)) hall1
    refine ⟨st2, ?_, by simpa using hbc, by simpa using hbs, by simpa using hk,
      by simpa using hv, by simpa using hu, by simpa using hl, by simpa using hca, ?_⟩
    · rw [recoverLoop, if_pos hflt, hnid]
      show (recoverBody document e st nid >>= fun s => recoverLoop document e s f) = _
      rw [hbody]
      simpa using hrec
    · intro j
      have hst1bc : st1.breadcrumbs = st.breadcrumbs := rfl
      rw [hstore j, hst1bc]
      rw [List.take_succ]
      simp only [List.get?_eq_getElem?] at hnid
      rw [hnid]
      by_cases hjf : j ∈ st.breadcrumbs.take f
      · have hj1 : j ∈ st.breadcrumbs.take f ++ (some nid).toList :=
          List.mem_append_left _ hjf
        rw [if_pos hjf, if_pos hj1]
        by_cases hjn : nid = j
        · subst hjn
          rw [storeGet_setEnd_self _ _ _ hnlt]
        · rw [storeGet_setEnd_ne _ _ _ _ hjn]
      · by_cases hjn : nid = j
        · subst hjn
          have hj1 : nid ∈ st.breadcrumbs.take f ++ (some nid).toList := by
            simp
          rw [if_neg hjf, if_pos hj1, storeGet_setEnd_self _ _ _ hnlt]
        · have hj1 : ¬ j ∈ st.breadcrumbs.take f ++ (some nid).toList := by
            simp only [List.mem_append, Option.toList_some, List.mem_singleton]
            rintro (h | h)
            · exact hjf h
            · exact hjn h.symm
          rw [if_neg hjf, if_neg hj1, storeGet_setEnd_ne _ _ _ _ hjn]




/-- C4 counterexample: for `docC4` with the scanner error `errC4` the
recovery walk first reaches node 3 (start column 4, strictly less than the
context column 7).  The claim says the walk stamps that node's end at the
problem mark and stops there, leaving all outer ancestors untouched — here
nodes 2, 1 and 0, whose `end` is still `None` when the walk starts, since
no closing tokens were ever seen.  Instead, after recovery all three outer
ancestors' ends equal the problem mark (2,9): the walk did not stop. -/
theorem c4_counterexample :
    (runTokens initState toksC4).map (fun st =>
        (st.breadcrumbs, (storeGet st.store 3).start,
         (storeGet st.store 2).end_, (storeGet st.store 1).end_,
         (storeGet st.store 0).end_)) =
      .ok ([0, 1, 2, 3], some ⟨2, 4⟩, none, none, none)
  ∧ (parseModel docC4 toksC4 (some errC4)).map (fun st =>
        ((storeGet st.store 2).end_, (storeGet st.store 1).end_,
         (storeGet st.store 0).end_)) =
      .ok (some ⟨2, 9⟩, some ⟨2, 9⟩, some ⟨2, 9⟩) :=
  ⟨rfl, rfl⟩

theorem c4_recovery_walk_stamps_all_ancestors_witness :
    ∃ st1, recoverLoop docC4 errC4 c4Pre 4 = .ok st1 ∧
      st1.breadcrumbs = c4Pre.breadcrumbs ∧
      storeGet st1.store 0 =
        { storeGet c4Pre.store 0 with end_ := some ⟨2, 9⟩ } := by
  obtain ⟨st1, h1, h2, _, _, _, _, _, _, h9⟩ :=
    c4_recovery_walk_stamps_all_ancestors docC4 errC4 ⟨2, 7, 15⟩ ⟨2, 9, 17⟩ rfl rfl
      4 c4Pre (by decide) (by decide)
  refine ⟨st1, h1, h2, ?_⟩
  have h0 := h9 0
  rw [if_pos (by decide)] at h0
  exact h0

/-! ## C2 (amended): the reclassification itself -/

/-- C2 (amended): when a provisional `StateParameterNode` receives one of
the 21 requisite keywords while its parent is a `StateCallNode`, the
parameter is removed from the parent's parameter list and replaced by a
fresh `RequisitesNode` whose kind is the keyword, appended to the parent's
requisites list and inheriting the parameter's start position; the
replacement is a different node than the parameter, and the parameter's own
fields are left untouched — in particular the key-setter never stores a
requisite keyword as a parameter's name.  (The original claim's closing
sentence — that the resulting tree never contains a `StateParameterNode`
with that keyword as its name — fails, per `c2_counterexample`, for a bare
un-keyed scalar occurrence of the keyword, which is assigned as a parameter
name by the value path of the scalar handler.) -/
theorem c2_requisite_keyword_reclassification
    (s : Store) (pid cid : Nat) (key : String)
    (pnm : Option String) (pv : PValue) (cnm : Option String)
    (ps rs ps1 : List Nat)
    (hkey : key ∈ all_requisites_keys)
    (hdata : (storeGet s pid).data = NodeData.stateParameterNode pnm pv)
    (hpar : (storeGet s pid).parent = some cid)
    (hc : (storeGet s cid).data = NodeData.stateCallNode cnm ps rs)
    (hrem : pyListRemove s ps pid = some ps1) :
    ∃ s1, set_key s pid key = .ok (s1, storeSize s) ∧
      storeSize s ≠ pid ∧
      (storeGet s1 cid).data = NodeData.stateCallNode cnm ps1 (rs ++ [storeSize s]) ∧
      (storeGet s1 (storeSize s)).data = NodeData.requisitesNode (some key) [] ∧
      (storeGet s1 (storeSize s)).start = (storeGet s pid).start ∧
      (storeGet s1 (storeSize s)).parent = some cid ∧
      storeGet s1 pid = storeGet s pid := by
  have hplt : pid < storeSize s := by
    apply lt_size_of_data_ne
    rw [hdata]
    simp [defaultNode]
  have hclt : cid < storeSize s := by
    apply lt_size_of_data_ne
    rw [hc]
    simp [defaultNode]
  have hpc : pid ≠ cid := by
    intro h
    rw [h, hc] at hdata
    exact NodeData.noConfusion hdata
  have hcall : parentIsStateCall s pid = true := by
    simp only [parentIsStateCall, hpar]
    rw [hc]
    rfl
  have hcontains : all_requisites_keys.contains key = true := by
    exact List.elem_iff.mpr hkey
  have hsk : set_key s pid key = stateCall_convert s cid pid key := by
    simp only [set_key, hdata, hcontains, hcall, Bool.and_self, if_true, hpar]
  rw [hsk]
  simp only [stateCall_convert, hc, hrem, storeAlloc, storeSize_setData]
  have hsz1 : storeSize (storeSetData s cid (NodeData.stateCallNode cnm ps1 rs)) =
      storeSize s := storeSize_setData _ _ _
  have hszA : storeSize (storeSetData s cid (NodeData.stateCallNode cnm ps1 rs) ++
      [{ start := (storeGet s pid).start, end_ := none, parent := some cid, id := none,
          data := NodeData.requisitesNode (some key) [] }]) = storeSize s + 1 := by
    rw [storeSize_alloc, hsz1]
  have hrid : storeSize s ≠ cid := by omega
  refine ⟨_, rfl, by omega, ?_, ?_, ?_, ?_, ?_⟩
  · rw [storeGet_setData_self _ _ _ (by rw [hszA]; omega)]
  · rw [storeGet_setData_ne _ _ _ _ (Ne.symm hrid), ← hsz1, storeGet_alloc_self]
  · rw [storeGet_setData_ne _ _ _ _ (Ne.symm hrid), ← hsz1, storeGet_alloc_self]
  · rw [storeGet_setData_ne _ _ _ _ (Ne.symm hrid), ← hsz1, storeGet_alloc_self]
  · rw [storeGet_setData_ne _ _ _ _ (Ne.symm hpc)]
    rw [storeGet_alloc_lt _ _ _ (by rw [hsz1]; omega)]
    rw [storeGet_setData_ne _ _ _ _ (Ne.symm hpc)]

theorem c2_requisite_keyword_reclassification_witness :
    ∃ s1, set_key c2wStore 1 ("require") = .ok (s1, 2) ∧
      (storeGet s1 0).data = NodeData.stateCallNode (some ("b.c")) [] [2] ∧
      (storeGet s1 2).data = NodeData.requisitesNode (some ("require")) [] ∧
      (storeGet s1 2).start = some ⟨2, 4⟩ := by
  obtain ⟨s1, h1, _, h3, h4, h5, _, _⟩ :=
    c2_requisite_keyword_reclassification c2wStore 1 0 ("require") none .vnone
      (some ("b.c")) [1] [] [] (by decide) rfl rfl rfl (by decide)
  have hsz : storeSize c2wStore = 2 := rfl
  rw [hsz] at h1 h3 h4 h5
  exact ⟨s1, h1, by simpa using h3, h4, h5.trans rfl⟩




/-! ## C6: reclassification updates every outstanding reference -/

/-- C6: processing a key scalar whose `set_key` reclassifies the innermost
node (the key path of `_process_token_scalar`): if the old node sat on top
of the breadcrumb stack and nowhere else, and the only block-start entries
structurally equal to the old node are those referencing it, then after the
step the breadcrumb top is the replacement node, every block-start entry
that referenced the old node references the replacement instead, and no
breadcrumb or block-start entry references the discarded node any more. -/
theorem c6_reclassification_updates_references
    (st : PState) (bc : List Nat) (old : Nat) (v : String)
    (token_start token_end : Position) (s1 : Store) (changed : Nat)
    (hkey : st.nextScalarAsKey = true)
    (hbc : st.breadcrumbs = bc ++ [old])
    (hset : (storeGet st.store old).data.hasSetKey = true)
    (hsk : set_key st.store old v = .ok (s1, changed))
    (hne : nodeEqB s1 changed old = false)
    (hcne : changed ≠ old)
    (hreflo : nodeEqB s1 old old = true)
    (hrefl : ∀ pr ∈ st.blockStarts, nodeEqB s1 pr.2 old = true → pr.2 = old)
    (hold : old ∉ bc) :
    ∃ st1, processTokenScalar st v token_start token_end = .ok st1 ∧
      st1.store = s1 ∧
      st1.breadcrumbs = bc ++ [changed] ∧
      st1.blockStarts = st.blockStarts.map
        (fun pr => if pr.2 = old then (pr.1, changed) else pr) ∧
      st1.nextScalarAsKey = false ∧
      old ∉ st1.breadcrumbs ∧
      ∀ pr ∈ st1.blockStarts, pr.2 ≠ old := by
  have hlast : st.breadcrumbs.getLast? = some old := by
    rw [hbc]
    exact List.getLast?_concat bc
  have hmap : st.blockStarts.map
        (fun pr => if nodeEqB s1 pr.2 old = true then (pr.1, changed) else pr) =
      st.blockStarts.map (fun pr => if pr.2 = old then (pr.1, changed) else pr) := by
    apply List.map_congr_left
    intro pr hpr
    by_cases hpo : pr.2 = old
    · rw [if_pos (by rw [hpo]; exact hreflo), if_pos hpo]
    · have hf : nodeEqB s1 pr.2 old = false := by
        cases hq : nodeEqB s1 pr.2 old with
        | false => rfl
        | true => exact absurd (hrefl pr hpr hq) hpo
      rw [if_neg (by rw [hf]; simp), if_neg hpo]
  refine ⟨{ st with
            store := s1
            breadcrumbs := st.breadcrumbs.dropLast ++ [changed]
            blockStarts := st.blockStarts.map
              (fun pr => if nodeEqB s1 pr.2 old = true then (pr.1, changed) else pr)
            nextScalarAsKey := false
            nextTokenIsValue := false },
    ?_, rfl, ?_, ?_, rfl, ?_, ?_⟩
  · simp only [processTokenScalar, hkey, if_true, hlast, hset, Bool.not_true,
      Bool.false_eq_true, if_false, hsk, hne, Bool.not_false, if_true,
      bind, Except.bind]
  · show st.breadcrumbs.dropLast ++ [changed] = bc ++ [changed]
    rw [hbc, List.dropLast_concat]
  · exact hmap
  · show old ∉ st.breadcrumbs.dropLast ++ [changed]
    rw [hbc, List.dropLast_concat]
    intro hmem
    rcases List.mem_append.1 hmem with h | h
    · exact hold h
    · exact hcne (List.mem_singleton.1 h).symm
  · intro pr hpr
    rw [hmap] at hpr
    rcases List.mem_map.1 hpr with ⟨pr0, hpr0, hmapeq⟩
    by_cases hpo : pr0.2 = old
    · rw [if_pos hpo] at hmapeq
      rw [← hmapeq]
      exact hcne
    · rw [if_neg hpo] at hmapeq
      rw [← hmapeq]
      exact hpo


theorem c6_reclassification_updates_references_witness :
    ∃ st1, processTokenScalar c6Pre ("require") ⟨3, 6⟩ ⟨3, 13⟩ = .ok st1 ∧
      st1.breadcrumbs = [0, 1, 2, 5] ∧
      ∀ pr ∈ st1.blockStarts, pr.2 ≠ 4 := by
  obtain ⟨st1, h1, _, h3, _, _, h7⟩ :=
    c6_reclassification_updates_references c6Pre [0, 1, 2] 4 ("require")
      ⟨3, 6⟩ ⟨3, 13⟩ c6Out.1 c6Out.2 rfl rfl rfl rfl (by decide) (by decide)
      (by decide) (by decide) (by decide)
  refine ⟨st1, h1, ?_, h7.2⟩
  rw [h3]
  rfl



/-! ## C3: the include/extend conversion, and the parser invariant -/

theorem rootStates_congr (s s' : Store)
    (h : (storeGet s' 0).data = (storeGet s 0).data) :
    rootStates s' = rootStates s := by
  rw [rootStates, rootStates, h]

theorem InvStore_setStart (s : Store) (j : Nat) (p : Option Position) :
    InvStore s → InvStore (storeSetStart s j p) := by
  rintro ⟨h0, ht, hm⟩
  have hd : ∀ i, (storeGet (storeSetStart s j p) i).data = (storeGet s i).data :=
    fun i => data_storeUpdate s j (fun n => { n with start := p }) (fun _ => rfl) i
  have hp : ∀ i, (storeGet (storeSetStart s j p) i).parent = (storeGet s i).parent :=
    fun i => parent_storeUpdate s j (fun n => { n with start := p }) (fun _ => rfl) i
  refine ⟨by rw [storeSetStart, storeSize_update]; exact h0,
    by rw [hd 0]; exact ht, ?_⟩
  intro sid hsid
  rw [rootStates_congr s _ (hd 0)] at hsid
  obtain ⟨⟨nm, sts, hdata, h1, h2⟩, hpar⟩ := hm sid hsid
  exact ⟨⟨nm, sts, by rw [hd sid]; exact hdata, h1, h2⟩,
    by rw [hp sid]; exact hpar⟩

theorem InvStore_setEnd (s : Store) (j : Nat) (p : Option Position) :
    InvStore s → InvStore (storeSetEnd s j p) := by
  rintro ⟨h0, ht, hm⟩
  have hd : ∀ i, (storeGet (storeSetEnd s j p) i).data = (storeGet s i).data :=
    fun i => data_storeUpdate s j (fun n => { n with end_ := p }) (fun _ => rfl) i
  have hp : ∀ i, (storeGet (storeSetEnd s j p) i).parent = (storeGet s i).parent :=
    fun i => parent_storeUpdate s j (fun n => { n with end_ := p }) (fun _ => rfl) i
  refine ⟨by rw [storeSetEnd, storeSize_update]; exact h0,
    by rw [hd 0]; exact ht, ?_⟩
  intro sid hsid
  rw [rootStates_congr s _ (hd 0)] at hsid
  obtain ⟨⟨nm, sts, hdata, h1, h2⟩, hpar⟩ := hm sid hsid
  exact ⟨⟨nm, sts, by rw [hd sid]; exact hdata, h1, h2⟩,
    by rw [hp sid]; exact hpar⟩

theorem InvStore_setParent (s : Store) (j : Nat) (q : Option Nat)
    (hj : (storeGet s j).data.isStateNode = false) :
    InvStore s → InvStore (storeSetParent s j q) := by
  rintro ⟨h0, ht, hm⟩
  have hd : ∀ i, (storeGet (storeSetParent s j q) i).data = (storeGet s i).data :=
    fun i => data_storeUpdate s j (fun n => { n with parent := q }) (fun _ => rfl) i
  refine ⟨by rw [storeSetParent, storeSize_update]; exact h0,
    by rw [hd 0]; exact ht, ?_⟩
  intro sid hsid
  rw [rootStates_congr s _ (hd 0)] at hsid
  obtain ⟨⟨nm, sts, hdata, h1, h2⟩, hpar⟩ := hm sid hsid
  have hjs : j ≠ sid := by
    intro h
    subst h
    rw [hdata] at hj
    simp [NodeData.isStateNode] at hj
  refine ⟨⟨nm, sts, by rw [hd sid]; exact hdata, h1, h2⟩, ?_⟩
  rw [storeSetParent, storeGet_update_ne _ _ _ _ hjs]
  exact hpar

theorem InvStore_alloc (s : Store) (n : Node) :
    InvStore s → InvStore (s ++ [n]) := by
  rintro ⟨h0, ht, hm⟩
  have hg0 : storeGet (s ++ [n]) 0 = storeGet s 0 := storeGet_alloc_lt _ _ _ h0
  refine ⟨by rw [storeSize_alloc]; omega, by rw [hg0]; exact ht, ?_⟩
  intro sid hsid
  rw [rootStates_congr s _ (by rw [hg0])] at hsid
  obtain ⟨⟨nm, sts, hdata, h1, h2⟩, hpar⟩ := hm sid hsid
  have hlt : sid < storeSize s :=
    lt_size_of_data_ne s sid (by rw [hdata]; simp [defaultNode])
  have hgs : storeGet (s ++ [n]) sid = storeGet s sid := storeGet_alloc_lt _ _ _ hlt
  exact ⟨⟨nm, sts, by rw [hgs]; exact hdata, h1, h2⟩, by rw [hgs]; exact hpar⟩

theorem InvStore_setData_other (s : Store) (j : Nat) (d : NodeData)
    (hjt : (storeGet s j).data.isTree = false)
    (hjs : (storeGet s j).data.isStateNode = false) :
    InvStore s → InvStore (storeSetData s j d) := by
  rintro ⟨h0, ht, hm⟩
  have hj0 : j ≠ 0 := by
    intro h
    subst h
    rw [ht] at hjt
    exact absurd hjt (by simp)
  have hg0 : storeGet (storeSetData s j d) 0 = storeGet s 0 := by
    rw [storeSetData]
    exact storeGet_update_ne _ _ _ _ hj0
  refine ⟨by rw [storeSetData, storeSize_update]; exact h0,
    by rw [hg0]; exact ht, ?_⟩
  intro sid hsid
  rw [rootStates_congr s _ (by rw [hg0])] at hsid
  obtain ⟨⟨nm, sts, hdata, h1, h2⟩, hpar⟩ := hm sid hsid
  have hjsid : j ≠ sid := by
    intro h
    subst h
    rw [hdata] at hjs
    simp [NodeData.isStateNode] at hjs
  have hgs : storeGet (storeSetData s j d) sid = storeGet s sid := by
    rw [storeSetData]
    exact storeGet_update_ne _ _ _ _ hjsid
  exact ⟨⟨nm, sts, by rw [hgs]; exact hdata, h1, h2⟩, by rw [hgs]; exact hpar⟩

theorem InvStore_setData_state (s : Store) (j : Nat)
    (nm nm' : Option String) (sts sts' : List Nat)
    (hold : (storeGet s j).data = NodeData.stateNode nm sts)
    (hok : j ∈ rootStates s → nm' ≠ some ("include") ∧ nm' ≠ some ("extend")) :
    InvStore s → InvStore (storeSetData s j (NodeData.stateNode nm' sts')) := by
  rintro ⟨h0, ht, hm⟩
  have hj0 : j ≠ 0 := by
    intro h
    subst h
    rw [hold] at ht
    simp [NodeData.isTree] at ht
  have hjlt : j < storeSize s :=
    lt_size_of_data_ne s j (by rw [hold]; simp [defaultNode])
  have hg0 : storeGet (storeSetData s j (NodeData.stateNode nm' sts')) 0 =
      storeGet s 0 := by
    rw [storeSetData]
    exact storeGet_update_ne _ _ _ _ hj0
  refine ⟨by rw [storeSetData, storeSize_update]; exact h0,
    by rw [hg0]; exact ht, ?_⟩
  intro sid hsid
  rw [rootStates_congr s _ (by rw [hg0])] at hsid
  by_cases hjsid : j = sid
  · subst hjsid
    obtain ⟨h1, h2⟩ := hok hsid
    obtain ⟨_, hpar⟩ := hm j hsid
    have hgj : storeGet (storeSetData s j (NodeData.stateNode nm' sts')) j =
        { storeGet s j with data := NodeData.stateNode nm' sts' } := by
      rw [storeSetData]
      exact storeGet_update_self _ _ _ hjlt
    refine ⟨⟨nm', sts', by rw [hgj], h1, h2⟩, ?_⟩
    rw [hgj]
    exact hpar
  · obtain ⟨⟨nm0, sts0, hdata, h1, h2⟩, hpar⟩ := hm sid hsid
    have hgs : storeGet (storeSetData s j (NodeData.stateNode nm' sts')) sid =
        storeGet s sid := by
      rw [storeSetData]
      exact storeGet_update_ne _ _ _ _ hjsid
    exact ⟨⟨nm0, sts0, by rw [hgs]; exact hdata, h1, h2⟩, by rw [hgs]; exact hpar⟩

theorem mem_of_mem_pyListRemove (s : Store) :
    ∀ (l l' : List Nat) (t x : Nat),
      pyListRemove s l t = some l' → x ∈ l' → x ∈ l := by
  intro l
  induction l with
  | nil =>
    intro l' t x h
    exact absurd h (by rw [pyListRemove]; simp)
  | cons a as ih =>
    intro l' t x h hx
    rw [pyListRemove] at h
    by_cases ha : nodeEqB s a t
    · rw [if_pos ha] at h
      cases h
      exact List.mem_cons_of_mem a hx
    · rw [if_neg ha] at h
      cases hrec : pyListRemove s as t with
      | none => rw [hrec] at h; simp at h
      | some l0 =>
        rw [hrec] at h
        have h2 : a :: l0 = l' := by
          simpa using h
        subst h2
        rcases List.mem_cons.1 hx with h | h
        · exact h ▸ List.mem_cons_self a as
        · exact List.mem_cons_of_mem a (ih l0 t x hrec h)



theorem InvStore_setData_tree (s : Store) (r : Nat) (inc1 ext1 : Option Nat)
    (inc ext : Option Nat) (rst rst1 : List Nat)
    (ht : (storeGet s r).data = NodeData.tree inc ext rst)
    (hsub : ∀ x ∈ rst1, x ∈ rst) :
    InvStore s → InvStore (storeSetData s r (NodeData.tree inc1 ext1 rst1)) := by
  rintro ⟨h0, htree, hm⟩
  by_cases hrlt : r < storeSize s
  swap
  · rw [storeSetData, storeUpdate_oor s r _ (Nat.le_of_not_lt hrlt)]
    exact ⟨h0, htree, hm⟩
  have hgr : storeGet (storeSetData s r (NodeData.tree inc1 ext1 rst1)) r =
      { storeGet s r with data := NodeData.tree inc1 ext1 rst1 } := by
    rw [storeSetData]
    exact storeGet_update_self _ _ _ hrlt
  by_cases hr0 : r = 0
  · subst hr0
    have hroot : rootStates s = rst := by
      rw [rootStates, ht]
    have hroot1 : rootStates (storeSetData s 0 (NodeData.tree inc1 ext1 rst1)) = rst1 := by
      rw [rootStates, hgr]
    refine ⟨by rw [storeSetData, storeSize_update]; exact h0,
      by rw [hgr]; rfl, ?_⟩
    intro sid hsid
    rw [hroot1] at hsid
    have hsid0 : sid ∈ rootStates s := by
      rw [hroot]
      exact hsub sid hsid
    obtain ⟨⟨nm, sts, hdata, h1, h2⟩, hpar⟩ := hm sid hsid0
    have hs0 : (0 : Nat) ≠ sid := by
      intro h
      rw [← h, ht] at hdata
      exact NodeData.noConfusion hdata
    have hgs : storeGet (storeSetData s 0 (NodeData.tree inc1 ext1 rst1)) sid =
        storeGet s sid := by
      rw [storeSetData]
      exact storeGet_update_ne _ _ _ _ hs0
    exact ⟨⟨nm, sts, by rw [hgs]; exact hdata, h1, h2⟩, by rw [hgs]; exact hpar⟩
  · have hg0 : storeGet (storeSetData s r (NodeData.tree inc1 ext1 rst1)) 0 =
        storeGet s 0 := by
      rw [storeSetData]
      exact storeGet_update_ne _ _ _ _ hr0
    refine ⟨by rw [storeSetData, storeSize_update]; exact h0,
      by rw [hg0]; exact htree, ?_⟩
    intro sid hsid
    rw [rootStates_congr s _ (by rw [hg0])] at hsid
    obtain ⟨⟨nm, sts, hdata, h1, h2⟩, hpar⟩ := hm sid hsid
    have hrs : r ≠ sid := by
      intro h
      rw [← h, ht] at hdata
      exact NodeData.noConfusion hdata
    have hgs : storeGet (storeSetData s r (NodeData.tree inc1 ext1 rst1)) sid =
        storeGet s sid := by
      rw [storeSetData]
      exact storeGet_update_ne _ _ _ _ hrs
    exact ⟨⟨nm, sts, by rw [hgs]; exact hdata, h1, h2⟩, by rw [hgs]; exact hpar⟩

theorem InvStore_stateCall_convert (s : Store) (callId pid : Nat) (key : String)
    (s' : Store) (n : Nat) (h : stateCall_convert s callId pid key = .ok (s', n)) :
    InvStore s → InvStore s' := by
  intro hinv
  cases hc : (storeGet s callId).data with
  | stateCallNode nm ps rs =>
    simp only [stateCall_convert, hc] at h
    cases hrem : pyListRemove s ps pid with
    | none =>
      rw [hrem] at h
      exact absurd h (by simp)
    | some ps1 =>
      rw [hrem] at h
      simp only [storeAlloc, Except.ok.injEq, Prod.mk.injEq] at h
      obtain ⟨hs', _⟩ := h
      subst hs'
      have hclt : callId < storeSize s :=
        lt_size_of_data_ne s callId (by rw [hc]; simp [defaultNode])
      have hinv1 : InvStore (storeSetData s callId (NodeData.stateCallNode nm ps1 rs)) :=
        InvStore_setData_other s callId _ (by rw [hc]; rfl) (by rw [hc]; rfl) hinv
      have hinv2 := InvStore_alloc _
        { start := (storeGet s pid).start, end_ := none, parent := some callId,
          id := none, data := NodeData.requisitesNode (some key) [] } hinv1
      apply InvStore_setData_other _ _ _ _ _ hinv2
      · have : storeGet (storeSetData s callId (NodeData.stateCallNode nm ps1 rs) ++
            [{ start := (storeGet s pid).start, end_ := none, parent := some callId,
               id := none, data := NodeData.requisitesNode (some key) [] }]) callId =
            { storeGet s callId with data := NodeData.stateCallNode nm ps1 rs } := by
          rw [storeGet_alloc_lt _ _ _ (by rw [storeSize_setData]; exact hclt)]
          rw [storeGet_setData_self _ _ _ hclt]
        rw [this]
        rfl
      · have : storeGet (storeSetData s callId (NodeData.stateCallNode nm ps1 rs) ++
            [{ start := (storeGet s pid).start, end_ := none, parent := some callId,
               id := none, data := NodeData.requisitesNode (some key) [] }]) callId =
            { storeGet s callId with data := NodeData.stateCallNode nm ps1 rs } := by
          rw [storeGet_alloc_lt _ _ _ (by rw [storeSize_setData]; exact hclt)]
          rw [storeGet_setData_self _ _ _ hclt]
        rw [this]
        rfl
  | tree inc ext sts => simp only [stateCall_convert, hc] at h; exact absurd h (by simp)
  | includesNode l => simp only [stateCall_convert, hc] at h; exact absurd h (by simp)
  | includeNode v => simp only [stateCall_convert, hc] at h; exact absurd h (by simp)
  | stateNode nm sts => simp only [stateCall_convert, hc] at h; exact absurd h (by simp)
  | stateParameterNode nm v => simp only [stateCall_convert, hc] at h; exact absurd h (by simp)
  | requisitesNode k rs => simp only [stateCall_convert, hc] at h; exact absurd h (by simp)
  | requisiteNode m r => simp only [stateCall_convert, hc] at h; exact absurd h (by simp)
  | extendNode sts => simp only [stateCall_convert, hc] at h; exact absurd h (by simp)
  | tokenNode t => simp only [stateCall_convert, hc] at h; exact absurd h (by simp)



theorem InvStore_tree_convert (s : Store) (r sid : Nat) (key : String)
    (s' : Store) (n : Nat) (h : tree_convert s r sid key = .ok (s', n)) :
    InvStore s → InvStore s' := by
  intro hinv
  cases ht : (storeGet s r).data with
  | tree inc ext rst =>
    simp only [tree_convert, ht] at h
    cases hrem : pyListRemove s rst sid with
    | none =>
      rw [hrem] at h
      exact absurd h (by simp)
    | some rst1 =>
      rw [hrem] at h
      have hsub : ∀ x ∈ rst1, x ∈ rst := fun x hx =>
        mem_of_mem_pyListRemove s rst rst1 sid x hrem hx
      have hrlt : r < storeSize s := by
        by_contra hge
        rw [storeGet_out_of_range s r (Nat.le_of_not_lt hge)] at ht
        simp only [defaultNode] at ht
        injection ht with h1 h2 h3
        rw [← h3, pyListRemove] at hrem
        exact Option.noConfusion hrem
      have hinv1 : InvStore (storeSetData s r (NodeData.tree inc ext rst1)) :=
        InvStore_setData_tree s r inc ext inc ext rst rst1 ht hsub hinv
      by_cases hki : key = "include"
      · subst hki
        simp only [beq_self_eq_true, if_true, storeAlloc, Except.ok.injEq,
          Prod.mk.injEq] at h
        obtain ⟨hs', _⟩ := h
        subst hs'
        set nd : Node :=
          { start := (storeGet s sid).start, end_ := none, parent := some r,
            id := none, data := NodeData.includesNode [] } with hnd
        have hinv2 : InvStore (storeSetData s r (NodeData.tree inc ext rst1) ++ [nd]) :=
          InvStore_alloc _ nd hinv1
        apply InvStore_setData_tree _ r _ ext inc ext rst1 rst1 ?_
          (fun x hx => hx) hinv2
        rw [storeGet_alloc_lt _ _ _ (by rw [storeSize_setData]; exact hrlt)]
        rw [storeGet_setData_self _ _ _ hrlt]
      · by_cases hke : key = "extend"
        · subst hke
          simp only [beq_self_eq_true, if_true, storeAlloc, Except.ok.injEq,
            Prod.mk.injEq, if_neg (by simp : ¬(("extend" == "include") = true))] at h
          obtain ⟨hs', _⟩ := h
          subst hs'
          set nd : Node :=
            { start := (storeGet s sid).start, end_ := none, parent := some r,
              id := none, data := NodeData.extendNode [] } with hnd
          have hinv2 : InvStore (storeSetData s r (NodeData.tree inc ext rst1) ++ [nd]) :=
            InvStore_alloc _ nd hinv1
          apply InvStore_setData_tree _ r inc _ inc ext rst1 rst1 ?_
            (fun x hx => hx) hinv2
          rw [storeGet_alloc_lt _ _ _ (by rw [storeSize_setData]; exact hrlt)]
          rw [storeGet_setData_self _ _ _ hrlt]
        · have hki2 : (key == "include") = false := by simp [hki]
          have hke2 : (key == "extend") = false := by simp [hke]
          simp only [hki2, hke2, Bool.false_eq_true, if_false, Except.ok.injEq,
            Prod.mk.injEq] at h
          obtain ⟨hs', _⟩ := h
          subst hs'
          exact hinv1
  | includesNode l => simp only [tree_convert, ht] at h; exact absurd h (by simp)
  | includeNode v => simp only [tree_convert, ht] at h; exact absurd h (by simp)
  | stateNode nm sts => simp only [tree_convert, ht] at h; exact absurd h (by simp)
  | stateCallNode nm ps rs => simp only [tree_convert, ht] at h; exact absurd h (by simp)
  | stateParameterNode nm v => simp only [tree_convert, ht] at h; exact absurd h (by simp)
  | requisitesNode k rs => simp only [tree_convert, ht] at h; exact absurd h (by simp)
  | requisiteNode m rr => simp only [tree_convert, ht] at h; exact absurd h (by simp)
  | extendNode sts => simp only [tree_convert, ht] at h; exact absurd h (by simp)
  | tokenNode t => simp only [tree_convert, ht] at h; exact absurd h (by simp)



theorem InvStore_set_key (s : Store) (i : Nat) (key : String)
    (s' : Store) (n : Nat) (h : set_key s i key = .ok (s', n)) :
    InvStore s → InvStore s' := by
  intro hinv
  cases hd : (storeGet s i).data with
  | stateParameterNode nm v =>
    simp only [set_key, hd] at h
    by_cases hcond : (all_requisites_keys.contains key && parentIsStateCall s i) = true
    · rw [if_pos hcond] at h
      cases hpar : (storeGet s i).parent with
      | none =>
        rw [hpar] at h
        exact absurd h (by simp)
      | some p =>
        rw [hpar] at h
        exact InvStore_stateCall_convert s p i key s' n h hinv
    · rw [if_neg hcond] at h
      simp only [Except.ok.injEq, Prod.mk.injEq] at h
      obtain ⟨hs', _⟩ := h
      subst hs'
      exact InvStore_setData_other s i _ (by rw [hd]; rfl) (by rw [hd]; rfl) hinv
  | requisiteNode m rr =>
    simp only [set_key, hd, Except.ok.injEq, Prod.mk.injEq] at h
    obtain ⟨hs', _⟩ := h
    subst hs'
    exact InvStore_setData_other s i _ (by rw [hd]; rfl) (by rw [hd]; rfl) hinv
  | requisitesNode k rs =>
    simp only [set_key, hd, Except.ok.injEq, Prod.mk.injEq] at h
    obtain ⟨hs', _⟩ := h
    subst hs'
    exact InvStore_setData_other s i _ (by rw [hd]; rfl) (by rw [hd]; rfl) hinv
  | stateCallNode nm ps rs =>
    simp only [set_key, hd, Except.ok.injEq, Prod.mk.injEq] at h
    obtain ⟨hs', _⟩ := h
    subst hs'
    exact InvStore_setData_other s i _ (by rw [hd]; rfl) (by rw [hd]; rfl) hinv
  | stateNode nm sts =>
    simp only [set_key, hd] at h
    by_cases hcond : ((key == "include" || key == "extend") && parentIsTree s i) = true
    · rw [if_pos hcond] at h
      cases hpar : (storeGet s i).parent with
      | none =>
        rw [hpar] at h
        exact absurd h (by simp)
      | some p =>
        rw [hpar] at h
        exact InvStore_tree_convert s p i key s' n h hinv
    · rw [if_neg hcond] at h
      simp only [Except.ok.injEq, Prod.mk.injEq] at h
      obtain ⟨hs', _⟩ := h
      subst hs'
      apply InvStore_setData_state s i nm (some key) sts sts hd ?_ hinv
      intro hmem
      obtain ⟨hz, htr, hm⟩ := hinv
      obtain ⟨_, hpar⟩ := hm i hmem
      have htree : parentIsTree s i = true := by
        rw [parentIsTree, hpar]
        exact htr
      constructor
      · intro hk
        apply hcond
        rw [htree]
        have : (key == "include") = true := by
          simp only [beq_iff_eq]
          exact Option.some.inj hk
        rw [this]
        rfl
      · intro hk
        apply hcond
        rw [htree]
        have : (key == "extend") = true := by
          simp only [beq_iff_eq]
          exact Option.some.inj hk
        rw [this]
        simp
  | tree inc ext sts => simp only [set_key, hd] at h; exact absurd h (by simp)
  | includesNode l => simp only [set_key, hd] at h; exact absurd h (by simp)
  | includeNode v => simp only [set_key, hd] at h; exact absurd h (by simp)
  | extendNode sts => simp only [set_key, hd] at h; exact absurd h (by simp)
  | tokenNode t => simp only [set_key, hd] at h; exact absurd h (by simp)

theorem InvStore_addChild (s : Store) (i : Nat) (s' : Store) (nid : Nat)
    (h : addChild s i = .ok (s', nid)) :
    InvStore s → InvStore s' := by
  intro hinv
  cases hd : (storeGet s i).data with
  | tree inc ext sts =>
    simp only [addChild, hd, storeAlloc, Except.ok.injEq, Prod.mk.injEq] at h
    obtain ⟨hs', hnid⟩ := h
    subst hs'
    set nd : Node :=
      { start := none, end_ := none, parent := some i, id := none,
        data := NodeData.stateNode none [] } with hnd
    obtain ⟨h0, ht, hm⟩ := hinv
    have hinvA : InvStore (s ++ [nd]) := InvStore_alloc s nd ⟨h0, ht, hm⟩
    by_cases hilt : i < storeSize s
    swap
    · have hile : storeSize s ≤ i := Nat.le_of_not_lt hilt
      have hi0 : i ≠ 0 := by omega
      have hg0A : storeGet (s ++ [nd]) 0 = storeGet s 0 := storeGet_alloc_lt _ _ _ h0
      have hg0 : storeGet (storeSetData (s ++ [nd]) i
          (NodeData.tree inc ext (sts ++ [storeSize s]))) 0 = storeGet s 0 := by
        rw [storeSetData, storeGet_update_ne _ _ _ _ hi0, hg0A]
      refine ⟨by rw [storeSize_setData, storeSize_alloc]; omega,
        by rw [hg0]; exact ht, ?_⟩
      intro sid hsid
      rw [rootStates_congr s _ (by rw [hg0])] at hsid
      obtain ⟨⟨nm0, sts0, hdata, h1, h2⟩, hpar⟩ := hm sid hsid
      have hsidlt : sid < storeSize s :=
        lt_size_of_data_ne s sid (by rw [hdata]; simp [defaultNode])
      have hisid : i ≠ sid := by omega
      have hgs : storeGet (storeSetData (s ++ [nd]) i
          (NodeData.tree inc ext (sts ++ [storeSize s]))) sid = storeGet s sid := by
        rw [storeSetData, storeGet_update_ne _ _ _ _ hisid,
          storeGet_alloc_lt _ _ _ hsidlt]
      exact ⟨⟨nm0, sts0, by rw [hgs]; exact hdata, h1, h2⟩, by rw [hgs]; exact hpar⟩
    have hgA : storeGet (s ++ [nd]) i = storeGet s i :=
      storeGet_alloc_lt _ _ _ hilt
    by_cases hi0 : i = 0
    · subst hi0
      obtain ⟨h0A, htA, hmA⟩ := hinvA
      have hgr : storeGet (storeSetData (s ++ [nd]) 0
          (NodeData.tree inc ext (sts ++ [storeSize s]))) 0 =
          { storeGet (s ++ [nd]) 0 with
            data := NodeData.tree inc ext (sts ++ [storeSize s]) } := by
        rw [storeSetData]
        exact storeGet_update_self _ _ _ (by rw [storeSize_alloc]; omega)
      have hrootA : rootStates (s ++ [nd]) = sts := by
        rw [rootStates, hgA, hd]
      have hroot1 : rootStates (storeSetData (s ++ [nd]) 0
          (NodeData.tree inc ext (sts ++ [storeSize s]))) = sts ++ [storeSize s] := by
        rw [rootStates, hgr]
      refine ⟨by rw [storeSize_setData, storeSize_alloc]; omega,
        by rw [hgr]; rfl, ?_⟩
      intro sid hsid
      rw [hroot1] at hsid
      rcases List.mem_append.1 hsid with hmem | hmem
      · have hsidA : sid ∈ rootStates (s ++ [nd]) := by
          rw [hrootA]; exact hmem
        obtain ⟨⟨nm0, sts0, hdata, h1, h2⟩, hpar⟩ := hmA sid hsidA
        have hs0 : (0 : Nat) ≠ sid := by
          intro hq
          rw [← hq, hgA, hd] at hdata
          exact NodeData.noConfusion hdata
        have hgs : storeGet (storeSetData (s ++ [nd]) 0
            (NodeData.tree inc ext (sts ++ [storeSize s]))) sid =
            storeGet (s ++ [nd]) sid := by
          rw [storeSetData]
          exact storeGet_update_ne _ _ _ _ hs0
        exact ⟨⟨nm0, sts0, by rw [hgs]; exact hdata, h1, h2⟩, by rw [hgs]; exact hpar⟩
      · have hsid2 : sid = storeSize s := List.mem_singleton.1 hmem
        subst hsid2
        have hs0 : (0 : Nat) ≠ storeSize s := by omega
        have hgs : storeGet (storeSetData (s ++ [nd]) 0
            (NodeData.tree inc ext (sts ++ [storeSize s]))) (storeSize s) =
            storeGet (s ++ [nd]) (storeSize s) := by
          rw [storeSetData]
          exact storeGet_update_ne _ _ _ _ hs0
        rw [hgs, storeGet_alloc_self]
        exact ⟨⟨none, [], rfl, by simp, by simp⟩, rfl⟩
    · obtain ⟨h0A, htA, hmA⟩ := hinvA
      have hg0 : storeGet (storeSetData (s ++ [nd]) i
          (NodeData.tree inc ext (sts ++ [storeSize s]))) 0 =
          storeGet (s ++ [nd]) 0 := by
        rw [storeSetData]
        exact storeGet_update_ne _ _ _ _ hi0
      refine ⟨by rw [storeSize_setData, storeSize_alloc]; omega,
        by rw [hg0]; exact htA, ?_⟩
      intro sid hsid
      rw [rootStates_congr (s ++ [nd]) _ (by rw [hg0])] at hsid
      obtain ⟨⟨nm0, sts0, hdata, h1, h2⟩, hpar⟩ := hmA sid hsid
      have his : i ≠ sid := by
        intro hq
        rw [← hq, hgA, hd] at hdata
        exact NodeData.noConfusion hdata
      have hgs : storeGet (storeSetData (s ++ [nd]) i
          (NodeData.tree inc ext (sts ++ [storeSize s]))) sid =
          storeGet (s ++ [nd]) sid := by
        rw [storeSetData]
        exact storeGet_update_ne _ _ _ _ his
      exact ⟨⟨nm0, sts0, by rw [hgs]; exact hdata, h1, h2⟩, by rw [hgs]; exact hpar⟩
  | includesNode l =>
    simp only [addChild, hd, storeAlloc, Except.ok.injEq, Prod.mk.injEq] at h
    obtain ⟨hs', _⟩ := h
    subst hs'
    have hilt : i < storeSize s :=
      lt_size_of_data_ne s i (by rw [hd]; simp [defaultNode])
    apply InvStore_setData_other
    · rw [storeGet_alloc_lt _ _ _ hilt, hd]; rfl
    · rw [storeGet_alloc_lt _ _ _ hilt, hd]; rfl
    · exact InvStore_alloc s _ hinv
  | stateCallNode nm ps rs =>
    simp only [addChild, hd, storeAlloc, Except.ok.injEq, Prod.mk.injEq] at h
    obtain ⟨hs', _⟩ := h
    subst hs'
    have hilt : i < storeSize s :=
      lt_size_of_data_ne s i (by rw [hd]; simp [defaultNode])
    apply InvStore_setData_other
    · rw [storeGet_alloc_lt _ _ _ hilt, hd]; rfl
    · rw [storeGet_alloc_lt _ _ _ hilt, hd]; rfl
    · exact InvStore_alloc s _ hinv
  | requisitesNode k rs =>
    simp only [addChild, hd, storeAlloc, Except.ok.injEq, Prod.mk.injEq] at h
    obtain ⟨hs', _⟩ := h
    subst hs'
    have hilt : i < storeSize s :=
      lt_size_of_data_ne s i (by rw [hd]; simp [defaultNode])
    apply InvStore_setData_other
    · rw [storeGet_alloc_lt _ _ _ hilt, hd]; rfl
    · rw [storeGet_alloc_lt _ _ _ hilt, hd]; rfl
    · exact InvStore_alloc s _ hinv
  | extendNode sts =>
    simp only [addChild, hd, storeAlloc, Except.ok.injEq, Prod.mk.injEq] at h
    obtain ⟨hs', _⟩ := h
    subst hs'
    have hilt : i < storeSize s :=
      lt_size_of_data_ne s i (by rw [hd]; simp [defaultNode])
    apply InvStore_setData_other
    · rw [storeGet_alloc_lt _ _ _ hilt, hd]; rfl
    · rw [storeGet_alloc_lt _ _ _ hilt, hd]; rfl
    · exact InvStore_alloc s _ hinv
  | stateNode nm sts =>
    simp only [addChild, hd, storeAlloc, Except.ok.injEq, Prod.mk.injEq] at h
    obtain ⟨hs', _⟩ := h
    subst hs'
    have hilt : i < storeSize s :=
      lt_size_of_data_ne s i (by rw [hd]; simp [defaultNode])
    set nd : Node :=
      { start := none, end_ := none, parent := some i, id := none,
        data := NodeData.stateCallNode none [] [] } with hnd
    have hinvA : InvStore (s ++ [nd]) := InvStore_alloc s nd hinv
    apply InvStore_setData_state (s ++ [nd]) i nm nm sts (sts ++ [storeSize s])
      ?_ ?_ hinvA
    · rw [storeGet_alloc_lt _ _ _ hilt, hd]
    · intro hmem
      obtain ⟨h0, ht, hm⟩ := hinv
      have hmemS : i ∈ rootStates s := by
        rw [← rootStates_congr s (s ++ [nd]) (by
          rw [storeGet_alloc_lt _ _ _ h0])]
        exact hmem
      obtain ⟨⟨nm0, sts0, hdata, h1, h2⟩, _⟩ := hm i hmemS
      rw [hd] at hdata
      injection hdata with hnm _
      rw [hnm]
      exact ⟨h1, h2⟩
  | includeNode v => simp only [addChild, hd] at h; exact absurd h (by simp)
  | stateParameterNode nm v => simp only [addChild, hd] at h; exact absurd h (by simp)
  | requisiteNode m rr => simp only [addChild, hd] at h; exact absurd h (by simp)
  | tokenNode t => simp only [addChild, hd] at h; exact absurd h (by simp)


/-! ## Invariant preservation through the parser handlers -/

theorem isStateNode_eq_false_of_isTokenNode (d : NodeData)
    (h : d.isTokenNode = true) : d.isStateNode = false := by
  cases d <;> first | rfl | exact absurd h (by simp [NodeData.isTokenNode])

theorem lt_size_of_isTokenNode (s : Store) (i : Nat)
    (h : (storeGet s i).data.isTokenNode = true) : i < storeSize s := by
  apply lt_size_of_data_ne
  intro hq
  rw [hq] at h
  exact absurd h (by simp [defaultNode, NodeData.isTokenNode])

theorem buf_congr (s sA : Store) (b : Option (List Nat))
    (hd : ∀ i, (storeGet sA i).data = (storeGet s i).data)
    (hb : ∀ uid ∈ b.getD [], (storeGet s uid).data.isTokenNode = true) :
    ∀ uid ∈ b.getD [], (storeGet sA uid).data.isTokenNode = true := by
  intro uid hu
  rw [hd uid]
  exact hb uid hu

theorem buf_alloc (s : Store) (n : Node) (b : Option (List Nat))
    (hb : ∀ uid ∈ b.getD [], (storeGet s uid).data.isTokenNode = true) :
    ∀ uid ∈ b.getD [], (storeGet (s ++ [n]) uid).data.isTokenNode = true := by
  intro uid hu
  have h1 := hb uid hu
  rw [storeGet_alloc_lt _ _ _ (lt_size_of_isTokenNode s uid h1)]
  exact h1

theorem data_storeSetEnd (s : Store) (k : Nat) (p : Option Position) (j : Nat) :
    (storeGet (storeSetEnd s k p) j).data = (storeGet s j).data := by
  rw [storeSetEnd]
  exact data_storeUpdate s k (fun n => { n with end_ := p }) (fun _ => rfl) j

theorem data_storeSetStart (s : Store) (k : Nat) (p : Option Position) (j : Nat) :
    (storeGet (storeSetStart s k p) j).data = (storeGet s j).data := by
  rw [storeSetStart]
  exact data_storeUpdate s k (fun n => { n with start := p }) (fun _ => rfl) j

theorem data_storeSetParent (s : Store) (k : Nat) (p : Option Nat) (j : Nat) :
    (storeGet (storeSetParent s k p) j).data = (storeGet s j).data := by
  rw [storeSetParent]
  exact data_storeUpdate s k (fun n => { n with parent := p }) (fun _ => rfl) j

theorem starEndWhile_data (te : Position) (target : Nat) :
    ∀ (f : Nat) (s : Store) (bc : List Nat) (closed : Nat) (j : Nat),
      (storeGet (starEndWhile te target f s bc closed).1 j).data =
        (storeGet s j).data := by
  intro f
  induction f with
  | zero => intro s bc closed j; rw [starEndWhile]
  | succ f ih =>
    intro s bc closed j
    rw [starEndWhile]
    by_cases hc : (bc.length > 0 && !(nodeEqB s closed target)) = true
    · rw [if_pos hc, ih]
      exact data_storeSetEnd s closed (some te) j
    · rw [if_neg hc]

theorem InvStore_starEndWhile (te : Position) (target : Nat) :
    ∀ (f : Nat) (s : Store) (bc : List Nat) (closed : Nat),
      InvStore s → InvStore (starEndWhile te target f s bc closed).1 := by
  intro f
  induction f with
  | zero => intro s bc closed hs; rw [starEndWhile]; exact hs
  | succ f ih =>
    intro s bc closed hs
    rw [starEndWhile]
    by_cases hc : (bc.length > 0 && !(nodeEqB s closed target)) = true
    · rw [if_pos hc]
      exact ih _ _ _ (InvStore_setEnd _ _ _ hs)
    · rw [if_neg hc]
      exact hs

theorem foldl_setParent_data (pid : Nat) :
    ∀ (l : List Nat) (s : Store) (j : Nat),
      (storeGet (l.foldl (fun acc tid => storeSetParent acc tid (some pid)) s) j).data
        = (storeGet s j).data := by
  intro l
  induction l with
  | nil => intro s j; rfl
  | cons a as ih =>
    intro s j
    rw [List.foldl_cons, ih]
    exact data_storeSetParent s a (some pid) j

theorem InvStore_foldl_setParent (pid : Nat) :
    ∀ (l : List Nat) (s : Store),
      (∀ uid ∈ l, (storeGet s uid).data.isTokenNode = true) →
      InvStore s →
      InvStore (l.foldl (fun acc tid => storeSetParent acc tid (some pid)) s) := by
  intro l
  induction l with
  | nil => intro s _ hs; exact hs
  | cons a as ih =>
    intro s hl hs
    rw [List.foldl_cons]
    apply ih
    · intro uid hu
      rw [data_storeSetParent]
      exact hl uid (List.mem_cons_of_mem a hu)
    · exact InvStore_setParent s a (some pid)
        (isStateNode_eq_false_of_isTokenNode _ (hl a (List.mem_cons_self a as))) hs

theorem assignTokens_invStore (s : Store) (pid : Nat) (l : List Nat)
    (hl : ∀ uid ∈ l, (storeGet s uid).data.isTokenNode = true)
    (hs : InvStore s) : InvStore (assignTokens s pid l) := by
  have hs1 : InvStore (l.foldl (fun acc tid => storeSetParent acc tid (some pid)) s) :=
    InvStore_foldl_setParent pid l s hl hs
  rw [assignTokens]
  cases hdp : (storeGet (l.foldl (fun acc tid => storeSetParent acc tid (some pid)) s) pid).data with
  | stateParameterNode nm v =>
    refine InvStore_setData_other _ _ _ ?_ ?_ hs1
    · rw [hdp]; rfl
    · rw [hdp]; rfl
  | tree a b c => exact hs1
  | includesNode a => exact hs1
  | includeNode a => exact hs1
  | stateNode a b => exact hs1
  | stateCallNode a b c => exact hs1
  | requisitesNode a b => exact hs1
  | requisiteNode a b => exact hs1
  | extendNode a => exact hs1
  | tokenNode a => exact hs1

theorem InvP_processTokenStarStart (st : PState) (tok : Token) :
    InvP st → InvP (processTokenStarStart st tok) := by
  intro h
  rw [processTokenStarStart]
  cases st.breadcrumbs.getLast? with
  | none => exact h
  | some b =>
    dsimp only
    split
    · exact h
    · exact h

theorem InvP_processUnprocessedTokens (st : PState) (tok : Token) :
    InvP st → InvP (processUnprocessedTokens st tok) := by
  rintro ⟨hs, hb⟩
  cases hu : st.unprocessedTokens with
  | none =>
    rw [processUnprocessedTokens, hu]
    exact ⟨hs, hb⟩
  | some l =>
    have hbl : ∀ uid ∈ l, (storeGet st.store uid).data.isTokenNode = true := by
      intro uid hx
      apply hb
      rw [hu]
      exact hx
    have hstep : ∀ nx : PState, InvP nx →
        InvP (if tok.kind.isStarStart = true then
                match (nx.unprocessedTokens.getD []).getLast? with
                | some tid =>
                  { nx with breadcrumbs := nx.breadcrumbs ++ [tid],
                            blockStarts := nx.blockStarts ++ [(tok, tid)],
                            nextTokenIsValue := false }
                | none => nx
              else nx) := by
      intro nx hn
      split
      · cases (nx.unprocessedTokens.getD []).getLast? with
        | some tid => exact hn
        | none => exact hn
      · exact hn
    rw [processUnprocessedTokens, hu]
    dsimp only
    simp only [storeAlloc]
    by_cases ha : (!(isLastBreadcrumb st NodeData.isStateParameter && tok.kind == TokKind.blockEnd)) = true
    · rw [if_pos ha]
      apply hstep
      refine ⟨InvStore_alloc _ _ hs, ?_⟩
      intro uid hx
      simp only [Option.getD_some] at hx
      rcases List.mem_append.1 hx with h1 | h1
      · exact buf_alloc st.store _ (some l) (by
          intro v hv
          exact hbl v (by simpa using hv)) uid (by simpa using h1)
      · rw [List.mem_singleton.1 h1, storeGet_alloc_self]
        rfl
    · rw [if_neg ha]
      apply hstep
      refine ⟨hs, ?_⟩
      intro uid hx
      rw [hu] at hx
      exact hbl uid (by simpa using hx)

theorem InvStore_ite_setEnd (c : Prop) [Decidable c] (s : Store) (k : Nat)
    (p : Option Position) (hs : InvStore s) :
    InvStore (if c then storeSetEnd s k p else s) := by
  split
  · exact InvStore_setEnd _ _ _ hs
  · exact hs

theorem data_ite_setEnd (c : Prop) [Decidable c] (s : Store) (k : Nat)
    (p : Option Position) (j : Nat) :
    (storeGet (if c then storeSetEnd s k p else s) j).data = (storeGet s j).data := by
  split
  · exact data_storeSetEnd s k p j
  · rfl

theorem InvP_processStarEnd (st : PState) (te : Position) :
    InvP st → InvP (processStarEnd st te) := by
  rintro ⟨hs, hb⟩
  rw [processStarEnd]
  cases hbs : st.blockStarts.getLast? with
  | none =>
    cases st.breadcrumbs.getLast? with
    | none => exact ⟨hs, hb⟩
    | some lastTop => exact ⟨hs, hb⟩
  | some lsp =>
    cases st.breadcrumbs.getLast? with
    | none => exact ⟨hs, hb⟩
    | some lastTop =>
      dsimp only
      generalize hR : starEndWhile te lsp.2 (st.breadcrumbs.dropLast.length + 1)
        st.store st.breadcrumbs.dropLast lastTop = R
      have hs1 : InvStore R.1 := hR ▸ InvStore_starEndWhile te lsp.2 _ st.store _ lastTop hs
      have hd1 : ∀ j, (storeGet R.1 j).data = (storeGet st.store j).data := by
        intro j
        rw [← hR]
        exact starEndWhile_data te lsp.2 _ st.store _ lastTop j
      generalize hS2 : (if (!(storeGet R.1 R.2.2).data.isTokenNode) = true
          then storeSetEnd R.1 R.2.2 (some te) else R.1) = S2
      have hs2 : InvStore S2 := hS2 ▸ InvStore_ite_setEnd _ R.1 R.2.2 (some te) hs1
      have hd2 : ∀ j, (storeGet S2 j).data = (storeGet st.store j).data := by
        intro j
        rw [← hS2, data_ite_setEnd]
        exact hd1 j
      by_cases hca : ((storeGet S2 R.2.2).data.isStateCall &&
          decide (st.colAdjustment > 0)) = true
      · rw [if_pos hca]
        dsimp only
        by_cases hsp : (storeGet S2 R.2.2).data.isStateParameter = true
        · rw [if_pos hsp]
          cases hu : st.unprocessedTokens with
          | none => dsimp only; exact ⟨hs2, fun uid hx => absurd hx (by simp)⟩
          | some l =>
            have hl : ∀ uid ∈ l, (storeGet S2 uid).data.isTokenNode = true := by
              intro uid hx
              rw [hd2 uid]
              apply hb
              rw [hu]
              simpa using hx
            dsimp only
            cases l with
            | nil => dsimp only; exact ⟨assignTokens_invStore _ _ _ hl hs2, fun uid hx => absurd hx (by simp)⟩
            | cons a as =>
              cases as with
              | cons b bs =>
                dsimp only; exact ⟨assignTokens_invStore _ _ _ hl hs2, fun uid hx => absurd hx (by simp)⟩
              | nil =>
                dsimp only
                cases hdt : (storeGet S2 a).data with
                | tokenNode t =>
                  dsimp only
                  cases hk : t.kind with
                  | scalar v =>
                    dsimp only
                    cases hdl : (storeGet S2 R.2.2).data with
                    | stateParameterNode nm pv =>
                      dsimp only
                      exact ⟨InvStore_setData_other _ _ _ (by rw [hdl]; rfl)
                        (by rw [hdl]; rfl) hs2, fun uid hx => absurd hx (by simp)⟩
                    | tree x y z => dsimp only; exact ⟨hs2, fun uid hx => absurd hx (by simp)⟩
                    | includesNode x => dsimp only; exact ⟨hs2, fun uid hx => absurd hx (by simp)⟩
                    | includeNode x => dsimp only; exact ⟨hs2, fun uid hx => absurd hx (by simp)⟩
                    | stateNode x y => dsimp only; exact ⟨hs2, fun uid hx => absurd hx (by simp)⟩
                    | stateCallNode x y z => dsimp only; exact ⟨hs2, fun uid hx => absurd hx (by simp)⟩
                    | requisitesNode x y => dsimp only; exact ⟨hs2, fun uid hx => absurd hx (by simp)⟩
                    | requisiteNode x y => dsimp only; exact ⟨hs2, fun uid hx => absurd hx (by simp)⟩
                    | extendNode x => dsimp only; exact ⟨hs2, fun uid hx => absurd hx (by simp)⟩
                    | tokenNode x => dsimp only; exact ⟨hs2, fun uid hx => absurd hx (by simp)⟩
                  | streamStart => dsimp only; exact ⟨assignTokens_invStore _ _ _ hl hs2, fun uid hx => absurd hx (by simp)⟩
                  | streamEnd => dsimp only; exact ⟨assignTokens_invStore _ _ _ hl hs2, fun uid hx => absurd hx (by simp)⟩
                  | blockMappingStart => dsimp only; exact ⟨assignTokens_invStore _ _ _ hl hs2, fun uid hx => absurd hx (by simp)⟩
                  | blockSequenceStart => dsimp only; exact ⟨assignTokens_invStore _ _ _ hl hs2, fun uid hx => absurd hx (by simp)⟩
                  | flowSequenceStart => dsimp only; exact ⟨assignTokens_invStore _ _ _ hl hs2, fun uid hx => absurd hx (by simp)⟩
                  | flowMappingStart => dsimp only; exact ⟨assignTokens_invStore _ _ _ hl hs2, fun uid hx => absurd hx (by simp)⟩
                  | blockEnd => dsimp only; exact ⟨assignTokens_invStore _ _ _ hl hs2, fun uid hx => absurd hx (by simp)⟩
                  | flowSequenceEnd => dsimp only; exact ⟨assignTokens_invStore _ _ _ hl hs2, fun uid hx => absurd hx (by simp)⟩
                  | flowMappingEnd => dsimp only; exact ⟨assignTokens_invStore _ _ _ hl hs2, fun uid hx => absurd hx (by simp)⟩
                  | key => dsimp only; exact ⟨assignTokens_invStore _ _ _ hl hs2, fun uid hx => absurd hx (by simp)⟩
                  | value => dsimp only; exact ⟨assignTokens_invStore _ _ _ hl hs2, fun uid hx => absurd hx (by simp)⟩
                  | blockEntry => dsimp only; exact ⟨assignTokens_invStore _ _ _ hl hs2, fun uid hx => absurd hx (by simp)⟩
                | tree x y z => dsimp only; exact ⟨assignTokens_invStore _ _ _ hl hs2, fun uid hx => absurd hx (by simp)⟩
                | includesNode x => dsimp only; exact ⟨assignTokens_invStore _ _ _ hl hs2, fun uid hx => absurd hx (by simp)⟩
                | includeNode x => dsimp only; exact ⟨assignTokens_invStore _ _ _ hl hs2, fun uid hx => absurd hx (by simp)⟩
                | stateNode x y => dsimp only; exact ⟨assignTokens_invStore _ _ _ hl hs2, fun uid hx => absurd hx (by simp)⟩
                | stateCallNode x y z => dsimp only; exact ⟨assignTokens_invStore _ _ _ hl hs2, fun uid hx => absurd hx (by simp)⟩
                | requisitesNode x y => dsimp only; exact ⟨assignTokens_invStore _ _ _ hl hs2, fun uid hx => absurd hx (by simp)⟩
                | requisiteNode x y => dsimp only; exact ⟨assignTokens_invStore _ _ _ hl hs2, fun uid hx => absurd hx (by simp)⟩
                | extendNode x => dsimp only; exact ⟨assignTokens_invStore _ _ _ hl hs2, fun uid hx => absurd hx (by simp)⟩
                | stateParameterNode x y => dsimp only; exact ⟨assignTokens_invStore _ _ _ hl hs2, fun uid hx => absurd hx (by simp)⟩
        · rw [if_neg hsp]
          exact ⟨hs2, buf_congr st.store S2 st.unprocessedTokens hd2 hb⟩
      · rw [if_neg hca]
        dsimp only
        by_cases hsp : (storeGet S2 R.2.2).data.isStateParameter = true
        · rw [if_pos hsp]
          cases hu : st.unprocessedTokens with
          | none => dsimp only; exact ⟨hs2, fun uid hx => absurd hx (by simp)⟩
          | some l =>
            have hl : ∀ uid ∈ l, (storeGet S2 uid).data.isTokenNode = true := by
              intro uid hx
              rw [hd2 uid]
              apply hb
              rw [hu]
              simpa using hx
            dsimp only
            cases l with
            | nil => dsimp only; exact ⟨assignTokens_invStore _ _ _ hl hs2, fun uid hx => absurd hx (by simp)⟩
            | cons a as =>
              cases as with
              | cons b bs =>
                dsimp only; exact ⟨assignTokens_invStore _ _ _ hl hs2, fun uid hx => absurd hx (by simp)⟩
              | nil =>
                dsimp only
                cases hdt : (storeGet S2 a).data with
                | tokenNode t =>
                  dsimp only
                  cases hk : t.kind with
                  | scalar v =>
                    dsimp only
                    cases hdl : (storeGet S2 R.2.2).data with
                    | stateParameterNode nm pv =>
                      dsimp only
                      exact ⟨InvStore_setData_other _ _ _ (by rw [hdl]; rfl)
                        (by rw [hdl]; rfl) hs2, fun uid hx => absurd hx (by simp)⟩
                    | tree x y z => dsimp only; exact ⟨hs2, fun uid hx => absurd hx (by simp)⟩
                    | includesNode x => dsimp only; exact ⟨hs2, fun uid hx => absurd hx (by simp)⟩
                    | includeNode x => dsimp only; exact ⟨hs2, fun uid hx => absurd hx (by simp)⟩
                    | stateNode x y => dsimp only; exact ⟨hs2, fun uid hx => absurd hx (by simp)⟩
                    | stateCallNode x y z => dsimp only; exact ⟨hs2, fun uid hx => absurd hx (by simp)⟩
                    | requisitesNode x y => dsimp only; exact ⟨hs2, fun uid hx => absurd hx (by simp)⟩
                    | requisiteNode x y => dsimp only; exact ⟨hs2, fun uid hx => absurd hx (by simp)⟩
                    | extendNode x => dsimp only; exact ⟨hs2, fun uid hx => absurd hx (by simp)⟩
                    | tokenNode x => dsimp only; exact ⟨hs2, fun uid hx => absurd hx (by simp)⟩
                  | streamStart => dsimp only; exact ⟨assignTokens_invStore _ _ _ hl hs2, fun uid hx => absurd hx (by simp)⟩
                  | streamEnd => dsimp only; exact ⟨assignTokens_invStore _ _ _ hl hs2, fun uid hx => absurd hx (by simp)⟩
                  | blockMappingStart => dsimp only; exact ⟨assignTokens_invStore _ _ _ hl hs2, fun uid hx => absurd hx (by simp)⟩
                  | blockSequenceStart => dsimp only; exact ⟨assignTokens_invStore _ _ _ hl hs2, fun uid hx => absurd hx (by simp)⟩
                  | flowSequenceStart => dsimp only; exact ⟨assignTokens_invStore _ _ _ hl hs2, fun uid hx => absurd hx (by simp)⟩
                  | flowMappingStart => dsimp only; exact ⟨assignTokens_invStore _ _ _ hl hs2, fun uid hx => absurd hx (by simp)⟩
                  | blockEnd => dsimp only; exact ⟨assignTokens_invStore _ _ _ hl hs2, fun uid hx => absurd hx (by simp)⟩
                  | flowSequenceEnd => dsimp only; exact ⟨assignTokens_invStore _ _ _ hl hs2, fun uid hx => absurd hx (by simp)⟩
                  | flowMappingEnd => dsimp only; exact ⟨assignTokens_invStore _ _ _ hl hs2, fun uid hx => absurd hx (by simp)⟩
                  | key => dsimp only; exact ⟨assignTokens_invStore _ _ _ hl hs2, fun uid hx => absurd hx (by simp)⟩
                  | value => dsimp only; exact ⟨assignTokens_invStore _ _ _ hl hs2, fun uid hx => absurd hx (by simp)⟩
                  | blockEntry => dsimp only; exact ⟨assignTokens_invStore _ _ _ hl hs2, fun uid hx => absurd hx (by simp)⟩
                | tree x y z => dsimp only; exact ⟨assignTokens_invStore _ _ _ hl hs2, fun uid hx => absurd hx (by simp)⟩
                | includesNode x => dsimp only; exact ⟨assignTokens_invStore _ _ _ hl hs2, fun uid hx => absurd hx (by simp)⟩
                | includeNode x => dsimp only; exact ⟨assignTokens_invStore _ _ _ hl hs2, fun uid hx => absurd hx (by simp)⟩
                | stateNode x y => dsimp only; exact ⟨assignTokens_invStore _ _ _ hl hs2, fun uid hx => absurd hx (by simp)⟩
                | stateCallNode x y z => dsimp only; exact ⟨assignTokens_invStore _ _ _ hl hs2, fun uid hx => absurd hx (by simp)⟩
                | requisitesNode x y => dsimp only; exact ⟨assignTokens_invStore _ _ _ hl hs2, fun uid hx => absurd hx (by simp)⟩
                | requisiteNode x y => dsimp only; exact ⟨assignTokens_invStore _ _ _ hl hs2, fun uid hx => absurd hx (by simp)⟩
                | extendNode x => dsimp only; exact ⟨assignTokens_invStore _ _ _ hl hs2, fun uid hx => absurd hx (by simp)⟩
                | stateParameterNode x y => dsimp only; exact ⟨assignTokens_invStore _ _ _ hl hs2, fun uid hx => absurd hx (by simp)⟩
        · rw [if_neg hsp]
          exact ⟨hs2, buf_congr st.store S2 st.unprocessedTokens hd2 hb⟩

theorem InvP_processKey (st : PState) (ts : Position) (st' : PState)
    (h : processKey st ts = .ok st') (hs : InvStore st.store) :
    InvStore st'.store ∧ st'.unprocessedTokens = st.unprocessedTokens := by
  rw [processKey] at h
  dsimp only at h
  split at h
  · split at h
    · rename_i x cur heq
      cases hac : addChild st.store cur with
      | error e =>
        rw [hac] at h
        exact absurd h (by simp [bind, Except.bind])
      | ok pr =>
        obtain ⟨s1, nid⟩ := pr
        rw [hac] at h
        simp only [bind, Except.bind, Except.ok.injEq] at h
        subst h
        dsimp only
        exact ⟨InvStore_setStart _ _ _ (InvStore_addChild _ _ _ _ hac hs), rfl⟩
    · simp only [Except.ok.injEq] at h
      subst h
      exact ⟨hs, rfl⟩
  · simp only [Except.ok.injEq] at h
    subst h
    exact ⟨hs, rfl⟩

theorem InvP_processTokenBlockEntry (st : PState) (tok : Token) (ts : Position)
    (st' : PState) (h : processTokenBlockEntry st tok ts = .ok st')
    (hs : InvStore st.store) :
    InvStore st'.store ∧ st'.unprocessedTokens = st.unprocessedTokens := by
  rw [processTokenBlockEntry] at h
  dsimp only at h
  cases hbc : st.breadcrumbs.getLast? with
  | none =>
    rw [hbc] at h
    dsimp only at h
    split at h
    · split at h
      · split at h
        · rename_i x cur heq
          cases hac : addChild st.store cur with
          | error e =>
            rw [hac] at h
            exact absurd h (by simp [bind, Except.bind])
          | ok pr =>
            obtain ⟨s1, nid⟩ := pr
            rw [hac] at h
            simp only [bind, Except.bind, Except.ok.injEq] at h
            subst h
            try dsimp only
            exact ⟨InvStore_setStart _ _ _ (InvStore_addChild _ _ _ _ hac hs), rfl⟩
        · simp only [Except.ok.injEq] at h
          subst h
          try dsimp only
          exact ⟨hs, rfl⟩
      · simp only [Except.ok.injEq] at h
        subst h
        try dsimp only
        exact ⟨hs, rfl⟩
    · simp only [Except.ok.injEq] at h
      subst h
      try dsimp only
      exact ⟨hs, rfl⟩
  | some b =>
    rw [hbc] at h
    dsimp only at h
    cases hstt : (storeGet st.store b).start with
    | none =>
      rw [hstt] at h
      dsimp only at h
      split at h
      · split at h
        · split at h
          · rename_i x cur heq
            cases hac : addChild st.store cur with
            | error e =>
              rw [hac] at h
              exact absurd h (by simp [bind, Except.bind])
            | ok pr =>
              obtain ⟨s1, nid⟩ := pr
              rw [hac] at h
              simp only [bind, Except.bind, Except.ok.injEq] at h
              subst h
              try dsimp only
              exact ⟨InvStore_setStart _ _ _ (InvStore_addChild _ _ _ _ hac hs), rfl⟩
          · simp only [Except.ok.injEq] at h
            subst h
            try dsimp only
            exact ⟨hs, rfl⟩
        · simp only [Except.ok.injEq] at h
          subst h
          try dsimp only
          exact ⟨hs, rfl⟩
      · simp only [Except.ok.injEq] at h
        subst h
        try dsimp only
        exact ⟨hs, rfl⟩
    | some p =>
      rw [hstt] at h
      dsimp only at h
      by_cases hpc : ((p.col == tok.start_mark.col + st.colAdjustment) = true)
      · rw [if_pos hpc] at h
        dsimp only at h
        by_cases hbe : ((tok.kind == TokKind.blockEntry && (storeGet st.store b).data.isStateCall) = true)
        · rw [if_pos hbe] at h
          dsimp only at h
          split at h
          · split at h
            · split at h
              · rename_i x cur heq
                cases hac : addChild st.store cur with
                | error e =>
                  rw [hac] at h
                  exact absurd h (by simp [bind, Except.bind])
                | ok pr =>
                  obtain ⟨s1, nid⟩ := pr
                  rw [hac] at h
                  simp only [bind, Except.bind, Except.ok.injEq] at h
                  subst h
                  try dsimp only
                  exact ⟨InvStore_setStart _ _ _ (InvStore_addChild _ _ _ _ hac hs), rfl⟩
              · simp only [Except.ok.injEq] at h
                subst h
                try dsimp only
                exact ⟨hs, rfl⟩
            · simp only [Except.ok.injEq] at h
              subst h
              try dsimp only
              exact ⟨hs, rfl⟩
          · simp only [Except.ok.injEq] at h
            subst h
            try dsimp only
            exact ⟨hs, rfl⟩
        · rw [if_neg hbe] at h
          dsimp only at h
          split at h
          · split at h
            · split at h
              · rename_i x cur heq
                cases hac : addChild (storeSetEnd st.store b (some ts)) cur with
                | error e =>
                  rw [hac] at h
                  exact absurd h (by simp [bind, Except.bind])
                | ok pr =>
                  obtain ⟨s1, nid⟩ := pr
                  rw [hac] at h
                  simp only [bind, Except.bind, Except.ok.injEq] at h
                  subst h
                  try dsimp only
                  exact ⟨InvStore_setStart _ _ _ (InvStore_addChild _ _ _ _ hac (InvStore_setEnd st.store b (some ts) hs)), rfl⟩
              · simp only [Except.ok.injEq] at h
                subst h
                try dsimp only
                exact ⟨(InvStore_setEnd st.store b (some ts) hs), rfl⟩
            · simp only [Except.ok.injEq] at h
              subst h
              try dsimp only
              exact ⟨(InvStore_setEnd st.store b (some ts) hs), rfl⟩
          · simp only [Except.ok.injEq] at h
            subst h
            try dsimp only
            exact ⟨(InvStore_setEnd st.store b (some ts) hs), rfl⟩
      · rw [if_neg hpc] at h
        dsimp only at h
        split at h
        · split at h
          · split at h
            · rename_i x cur heq
              cases hac : addChild st.store cur with
              | error e =>
                rw [hac] at h
                exact absurd h (by simp [bind, Except.bind])
              | ok pr =>
                obtain ⟨s1, nid⟩ := pr
                rw [hac] at h
                simp only [bind, Except.bind, Except.ok.injEq] at h
                subst h
                try dsimp only
                exact ⟨InvStore_setStart _ _ _ (InvStore_addChild _ _ _ _ hac hs), rfl⟩
            · simp only [Except.ok.injEq] at h
              subst h
              try dsimp only
              exact ⟨hs, rfl⟩
          · simp only [Except.ok.injEq] at h
            subst h
            try dsimp only
            exact ⟨hs, rfl⟩
        · simp only [Except.ok.injEq] at h
          subst h
          try dsimp only
          exact ⟨hs, rfl⟩

theorem scalar_tail4 (σ : PState) (v : String) (ts te : Position) (st' : PState)
    (hsm : InvStore σ.store)
    (h : ((do
          let stA ←
            if isLastBreadcrumb σ (fun d => d.isStateNode || d.isTree) then
              match σ.breadcrumbs.getLast? with
              | some cur4 => do
                let (s1, nid) ← addChild σ.store cur4
                let s2 := storeSetStart s1 nid (some ts)
                let s3 := storeSetEnd s2 nid (some te)
                if !(storeGet s3 nid).data.hasSetKey then .error PyErr.attributeError
                else do
                  let (s4, _) ← set_key s3 nid v
                  let st4 := { σ with store := s4 }
                  if st4.nextTokenIsValue then
                    match st4.breadcrumbs.getLast? with
                    | some lastB =>
                      let st5 := { st4 with breadcrumbs := st4.breadcrumbs.dropLast }
                      if (storeGet st5.store lastB).end_ = none then
                        .ok { st5 with store := storeSetEnd st5.store lastB (some te) }
                      else .ok st5
                    | none => .error PyErr.indexError
                  else .ok st4
              | none => .ok σ
            else .ok σ
          Except.ok { stA with nextTokenIsValue := false }) : Except PyErr PState) = .ok st') :
    InvStore st'.store ∧ st'.unprocessedTokens = σ.unprocessedTokens := by
  by_cases hlb : isLastBreadcrumb σ (fun d => d.isStateNode || d.isTree) = true
  swap
  · rw [if_neg hlb] at h
    simp only [bind, Except.bind, Except.ok.injEq] at h
    subst h
    exact ⟨hsm, rfl⟩
  · rw [if_pos hlb] at h
    cases hbc4 : σ.breadcrumbs.getLast? with
    | none =>
      rw [hbc4] at h
      try dsimp only at h
      simp only [bind, Except.bind, Except.ok.injEq] at h
      subst h
      exact ⟨hsm, rfl⟩
    | some cur4 =>
      rw [hbc4] at h
      try dsimp only at h
      cases hac : addChild σ.store cur4 with
      | error e =>
        rw [hac] at h
        exact absurd h (by simp [bind, Except.bind])
      | ok pr =>
        obtain ⟨s1, nid⟩ := pr
        rw [hac] at h
        simp only [bind, Except.bind] at h
        try dsimp only at h
        by_cases hset : (!(storeGet (storeSetEnd (storeSetStart s1 nid (some ts)) nid (some te)) nid).data.hasSetKey) = true
        · rw [if_pos hset] at h
          exact absurd h (by simp [bind, Except.bind])
        · rw [if_neg hset] at h
          try dsimp only at h
          cases hsk : set_key (storeSetEnd (storeSetStart s1 nid (some ts)) nid (some te)) nid v with
          | error e =>
            rw [hsk] at h
            exact absurd h (by simp [bind, Except.bind])
          | ok pr2 =>
            obtain ⟨s4, w⟩ := pr2
            rw [hsk] at h
            simp only [bind, Except.bind] at h
            try dsimp only at h
            have hs4 : InvStore s4 :=
              InvStore_set_key _ _ _ _ _ hsk
                (InvStore_setEnd _ _ _ (InvStore_setStart _ _ _
                  (InvStore_addChild _ _ _ _ hac hsm)))
            by_cases hnv : σ.nextTokenIsValue = true
            swap
            · rw [if_neg hnv] at h
              simp only [bind, Except.bind, Except.ok.injEq] at h
              subst h
              exact ⟨hs4, rfl⟩
            · rw [if_pos hnv] at h
              rw [hbc4] at h
              try dsimp only at h
              by_cases hend : (storeGet s4 cur4).end_ = none
              · rw [if_pos hend] at h
                simp only [bind, Except.bind, Except.ok.injEq] at h
                subst h
                exact ⟨InvStore_setEnd _ _ _ hs4, rfl⟩
              · rw [if_neg hend] at h
                simp only [bind, Except.bind, Except.ok.injEq] at h
                subst h
                exact ⟨hs4, rfl⟩

theorem scalar_tail3 (σ : PState) (cur3 : Nat) (v : String) (ts te : Position)
    (st' : PState) (hsm : InvStore σ.store)
    (h : ((do
          let st3 :=
            match (storeGet σ.store cur3).data with
            | .stateParameterNode none pv =>
              { σ with store :=
                  storeSetData σ.store cur3 (.stateParameterNode (some v) pv) }
            | _ => σ
          let stA ←
            if isLastBreadcrumb st3 (fun d => d.isStateNode || d.isTree) then
              match st3.breadcrumbs.getLast? with
              | some cur4 => do
                let (s1, nid) ← addChild st3.store cur4
                let s2 := storeSetStart s1 nid (some ts)
                let s3 := storeSetEnd s2 nid (some te)
                if !(storeGet s3 nid).data.hasSetKey then .error PyErr.attributeError
                else do
                  let (s4, _) ← set_key s3 nid v
                  let st4 := { st3 with store := s4 }
                  if st4.nextTokenIsValue then
                    match st4.breadcrumbs.getLast? with
                    | some lastB =>
                      let st5 := { st4 with breadcrumbs := st4.breadcrumbs.dropLast }
                      if (storeGet st5.store lastB).end_ = none then
                        .ok { st5 with store := storeSetEnd st5.store lastB (some te) }
                      else .ok st5
                    | none => .error PyErr.indexError
                  else .ok st4
              | none => .ok st3
            else .ok st3
          Except.ok { stA with nextTokenIsValue := false }) : Except PyErr PState) = .ok st') :
    InvStore st'.store ∧ st'.unprocessedTokens = σ.unprocessedTokens := by
  try dsimp only at h
  cases hd3 : (storeGet σ.store cur3).data with
  | stateParameterNode nm pv =>
    cases nm with
    | none =>
      simp only [hd3] at h
      have hres := scalar_tail4
        ({ σ with store := storeSetData σ.store cur3 (NodeData.stateParameterNode (some v) pv) })
        v ts te st'
        (InvStore_setData_other _ _ _ (by rw [hd3]; rfl) (by rw [hd3]; rfl) hsm) h
      exact ⟨hres.1, hres.2⟩
    | some q =>
      simp only [hd3] at h
      have hres := scalar_tail4 σ v ts te st' hsm h
      exact ⟨hres.1, hres.2⟩
  | tree a b c =>
    simp only [hd3] at h
    have hres := scalar_tail4 σ v ts te st' hsm h
    exact ⟨hres.1, hres.2⟩
  | includesNode a =>
    simp only [hd3] at h
    have hres := scalar_tail4 σ v ts te st' hsm h
    exact ⟨hres.1, hres.2⟩
  | includeNode a =>
    simp only [hd3] at h
    have hres := scalar_tail4 σ v ts te st' hsm h
    exact ⟨hres.1, hres.2⟩
  | stateNode a b =>
    simp only [hd3] at h
    have hres := scalar_tail4 σ v ts te st' hsm h
    exact ⟨hres.1, hres.2⟩
  | stateCallNode a b c =>
    simp only [hd3] at h
    have hres := scalar_tail4 σ v ts te st' hsm h
    exact ⟨hres.1, hres.2⟩
  | requisitesNode a b =>
    simp only [hd3] at h
    have hres := scalar_tail4 σ v ts te st' hsm h
    exact ⟨hres.1, hres.2⟩
  | requisiteNode a b =>
    simp only [hd3] at h
    have hres := scalar_tail4 σ v ts te st' hsm h
    exact ⟨hres.1, hres.2⟩
  | extendNode a =>
    simp only [hd3] at h
    have hres := scalar_tail4 σ v ts te st' hsm h
    exact ⟨hres.1, hres.2⟩
  | tokenNode a =>
    simp only [hd3] at h
    have hres := scalar_tail4 σ v ts te st' hsm h
    exact ⟨hres.1, hres.2⟩

theorem scalar_tail5 (σ : PState) (cur : Nat) (v : String) (ts te : Position)
    (st' : PState) (hsm : InvStore σ.store)
    (h : ((do
          let stA ←
            if isLastBreadcrumb σ (fun d => d.isStateNode || d.isTree) then do
              let (s1, nid) ← addChild σ.store cur
              let s2 := storeSetStart s1 nid (some ts)
              let s3 := storeSetEnd s2 nid (some te)
              if !(storeGet s3 nid).data.hasSetKey then .error PyErr.attributeError
              else do
                let (s4, _) ← set_key s3 nid v
                let st4 := { σ with store := s4 }
                if st4.nextTokenIsValue then
                  let st5 := { st4 with breadcrumbs := st4.breadcrumbs.dropLast }
                  if (storeGet st5.store cur).end_ = none then
                    .ok { st5 with store := storeSetEnd st5.store cur (some te) }
                  else .ok st5
                else .ok st4
            else .ok σ
          Except.ok { stA with nextTokenIsValue := false }) : Except PyErr PState) = .ok st') :
    InvStore st'.store ∧ st'.unprocessedTokens = σ.unprocessedTokens := by
  by_cases hlb : isLastBreadcrumb σ (fun d => d.isStateNode || d.isTree) = true
  swap
  · rw [if_neg hlb] at h
    simp only [bind, Except.bind, Except.ok.injEq] at h
    subst h
    exact ⟨hsm, rfl⟩
  · rw [if_pos hlb] at h
    try dsimp only at h
    cases hac : addChild σ.store cur with
    | error e =>
      rw [hac] at h
      exact absurd h (by simp [bind, Except.bind])
    | ok pr =>
      obtain ⟨s1, nid⟩ := pr
      rw [hac] at h
      simp only [bind, Except.bind] at h
      try dsimp only at h
      by_cases hset : (!(storeGet (storeSetEnd (storeSetStart s1 nid (some ts)) nid (some te)) nid).data.hasSetKey) = true
      · rw [if_pos hset] at h
        exact absurd h (by simp [bind, Except.bind])
      · rw [if_neg hset] at h
        try dsimp only at h
        cases hsk : set_key (storeSetEnd (storeSetStart s1 nid (some ts)) nid (some te)) nid v with
        | error e =>
          rw [hsk] at h
          exact absurd h (by simp [bind, Except.bind])
        | ok pr2 =>
          obtain ⟨s4, w⟩ := pr2
          rw [hsk] at h
          simp only [bind, Except.bind] at h
          try dsimp only at h
          have hs4 : InvStore s4 :=
            InvStore_set_key _ _ _ _ _ hsk
              (InvStore_setEnd _ _ _ (InvStore_setStart _ _ _
                (InvStore_addChild _ _ _ _ hac hsm)))
          by_cases hnv : σ.nextTokenIsValue = true
          swap
          · rw [if_neg hnv] at h
            simp only [bind, Except.bind, Except.ok.injEq] at h
            subst h
            exact ⟨hs4, rfl⟩
          · rw [if_pos hnv] at h
            try dsimp only at h
            by_cases hend : (storeGet s4 cur).end_ = none
            · rw [if_pos hend] at h
              simp only [bind, Except.bind, Except.ok.injEq] at h
              subst h
              exact ⟨InvStore_setEnd _ _ _ hs4, rfl⟩
            · rw [if_neg hend] at h
              simp only [bind, Except.bind, Except.ok.injEq] at h
              subst h
              exact ⟨hs4, rfl⟩

theorem InvP_processTokenScalar (st : PState) (v : String) (ts te : Position)
    (st' : PState) (h : processTokenScalar st v ts te = .ok st')
    (hs : InvStore st.store) :
    InvStore st'.store ∧ st'.unprocessedTokens = st.unprocessedTokens := by
  rw [processTokenScalar] at h
  try dsimp only at h
  by_cases hk : st.nextScalarAsKey = true
  · rw [if_pos hk] at h
    cases hbck : st.breadcrumbs.getLast? with
    | none =>
      rw [hbck] at h
      exact absurd h (by simp [bind, Except.bind])
    | some top =>
      rw [hbck] at h
      try dsimp only at h
      by_cases hhsk : (!(storeGet st.store top).data.hasSetKey) = true
      · rw [if_pos hhsk] at h
        exact absurd h (by simp [bind, Except.bind])
      · rw [if_neg hhsk] at h
        try dsimp only at h
        cases hsk : set_key st.store top v with
        | error e =>
          rw [hsk] at h
          exact absurd h (by simp [bind, Except.bind])
        | ok pr =>
          obtain ⟨s1, changed⟩ := pr
          rw [hsk] at h
          simp only [bind, Except.bind] at h
          try dsimp only at h
          by_cases hne : (!(nodeEqB s1 changed top)) = true
          · rw [if_pos hne] at h
            simp only [bind, Except.bind, Except.ok.injEq] at h
            subst h
            exact ⟨InvStore_set_key _ _ _ _ _ hsk hs, rfl⟩
          · rw [if_neg hne] at h
            simp only [bind, Except.bind, Except.ok.injEq] at h
            subst h
            exact ⟨InvStore_set_key _ _ _ _ _ hsk hs, rfl⟩
  · rw [if_neg hk] at h
    try dsimp only at h
    by_cases hib : isLastBreadcrumb st NodeData.isIncludeNode = true
    · rw [if_pos hib] at h
      cases hbc1 : st.breadcrumbs.getLast? with
      | none =>
        simp only [hbc1] at h
        try dsimp only at h
        by_cases hrb : isLastBreadcrumb st NodeData.isRequisiteNode = true
        · rw [if_pos hrb] at h
          simp only [hbc1, bind, Except.bind] at h
          exact absurd h (by simp)
        · rw [if_neg hrb] at h
          simp only [hbc1, bind, Except.bind] at h
          exact absurd h (by simp)
      | some top =>
        simp only [hbc1] at h
        try dsimp only at h
        cases hdt : (storeGet st.store top).data with
        | includeNode vv =>
          simp only [hdt] at h
          try dsimp only at h
          by_cases hrb : isLastBreadcrumb ({ st with store := storeSetEnd (storeSetData st.store top (NodeData.includeNode (some v))) top (some te), breadcrumbs := st.breadcrumbs.dropLast }) NodeData.isRequisiteNode = true
          · rw [if_pos hrb] at h
            cases hbc2 : (st.breadcrumbs.dropLast).getLast? with
            | none =>
              simp only [hbc2, bind, Except.bind] at h
              exact absurd h (by simp)
            | some top2 =>
              simp only [hbc2] at h
              cases hd2 : (storeGet (storeSetEnd (storeSetData st.store top (NodeData.includeNode (some v))) top (some te)) top2).data with
              | requisiteNode m r =>
                simp only [hd2, hbc2] at h
                have hres := scalar_tail3 ({ st with store := storeSetData (storeSetEnd (storeSetData st.store top (NodeData.includeNode (some v))) top (some te)) top2 (NodeData.requisiteNode m (some v)), breadcrumbs := st.breadcrumbs.dropLast }) top2 v ts te st'
                  (InvStore_setData_other _ _ _ (by rw [hd2]; rfl) (by rw [hd2]; rfl) (InvStore_setEnd _ _ _ (InvStore_setData_other _ _ _ (by rw [hdt]; rfl) (by rw [hdt]; rfl) hs))) h
                exact ⟨hres.1, hres.2⟩
              | tree a b c =>
                simp only [hd2, hbc2] at h
                have hres := scalar_tail5 ({ st with store := storeSetEnd (storeSetData st.store top (NodeData.includeNode (some v))) top (some te), breadcrumbs := st.breadcrumbs.dropLast }) top2 v ts te st' (InvStore_setEnd _ _ _ (InvStore_setData_other _ _ _ (by rw [hdt]; rfl) (by rw [hdt]; rfl) hs)) h
                exact ⟨hres.1, hres.2⟩
              | includesNode a =>
                simp only [hd2, hbc2] at h
                have hres := scalar_tail5 ({ st with store := storeSetEnd (storeSetData st.store top (NodeData.includeNode (some v))) top (some te), breadcrumbs := st.breadcrumbs.dropLast }) top2 v ts te st' (InvStore_setEnd _ _ _ (InvStore_setData_other _ _ _ (by rw [hdt]; rfl) (by rw [hdt]; rfl) hs)) h
                exact ⟨hres.1, hres.2⟩
              | includeNode a =>
                simp only [hd2, hbc2] at h
                have hres := scalar_tail5 ({ st with store := storeSetEnd (storeSetData st.store top (NodeData.includeNode (some v))) top (some te), breadcrumbs := st.breadcrumbs.dropLast }) top2 v ts te st' (InvStore_setEnd _ _ _ (InvStore_setData_other _ _ _ (by rw [hdt]; rfl) (by rw [hdt]; rfl) hs)) h
                exact ⟨hres.1, hres.2⟩
              | stateNode a b =>
                simp only [hd2, hbc2] at h
                have hres := scalar_tail5 ({ st with store := storeSetEnd (storeSetData st.store top (NodeData.includeNode (some v))) top (some te), breadcrumbs := st.breadcrumbs.dropLast }) top2 v ts te st' (InvStore_setEnd _ _ _ (InvStore_setData_other _ _ _ (by rw [hdt]; rfl) (by rw [hdt]; rfl) hs)) h
                exact ⟨hres.1, hres.2⟩
              | stateCallNode a b c =>
                simp only [hd2, hbc2] at h
                have hres := scalar_tail5 ({ st with store := storeSetEnd (storeSetData st.store top (NodeData.includeNode (some v))) top (some te), breadcrumbs := st.breadcrumbs.dropLast }) top2 v ts te st' (InvStore_setEnd _ _ _ (InvStore_setData_other _ _ _ (by rw [hdt]; rfl) (by rw [hdt]; rfl) hs)) h
                exact ⟨hres.1, hres.2⟩
              | requisitesNode a b =>
                simp only [hd2, hbc2] at h
                have hres := scalar_tail5 ({ st with store := storeSetEnd (storeSetData st.store top (NodeData.includeNode (some v))) top (some te), breadcrumbs := st.breadcrumbs.dropLast }) top2 v ts te st' (InvStore_setEnd _ _ _ (InvStore_setData_other _ _ _ (by rw [hdt]; rfl) (by rw [hdt]; rfl) hs)) h
                exact ⟨hres.1, hres.2⟩
              | extendNode a =>
                simp only [hd2, hbc2] at h
                have hres := scalar_tail5 ({ st with store := storeSetEnd (storeSetData st.store top (NodeData.includeNode (some v))) top (some te), breadcrumbs := st.breadcrumbs.dropLast }) top2 v ts te st' (InvStore_setEnd _ _ _ (InvStore_setData_other _ _ _ (by rw [hdt]; rfl) (by rw [hdt]; rfl) hs)) h
                exact ⟨hres.1, hres.2⟩
              | tokenNode a =>
                simp only [hd2, hbc2] at h
                have hres := scalar_tail5 ({ st with store := storeSetEnd (storeSetData st.store top (NodeData.includeNode (some v))) top (some te), breadcrumbs := st.breadcrumbs.dropLast }) top2 v ts te st' (InvStore_setEnd _ _ _ (InvStore_setData_other _ _ _ (by rw [hdt]; rfl) (by rw [hdt]; rfl) hs)) h
                exact ⟨hres.1, hres.2⟩
              | stateParameterNode a b =>
                cases a with
                | none =>
                  simp only [hd2, hbc2] at h
                  have hres := scalar_tail5 ({ st with store := storeSetData (storeSetEnd (storeSetData st.store top (NodeData.includeNode (some v))) top (some te)) top2 (NodeData.stateParameterNode (some v) b), breadcrumbs := st.breadcrumbs.dropLast }) top2 v ts te st'
                    (InvStore_setData_other _ _ _ (by rw [hd2]; rfl) (by rw [hd2]; rfl) (InvStore_setEnd _ _ _ (InvStore_setData_other _ _ _ (by rw [hdt]; rfl) (by rw [hdt]; rfl) hs))) h
                  exact ⟨hres.1, hres.2⟩
                | some q =>
                  simp only [hd2, hbc2] at h
                  have hres := scalar_tail5 ({ st with store := storeSetEnd (storeSetData st.store top (NodeData.includeNode (some v))) top (some te), breadcrumbs := st.breadcrumbs.dropLast }) top2 v ts te st' (InvStore_setEnd _ _ _ (InvStore_setData_other _ _ _ (by rw [hdt]; rfl) (by rw [hdt]; rfl) hs)) h
                  exact ⟨hres.1, hres.2⟩
          · rw [if_neg hrb] at h
            cases hbc3 : (st.breadcrumbs.dropLast).getLast? with
            | none =>
              simp only [hbc3, bind, Except.bind] at h
              exact absurd h (by simp)
            | some cur3 =>
              simp only [hbc3] at h
              have hres := scalar_tail3 ({ st with store := storeSetEnd (storeSetData st.store top (NodeData.includeNode (some v))) top (some te), breadcrumbs := st.breadcrumbs.dropLast }) cur3 v ts te st' (InvStore_setEnd _ _ _ (InvStore_setData_other _ _ _ (by rw [hdt]; rfl) (by rw [hdt]; rfl) hs)) h
              exact ⟨hres.1, hres.2⟩
        | tree a b c =>
          simp only [hdt] at h
          try dsimp only at h
          by_cases hrb : isLastBreadcrumb ({ st with store := storeSetEnd st.store top (some te), breadcrumbs := st.breadcrumbs.dropLast }) NodeData.isRequisiteNode = true
          · rw [if_pos hrb] at h
            cases hbc2 : (st.breadcrumbs.dropLast).getLast? with
            | none =>
              simp only [hbc2, bind, Except.bind] at h
              exact absurd h (by simp)
            | some top2 =>
              simp only [hbc2] at h
              cases hd2 : (storeGet (storeSetEnd st.store top (some te)) top2).data with
              | requisiteNode m r =>
                simp only [hd2, hbc2] at h
                have hres := scalar_tail3 ({ st with store := storeSetData (storeSetEnd st.store top (some te)) top2 (NodeData.requisiteNode m (some v)), breadcrumbs := st.breadcrumbs.dropLast }) top2 v ts te st'
                  (InvStore_setData_other _ _ _ (by rw [hd2]; rfl) (by rw [hd2]; rfl) (InvStore_setEnd _ _ _ hs)) h
                exact ⟨hres.1, hres.2⟩
              | tree a b c =>
                simp only [hd2, hbc2] at h
                have hres := scalar_tail5 ({ st with store := storeSetEnd st.store top (some te), breadcrumbs := st.breadcrumbs.dropLast }) top2 v ts te st' (InvStore_setEnd _ _ _ hs) h
                exact ⟨hres.1, hres.2⟩
              | includesNode a =>
                simp only [hd2, hbc2] at h
                have hres := scalar_tail5 ({ st with store := storeSetEnd st.store top (some te), breadcrumbs := st.breadcrumbs.dropLast }) top2 v ts te st' (InvStore_setEnd _ _ _ hs) h
                exact ⟨hres.1, hres.2⟩
              | includeNode a =>
                simp only [hd2, hbc2] at h
                have hres := scalar_tail5 ({ st with store := storeSetEnd st.store top (some te), breadcrumbs := st.breadcrumbs.dropLast }) top2 v ts te st' (InvStore_setEnd _ _ _ hs) h
                exact ⟨hres.1, hres.2⟩
              | stateNode a b =>
                simp only [hd2, hbc2] at h
                have hres := scalar_tail5 ({ st with store := storeSetEnd st.store top (some te), breadcrumbs := st.breadcrumbs.dropLast }) top2 v ts te st' (InvStore_setEnd _ _ _ hs) h
                exact ⟨hres.1, hres.2⟩
              | stateCallNode a b c =>
                simp only [hd2, hbc2] at h
                have hres := scalar_tail5 ({ st with store := storeSetEnd st.store top (some te), breadcrumbs := st.breadcrumbs.dropLast }) top2 v ts te st' (InvStore_setEnd _ _ _ hs) h
                exact ⟨hres.1, hres.2⟩
              | requisitesNode a b =>
                simp only [hd2, hbc2] at h
                have hres := scalar_tail5 ({ st with store := storeSetEnd st.store top (some te), breadcrumbs := st.breadcrumbs.dropLast }) top2 v ts te st' (InvStore_setEnd _ _ _ hs) h
                exact ⟨hres.1, hres.2⟩
              | extendNode a =>
                simp only [hd2, hbc2] at h
                have hres := scalar_tail5 ({ st with store := storeSetEnd st.store top (some te), breadcrumbs := st.breadcrumbs.dropLast }) top2 v ts te st' (InvStore_setEnd _ _ _ hs) h
                exact ⟨hres.1, hres.2⟩
              | tokenNode a =>
                simp only [hd2, hbc2] at h
                have hres := scalar_tail5 ({ st with store := storeSetEnd st.store top (some te), breadcrumbs := st.breadcrumbs.dropLast }) top2 v ts te st' (InvStore_setEnd _ _ _ hs) h
                exact ⟨hres.1, hres.2⟩
              | stateParameterNode a b =>
                cases a with
                | none =>
                  simp only [hd2, hbc2] at h
                  have hres := scalar_tail5 ({ st with store := storeSetData (storeSetEnd st.store top (some te)) top2 (NodeData.stateParameterNode (some v) b), breadcrumbs := st.breadcrumbs.dropLast }) top2 v ts te st'
                    (InvStore_setData_other _ _ _ (by rw [hd2]; rfl) (by rw [hd2]; rfl) (InvStore_setEnd _ _ _ hs)) h
                  exact ⟨hres.1, hres.2⟩
                | some q =>
                  simp only [hd2, hbc2] at h
                  have hres := scalar_tail5 ({ st with store := storeSetEnd st.store top (some te), breadcrumbs := st.breadcrumbs.dropLast }) top2 v ts te st' (InvStore_setEnd _ _ _ hs) h
                  exact ⟨hres.1, hres.2⟩
          · rw [if_neg hrb] at h
            cases hbc3 : (st.breadcrumbs.dropLast).getLast? with
            | none =>
              simp only [hbc3, bind, Except.bind] at h
              exact absurd h (by simp)
            | some cur3 =>
              simp only [hbc3] at h
              have hres := scalar_tail3 ({ st with store := storeSetEnd st.store top (some te), breadcrumbs := st.breadcrumbs.dropLast }) cur3 v ts te st' (InvStore_setEnd _ _ _ hs) h
              exact ⟨hres.1, hres.2⟩
        | includesNode a =>
          simp only [hdt] at h
          try dsimp only at h
          by_cases hrb : isLastBreadcrumb ({ st with store := storeSetEnd st.store top (some te), breadcrumbs := st.breadcrumbs.dropLast }) NodeData.isRequisiteNode = true
          · rw [if_pos hrb] at h
            cases hbc2 : (st.breadcrumbs.dropLast).getLast? with
            | none =>
              simp only [hbc2, bind, Except.bind] at h
              exact absurd h (by simp)
            | some top2 =>
              simp only [hbc2] at h
              cases hd2 : (storeGet (storeSetEnd st.store top (some te)) top2).data with
              | requisiteNode m r =>
                simp only [hd2, hbc2] at h
                have hres := scalar_tail3 ({ st with store := storeSetData (storeSetEnd st.store top (some te)) top2 (NodeData.requisiteNode m (some v)), breadcrumbs := st.breadcrumbs.dropLast }) top2 v ts te st'
                  (InvStore_setData_other _ _ _ (by rw [hd2]; rfl) (by rw [hd2]; rfl) (InvStore_setEnd _ _ _ hs)) h
                exact ⟨hres.1, hres.2⟩
              | tree a b c =>
                simp only [hd2, hbc2] at h
                have hres := scalar_tail5 ({ st with store := storeSetEnd st.store top (some te), breadcrumbs := st.breadcrumbs.dropLast }) top2 v ts te st' (InvStore_setEnd _ _ _ hs) h
                exact ⟨hres.1, hres.2⟩
              | includesNode a =>
                simp only [hd2, hbc2] at h
                have hres := scalar_tail5 ({ st with store := storeSetEnd st.store top (some te), breadcrumbs := st.breadcrumbs.dropLast }) top2 v ts te st' (InvStore_setEnd _ _ _ hs) h
                exact ⟨hres.1, hres.2⟩
              | includeNode a =>
                simp only [hd2, hbc2] at h
                have hres := scalar_tail5 ({ st with store := storeSetEnd st.store top (some te), breadcrumbs := st.breadcrumbs.dropLast }) top2 v ts te st' (InvStore_setEnd _ _ _ hs) h
                exact ⟨hres.1, hres.2⟩
              | stateNode a b =>
                simp only [hd2, hbc2] at h
                have hres := scalar_tail5 ({ st with store := storeSetEnd st.store top (some te), breadcrumbs := st.breadcrumbs.dropLast }) top2 v ts te st' (InvStore_setEnd _ _ _ hs) h
                exact ⟨hres.1, hres.2⟩
              | stateCallNode a b c =>
                simp only [hd2, hbc2] at h
                have hres := scalar_tail5 ({ st with store := storeSetEnd st.store top (some te), breadcrumbs := st.breadcrumbs.dropLast }) top2 v ts te st' (InvStore_setEnd _ _ _ hs) h
                exact ⟨hres.1, hres.2⟩
              | requisitesNode a b =>
                simp only [hd2, hbc2] at h
                have hres := scalar_tail5 ({ st with store := storeSetEnd st.store top (some te), breadcrumbs := st.breadcrumbs.dropLast }) top2 v ts te st' (InvStore_setEnd _ _ _ hs) h
                exact ⟨hres.1, hres.2⟩
              | extendNode a =>
                simp only [hd2, hbc2] at h
                have hres := scalar_tail5 ({ st with store := storeSetEnd st.store top (some te), breadcrumbs := st.breadcrumbs.dropLast }) top2 v ts te st' (InvStore_setEnd _ _ _ hs) h
                exact ⟨hres.1, hres.2⟩
              | tokenNode a =>
                simp only [hd2, hbc2] at h
                have hres := scalar_tail5 ({ st with store := storeSetEnd st.store top (some te), breadcrumbs := st.breadcrumbs.dropLast }) top2 v ts te st' (InvStore_setEnd _ _ _ hs) h
                exact ⟨hres.1, hres.2⟩
              | stateParameterNode a b =>
                cases a with
                | none =>
                  simp only [hd2, hbc2] at h
                  have hres := scalar_tail5 ({ st with store := storeSetData (storeSetEnd st.store top (some te)) top2 (NodeData.stateParameterNode (some v) b), breadcrumbs := st.breadcrumbs.dropLast }) top2 v ts te st'
                    (InvStore_setData_other _ _ _ (by rw [hd2]; rfl) (by rw [hd2]; rfl) (InvStore_setEnd _ _ _ hs)) h
                  exact ⟨hres.1, hres.2⟩
                | some q =>
                  simp only [hd2, hbc2] at h
                  have hres := scalar_tail5 ({ st with store := storeSetEnd st.store top (some te), breadcrumbs := st.breadcrumbs.dropLast }) top2 v ts te st' (InvStore_setEnd _ _ _ hs) h
                  exact ⟨hres.1, hres.2⟩
          · rw [if_neg hrb] at h
            cases hbc3 : (st.breadcrumbs.dropLast).getLast? with
            | none =>
              simp only [hbc3, bind, Except.bind] at h
              exact absurd h (by simp)
            | some cur3 =>
              simp only [hbc3] at h
              have hres := scalar_tail3 ({ st with store := storeSetEnd st.store top (some te), breadcrumbs := st.breadcrumbs.dropLast }) cur3 v ts te st' (InvStore_setEnd _ _ _ hs) h
              exact ⟨hres.1, hres.2⟩
        | stateNode a b =>
          simp only [hdt] at h
          try dsimp only at h
          by_cases hrb : isLastBreadcrumb ({ st with store := storeSetEnd st.store top (some te), breadcrumbs := st.breadcrumbs.dropLast }) NodeData.isRequisiteNode = true
          · rw [if_pos hrb] at h
            cases hbc2 : (st.breadcrumbs.dropLast).getLast? with
            | none =>
              simp only [hbc2, bind, Except.bind] at h
              exact absurd h (by simp)
            | some top2 =>
              simp only [hbc2] at h
              cases hd2 : (storeGet (storeSetEnd st.store top (some te)) top2).data with
              | requisiteNode m r =>
                simp only [hd2, hbc2] at h
                have hres := scalar_tail3 ({ st with store := storeSetData (storeSetEnd st.store top (some te)) top2 (NodeData.requisiteNode m (some v)), breadcrumbs := st.breadcrumbs.dropLast }) top2 v ts te st'
                  (InvStore_setData_other _ _ _ (by rw [hd2]; rfl) (by rw [hd2]; rfl) (InvStore_setEnd _ _ _ hs)) h
                exact ⟨hres.1, hres.2⟩
              | tree a b c =>
                simp only [hd2, hbc2] at h
                have hres := scalar_tail5 ({ st with store := storeSetEnd st.store top (some te), breadcrumbs := st.breadcrumbs.dropLast }) top2 v ts te st' (InvStore_setEnd _ _ _ hs) h
                exact ⟨hres.1, hres.2⟩
              | includesNode a =>
                simp only [hd2, hbc2] at h
                have hres := scalar_tail5 ({ st with store := storeSetEnd st.store top (some te), breadcrumbs := st.breadcrumbs.dropLast }) top2 v ts te st' (InvStore_setEnd _ _ _ hs) h
                exact ⟨hres.1, hres.2⟩
              | includeNode a =>
                simp only [hd2, hbc2] at h
                have hres := scalar_tail5 ({ st with store := storeSetEnd st.store top (some te), breadcrumbs := st.breadcrumbs.dropLast }) top2 v ts te st' (InvStore_setEnd _ _ _ hs) h
                exact ⟨hres.1, hres.2⟩
              | stateNode a b =>
                simp only [hd2, hbc2] at h
                have hres := scalar_tail5 ({ st with store := storeSetEnd st.store top (some te), breadcrumbs := st.breadcrumbs.dropLast }) top2 v ts te st' (InvStore_setEnd _ _ _ hs) h
                exact ⟨hres.1, hres.2⟩
              | stateCallNode a b c =>
                simp only [hd2, hbc2] at h
                have hres := scalar_tail5 ({ st with store := storeSetEnd st.store top (some te), breadcrumbs := st.breadcrumbs.dropLast }) top2 v ts te st' (InvStore_setEnd _ _ _ hs) h
                exact ⟨hres.1, hres.2⟩
              | requisitesNode a b =>
                simp only [hd2, hbc2] at h
                have hres := scalar_tail5 ({ st with store := storeSetEnd st.store top (some te), breadcrumbs := st.breadcrumbs.dropLast }) top2 v ts te st' (InvStore_setEnd _ _ _ hs) h
                exact ⟨hres.1, hres.2⟩
              | extendNode a =>
                simp only [hd2, hbc2] at h
                have hres := scalar_tail5 ({ st with store := storeSetEnd st.store top (some te), breadcrumbs := st.breadcrumbs.dropLast }) top2 v ts te st' (InvStore_setEnd _ _ _ hs) h
                exact ⟨hres.1, hres.2⟩
              | tokenNode a =>
                simp only [hd2, hbc2] at h
                have hres := scalar_tail5 ({ st with store := storeSetEnd st.store top (some te), breadcrumbs := st.breadcrumbs.dropLast }) top2 v ts te st' (InvStore_setEnd _ _ _ hs) h
                exact ⟨hres.1, hres.2⟩
              | stateParameterNode a b =>
                cases a with
                | none =>
                  simp only [hd2, hbc2] at h
                  have hres := scalar_tail5 ({ st with store := storeSetData (storeSetEnd st.store top (some te)) top2 (NodeData.stateParameterNode (some v) b), breadcrumbs := st.breadcrumbs.dropLast }) top2 v ts te st'
                    (InvStore_setData_other _ _ _ (by rw [hd2]; rfl) (by rw [hd2]; rfl) (InvStore_setEnd _ _ _ hs)) h
                  exact ⟨hres.1, hres.2⟩
                | some q =>
                  simp only [hd2, hbc2] at h
                  have hres := scalar_tail5 ({ st with store := storeSetEnd st.store top (some te), breadcrumbs := st.breadcrumbs.dropLast }) top2 v ts te st' (InvStore_setEnd _ _ _ hs) h
                  exact ⟨hres.1, hres.2⟩
          · rw [if_neg hrb] at h
            cases hbc3 : (st.breadcrumbs.dropLast).getLast? with
            | none =>
              simp only [hbc3, bind, Except.bind] at h
              exact absurd h (by simp)
            | some cur3 =>
              simp only [hbc3] at h
              have hres := scalar_tail3 ({ st with store := storeSetEnd st.store top (some te), breadcrumbs := st.breadcrumbs.dropLast }) cur3 v ts te st' (InvStore_setEnd _ _ _ hs) h
              exact ⟨hres.1, hres.2⟩
        | stateCallNode a b c =>
          simp only [hdt] at h
          try dsimp only at h
          by_cases hrb : isLastBreadcrumb ({ st with store := storeSetEnd st.store top (some te), breadcrumbs := st.breadcrumbs.dropLast }) NodeData.isRequisiteNode = true
          · rw [if_pos hrb] at h
            cases hbc2 : (st.breadcrumbs.dropLast).getLast? with
            | none =>
              simp only [hbc2, bind, Except.bind] at h
              exact absurd h (by simp)
            | some top2 =>
              simp only [hbc2] at h
              cases hd2 : (storeGet (storeSetEnd st.store top (some te)) top2).data with
              | requisiteNode m r =>
                simp only [hd2, hbc2] at h
                have hres := scalar_tail3 ({ st with store := storeSetData (storeSetEnd st.store top (some te)) top2 (NodeData.requisiteNode m (some v)), breadcrumbs := st.breadcrumbs.dropLast }) top2 v ts te st'
                  (InvStore_setData_other _ _ _ (by rw [hd2]; rfl) (by rw [hd2]; rfl) (InvStore_setEnd _ _ _ hs)) h
                exact ⟨hres.1, hres.2⟩
              | tree a b c =>
                simp only [hd2, hbc2] at h
                have hres := scalar_tail5 ({ st with store := storeSetEnd st.store top (some te), breadcrumbs := st.breadcrumbs.dropLast }) top2 v ts te st' (InvStore_setEnd _ _ _ hs) h
                exact ⟨hres.1, hres.2⟩
              | includesNode a =>
                simp only [hd2, hbc2] at h
                have hres := scalar_tail5 ({ st with store := storeSetEnd st.store top (some te), breadcrumbs := st.breadcrumbs.dropLast }) top2 v ts te st' (InvStore_setEnd _ _ _ hs) h
                exact ⟨hres.1, hres.2⟩
              | includeNode a =>
                simp only [hd2, hbc2] at h
                have hres := scalar_tail5 ({ st with store := storeSetEnd st.store top (some te), breadcrumbs := st.breadcrumbs.dropLast }) top2 v ts te st' (InvStore_setEnd _ _ _ hs) h
                exact ⟨hres.1, hres.2⟩
              | stateNode a b =>
                simp only [hd2, hbc2] at h
                have hres := scalar_tail5 ({ st with store := storeSetEnd st.store top (some te), breadcrumbs := st.breadcrumbs.dropLast }) top2 v ts te st' (InvStore_setEnd _ _ _ hs) h
                exact ⟨hres.1, hres.2⟩
              | stateCallNode a b c =>
                simp only [hd2, hbc2] at h
                have hres := scalar_tail5 ({ st with store := storeSetEnd st.store top (some te), breadcrumbs := st.breadcrumbs.dropLast }) top2 v ts te st' (InvStore_setEnd _ _ _ hs) h
                exact ⟨hres.1, hres.2⟩
              | requisitesNode a b =>
                simp only [hd2, hbc2] at h
                have hres := scalar_tail5 ({ st with store := storeSetEnd st.store top (some te), breadcrumbs := st.breadcrumbs.dropLast }) top2 v ts te st' (InvStore_setEnd _ _ _ hs) h
                exact ⟨hres.1, hres.2⟩
              | extendNode a =>
                simp only [hd2, hbc2] at h
                have hres := scalar_tail5 ({ st with store := storeSetEnd st.store top (some te), breadcrumbs := st.breadcrumbs.dropLast }) top2 v ts te st' (InvStore_setEnd _ _ _ hs) h
                exact ⟨hres.1, hres.2⟩
              | tokenNode a =>
                simp only [hd2, hbc2] at h
                have hres := scalar_tail5 ({ st with store := storeSetEnd st.store top (some te), breadcrumbs := st.breadcrumbs.dropLast }) top2 v ts te st' (InvStore_setEnd _ _ _ hs) h
                exact ⟨hres.1, hres.2⟩
              | stateParameterNode a b =>
                cases a with
                | none =>
                  simp only [hd2, hbc2] at h
                  have hres := scalar_tail5 ({ st with store := storeSetData (storeSetEnd st.store top (some te)) top2 (NodeData.stateParameterNode (some v) b), breadcrumbs := st.breadcrumbs.dropLast }) top2 v ts te st'
                    (InvStore_setData_other _ _ _ (by rw [hd2]; rfl) (by rw [hd2]; rfl) (InvStore_setEnd _ _ _ hs)) h
                  exact ⟨hres.1, hres.2⟩
                | some q =>
                  simp only [hd2, hbc2] at h
                  have hres := scalar_tail5 ({ st with store := storeSetEnd st.store top (some te), breadcrumbs := st.breadcrumbs.dropLast }) top2 v ts te st' (InvStore_setEnd _ _ _ hs) h
                  exact ⟨hres.1, hres.2⟩
          · rw [if_neg hrb] at h
            cases hbc3 : (st.breadcrumbs.dropLast).getLast? with
            | none =>
              simp only [hbc3, bind, Except.bind] at h
              exact absurd h (by simp)
            | some cur3 =>
              simp only [hbc3] at h
              have hres := scalar_tail3 ({ st with store := storeSetEnd st.store top (some te), breadcrumbs := st.breadcrumbs.dropLast }) cur3 v ts te st' (InvStore_setEnd _ _ _ hs) h
              exact ⟨hres.1, hres.2⟩
        | requisitesNode a b =>
          simp only [hdt] at h
          try dsimp only at h
          by_cases hrb : isLastBreadcrumb ({ st with store := storeSetEnd st.store top (some te), breadcrumbs := st.breadcrumbs.dropLast }) NodeData.isRequisiteNode = true
          · rw [if_pos hrb] at h
            cases hbc2 : (st.breadcrumbs.dropLast).getLast? with
            | none =>
              simp only [hbc2, bind, Except.bind] at h
              exact absurd h (by simp)
            | some top2 =>
              simp only [hbc2] at h
              cases hd2 : (storeGet (storeSetEnd st.store top (some te)) top2).data with
              | requisiteNode m r =>
                simp only [hd2, hbc2] at h
                have hres := scalar_tail3 ({ st with store := storeSetData (storeSetEnd st.store top (some te)) top2 (NodeData.requisiteNode m (some v)), breadcrumbs := st.breadcrumbs.dropLast }) top2 v ts te st'
                  (InvStore_setData_other _ _ _ (by rw [hd2]; rfl) (by rw [hd2]; rfl) (InvStore_setEnd _ _ _ hs)) h
                exact ⟨hres.1, hres.2⟩
              | tree a b c =>
                simp only [hd2, hbc2] at h
                have hres := scalar_tail5 ({ st with store := storeSetEnd st.store top (some te), breadcrumbs := st.breadcrumbs.dropLast }) top2 v ts te st' (InvStore_setEnd _ _ _ hs) h
                exact ⟨hres.1, hres.2⟩
              | includesNode a =>
                simp only [hd2, hbc2] at h
                have hres := scalar_tail5 ({ st with store := storeSetEnd st.store top (some te), breadcrumbs := st.breadcrumbs.dropLast }) top2 v ts te st' (InvStore_setEnd _ _ _ hs) h
                exact ⟨hres.1, hres.2⟩
              | includeNode a =>
                simp only [hd2, hbc2] at h
                have hres := scalar_tail5 ({ st with store := storeSetEnd st.store top (some te), breadcrumbs := st.breadcrumbs.dropLast }) top2 v ts te st' (InvStore_setEnd _ _ _ hs) h
                exact ⟨hres.1, hres.2⟩
              | stateNode a b =>
                simp only [hd2, hbc2] at h
                have hres := scalar_tail5 ({ st with store := storeSetEnd st.store top (some te), breadcrumbs := st.breadcrumbs.dropLast }) top2 v ts te st' (InvStore_setEnd _ _ _ hs) h
                exact ⟨hres.1, hres.2⟩
              | stateCallNode a b c =>
                simp only [hd2, hbc2] at h
                have hres := scalar_tail5 ({ st with store := storeSetEnd st.store top (some te), breadcrumbs := st.breadcrumbs.dropLast }) top2 v ts te st' (InvStore_setEnd _ _ _ hs) h
                exact ⟨hres.1, hres.2⟩
              | requisitesNode a b =>
                simp only [hd2, hbc2] at h
                have hres := scalar_tail5 ({ st with store := storeSetEnd st.store top (some te), breadcrumbs := st.breadcrumbs.dropLast }) top2 v ts te st' (InvStore_setEnd _ _ _ hs) h
                exact ⟨hres.1, hres.2⟩
              | extendNode a =>
                simp only [hd2, hbc2] at h
                have hres := scalar_tail5 ({ st with store := storeSetEnd st.store top (some te), breadcrumbs := st.breadcrumbs.dropLast }) top2 v ts te st' (InvStore_setEnd _ _ _ hs) h
                exact ⟨hres.1, hres.2⟩
              | tokenNode a =>
                simp only [hd2, hbc2] at h
                have hres := scalar_tail5 ({ st with store := storeSetEnd st.store top (some te), breadcrumbs := st.breadcrumbs.dropLast }) top2 v ts te st' (InvStore_setEnd _ _ _ hs) h
                exact ⟨hres.1, hres.2⟩
              | stateParameterNode a b =>
                cases a with
                | none =>
                  simp only [hd2, hbc2] at h
                  have hres := scalar_tail5 ({ st with store := storeSetData (storeSetEnd st.store top (some te)) top2 (NodeData.stateParameterNode (some v) b), breadcrumbs := st.breadcrumbs.dropLast }) top2 v ts te st'
                    (InvStore_setData_other _ _ _ (by rw [hd2]; rfl) (by rw [hd2]; rfl) (InvStore_setEnd _ _ _ hs)) h
                  exact ⟨hres.1, hres.2⟩
                | some q =>
                  simp only [hd2, hbc2] at h
                  have hres := scalar_tail5 ({ st with store := storeSetEnd st.store top (some te), breadcrumbs := st.breadcrumbs.dropLast }) top2 v ts te st' (InvStore_setEnd _ _ _ hs) h
                  exact ⟨hres.1, hres.2⟩
          · rw [if_neg hrb] at h
            cases hbc3 : (st.breadcrumbs.dropLast).getLast? with
            | none =>
              simp only [hbc3, bind, Except.bind] at h
              exact absurd h (by simp)
            | some cur3 =>
              simp only [hbc3] at h
              have hres := scalar_tail3 ({ st with store := storeSetEnd st.store top (some te), breadcrumbs := st.breadcrumbs.dropLast }) cur3 v ts te st' (InvStore_setEnd _ _ _ hs) h
              exact ⟨hres.1, hres.2⟩
        | requisiteNode a b =>
          simp only [hdt] at h
          try dsimp only at h
          by_cases hrb : isLastBreadcrumb ({ st with store := storeSetEnd st.store top (some te), breadcrumbs := st.breadcrumbs.dropLast }) NodeData.isRequisiteNode = true
          · rw [if_pos hrb] at h
            cases hbc2 : (st.breadcrumbs.dropLast).getLast? with
            | none =>
              simp only [hbc2, bind, Except.bind] at h
              exact absurd h (by simp)
            | some top2 =>
              simp only [hbc2] at h
              cases hd2 : (storeGet (storeSetEnd st.store top (some te)) top2).data with
              | requisiteNode m r =>
                simp only [hd2, hbc2] at h
                have hres := scalar_tail3 ({ st with store := storeSetData (storeSetEnd st.store top (some te)) top2 (NodeData.requisiteNode m (some v)), breadcrumbs := st.breadcrumbs.dropLast }) top2 v ts te st'
                  (InvStore_setData_other _ _ _ (by rw [hd2]; rfl) (by rw [hd2]; rfl) (InvStore_setEnd _ _ _ hs)) h
                exact ⟨hres.1, hres.2⟩
              | tree a b c =>
                simp only [hd2, hbc2] at h
                have hres := scalar_tail5 ({ st with store := storeSetEnd st.store top (some te), breadcrumbs := st.breadcrumbs.dropLast }) top2 v ts te st' (InvStore_setEnd _ _ _ hs) h
                exact ⟨hres.1, hres.2⟩
              | includesNode a =>
                simp only [hd2, hbc2] at h
                have hres := scalar_tail5 ({ st with store := storeSetEnd st.store top (some te), breadcrumbs := st.breadcrumbs.dropLast }) top2 v ts te st' (InvStore_setEnd _ _ _ hs) h
                exact ⟨hres.1, hres.2⟩
              | includeNode a =>
                simp only [hd2, hbc2] at h
                have hres := scalar_tail5 ({ st with store := storeSetEnd st.store top (some te), breadcrumbs := st.breadcrumbs.dropLast }) top2 v ts te st' (InvStore_setEnd _ _ _ hs) h
                exact ⟨hres.1, hres.2⟩
              | stateNode a b =>
                simp only [hd2, hbc2] at h
                have hres := scalar_tail5 ({ st with store := storeSetEnd st.store top (some te), breadcrumbs := st.breadcrumbs.dropLast }) top2 v ts te st' (InvStore_setEnd _ _ _ hs) h
                exact ⟨hres.1, hres.2⟩
              | stateCallNode a b c =>
                simp only [hd2, hbc2] at h
                have hres := scalar_tail5 ({ st with store := storeSetEnd st.store top (some te), breadcrumbs := st.breadcrumbs.dropLast }) top2 v ts te st' (InvStore_setEnd _ _ _ hs) h
                exact ⟨hres.1, hres.2⟩
              | requisitesNode a b =>
                simp only [hd2, hbc2] at h
                have hres := scalar_tail5 ({ st with store := storeSetEnd st.store top (some te), breadcrumbs := st.breadcrumbs.dropLast }) top2 v ts te st' (InvStore_setEnd _ _ _ hs) h
                exact ⟨hres.1, hres.2⟩
              | extendNode a =>
                simp only [hd2, hbc2] at h
                have hres := scalar_tail5 ({ st with store := storeSetEnd st.store top (some te), breadcrumbs := st.breadcrumbs.dropLast }) top2 v ts te st' (InvStore_setEnd _ _ _ hs) h
                exact ⟨hres.1, hres.2⟩
              | tokenNode a =>
                simp only [hd2, hbc2] at h
                have hres := scalar_tail5 ({ st with store := storeSetEnd st.store top (some te), breadcrumbs := st.breadcrumbs.dropLast }) top2 v ts te st' (InvStore_setEnd _ _ _ hs) h
                exact ⟨hres.1, hres.2⟩
              | stateParameterNode a b =>
                cases a with
                | none =>
                  simp only [hd2, hbc2] at h
                  have hres := scalar_tail5 ({ st with store := storeSetData (storeSetEnd st.store top (some te)) top2 (NodeData.stateParameterNode (some v) b), breadcrumbs := st.breadcrumbs.dropLast }) top2 v ts te st'
                    (InvStore_setData_other _ _ _ (by rw [hd2]; rfl) (by rw [hd2]; rfl) (InvStore_setEnd _ _ _ hs)) h
                  exact ⟨hres.1, hres.2⟩
                | some q =>
                  simp only [hd2, hbc2] at h
                  have hres := scalar_tail5 ({ st with store := storeSetEnd st.store top (some te), breadcrumbs := st.breadcrumbs.dropLast }) top2 v ts te st' (InvStore_setEnd _ _ _ hs) h
                  exact ⟨hres.1, hres.2⟩
          · rw [if_neg hrb] at h
            cases hbc3 : (st.breadcrumbs.dropLast).getLast? with
            | none =>
              simp only [hbc3, bind, Except.bind] at h
              exact absurd h (by simp)
            | some cur3 =>
              simp only [hbc3] at h
              have hres := scalar_tail3 ({ st with store := storeSetEnd st.store top (some te), breadcrumbs := st.breadcrumbs.dropLast }) cur3 v ts te st' (InvStore_setEnd _ _ _ hs) h
              exact ⟨hres.1, hres.2⟩
        | extendNode a =>
          simp only [hdt] at h
          try dsimp only at h
          by_cases hrb : isLastBreadcrumb ({ st with store := storeSetEnd st.store top (some te), breadcrumbs := st.breadcrumbs.dropLast }) NodeData.isRequisiteNode = true
          · rw [if_pos hrb] at h
            cases hbc2 : (st.breadcrumbs.dropLast).getLast? with
            | none =>
              simp only [hbc2, bind, Except.bind] at h
              exact absurd h (by simp)
            | some top2 =>
              simp only [hbc2] at h
              cases hd2 : (storeGet (storeSetEnd st.store top (some te)) top2).data with
              | requisiteNode m r =>
                simp only [hd2, hbc2] at h
                have hres := scalar_tail3 ({ st with store := storeSetData (storeSetEnd st.store top (some te)) top2 (NodeData.requisiteNode m (some v)), breadcrumbs := st.breadcrumbs.dropLast }) top2 v ts te st'
                  (InvStore_setData_other _ _ _ (by rw [hd2]; rfl) (by rw [hd2]; rfl) (InvStore_setEnd _ _ _ hs)) h
                exact ⟨hres.1, hres.2⟩
              | tree a b c =>
                simp only [hd2, hbc2] at h
                have hres := scalar_tail5 ({ st with store := storeSetEnd st.store top (some te), breadcrumbs := st.breadcrumbs.dropLast }) top2 v ts te st' (InvStore_setEnd _ _ _ hs) h
                exact ⟨hres.1, hres.2⟩
              | includesNode a =>
                simp only [hd2, hbc2] at h
                have hres := scalar_tail5 ({ st with store := storeSetEnd st.store top (some te), breadcrumbs := st.breadcrumbs.dropLast }) top2 v ts te st' (InvStore_setEnd _ _ _ hs) h
                exact ⟨hres.1, hres.2⟩
              | includeNode a =>
                simp only [hd2, hbc2] at h
                have hres := scalar_tail5 ({ st with store := storeSetEnd st.store top (some te), breadcrumbs := st.breadcrumbs.dropLast }) top2 v ts te st' (InvStore_setEnd _ _ _ hs) h
                exact ⟨hres.1, hres.2⟩
              | stateNode a b =>
                simp only [hd2, hbc2] at h
                have hres := scalar_tail5 ({ st with store := storeSetEnd st.store top (some te), breadcrumbs := st.breadcrumbs.dropLast }) top2 v ts te st' (InvStore_setEnd _ _ _ hs) h
                exact ⟨hres.1, hres.2⟩
              | stateCallNode a b c =>
                simp only [hd2, hbc2] at h
                have hres := scalar_tail5 ({ st with store := storeSetEnd st.store top (some te), breadcrumbs := st.breadcrumbs.dropLast }) top2 v ts te st' (InvStore_setEnd _ _ _ hs) h
                exact ⟨hres.1, hres.2⟩
              | requisitesNode a b =>
                simp only [hd2, hbc2] at h
                have hres := scalar_tail5 ({ st with store := storeSetEnd st.store top (some te), breadcrumbs := st.breadcrumbs.dropLast }) top2 v ts te st' (InvStore_setEnd _ _ _ hs) h
                exact ⟨hres.1, hres.2⟩
              | extendNode a =>
                simp only [hd2, hbc2] at h
                have hres := scalar_tail5 ({ st with store := storeSetEnd st.store top (some te), breadcrumbs := st.breadcrumbs.dropLast }) top2 v ts te st' (InvStore_setEnd _ _ _ hs) h
                exact ⟨hres.1, hres.2⟩
              | tokenNode a =>
                simp only [hd2, hbc2] at h
                have hres := scalar_tail5 ({ st with store := storeSetEnd st.store top (some te), breadcrumbs := st.breadcrumbs.dropLast }) top2 v ts te st' (InvStore_setEnd _ _ _ hs) h
                exact ⟨hres.1, hres.2⟩
              | stateParameterNode a b =>
                cases a with
                | none =>
                  simp only [hd2, hbc2] at h
                  have hres := scalar_tail5 ({ st with store := storeSetData (storeSetEnd st.store top (some te)) top2 (NodeData.stateParameterNode (some v) b), breadcrumbs := st.breadcrumbs.dropLast }) top2 v ts te st'
                    (InvStore_setData_other _ _ _ (by rw [hd2]; rfl) (by rw [hd2]; rfl) (InvStore_setEnd _ _ _ hs)) h
                  exact ⟨hres.1, hres.2⟩
                | some q =>
                  simp only [hd2, hbc2] at h
                  have hres := scalar_tail5 ({ st with store := storeSetEnd st.store top (some te), breadcrumbs := st.breadcrumbs.dropLast }) top2 v ts te st' (InvStore_setEnd _ _ _ hs) h
                  exact ⟨hres.1, hres.2⟩
          · rw [if_neg hrb] at h
            cases hbc3 : (st.breadcrumbs.dropLast).getLast? with
            | none =>
              simp only [hbc3, bind, Except.bind] at h
              exact absurd h (by simp)
            | some cur3 =>
              simp only [hbc3] at h
              have hres := scalar_tail3 ({ st with store := storeSetEnd st.store top (some te), breadcrumbs := st.breadcrumbs.dropLast }) cur3 v ts te st' (InvStore_setEnd _ _ _ hs) h
              exact ⟨hres.1, hres.2⟩
        | tokenNode a =>
          simp only [hdt] at h
          try dsimp only at h
          by_cases hrb : isLastBreadcrumb ({ st with store := storeSetEnd st.store top (some te), breadcrumbs := st.breadcrumbs.dropLast }) NodeData.isRequisiteNode = true
          · rw [if_pos hrb] at h
            cases hbc2 : (st.breadcrumbs.dropLast).getLast? with
            | none =>
              simp only [hbc2, bind, Except.bind] at h
              exact absurd h (by simp)
            | some top2 =>
              simp only [hbc2] at h
              cases hd2 : (storeGet (storeSetEnd st.store top (some te)) top2).data with
              | requisiteNode m r =>
                simp only [hd2, hbc2] at h
                have hres := scalar_tail3 ({ st with store := storeSetData (storeSetEnd st.store top (some te)) top2 (NodeData.requisiteNode m (some v)), breadcrumbs := st.breadcrumbs.dropLast }) top2 v ts te st'
                  (InvStore_setData_other _ _ _ (by rw [hd2]; rfl) (by rw [hd2]; rfl) (InvStore_setEnd _ _ _ hs)) h
                exact ⟨hres.1, hres.2⟩
              | tree a b c =>
                simp only [hd2, hbc2] at h
                have hres := scalar_tail5 ({ st with store := storeSetEnd st.store top (some te), breadcrumbs := st.breadcrumbs.dropLast }) top2 v ts te st' (InvStore_setEnd _ _ _ hs) h
                exact ⟨hres.1, hres.2⟩
              | includesNode a =>
                simp only [hd2, hbc2] at h
                have hres := scalar_tail5 ({ st with store := storeSetEnd st.store top (some te), breadcrumbs := st.breadcrumbs.dropLast }) top2 v ts te st' (InvStore_setEnd _ _ _ hs) h
                exact ⟨hres.1, hres.2⟩
              | includeNode a =>
                simp only [hd2, hbc2] at h
                have hres := scalar_tail5 ({ st with store := storeSetEnd st.store top (some te), breadcrumbs := st.breadcrumbs.dropLast }) top2 v ts te st' (InvStore_setEnd _ _ _ hs) h
                exact ⟨hres.1, hres.2⟩
              | stateNode a b =>
                simp only [hd2, hbc2] at h
                have hres := scalar_tail5 ({ st with store := storeSetEnd st.store top (some te), breadcrumbs := st.breadcrumbs.dropLast }) top2 v ts te st' (InvStore_setEnd _ _ _ hs) h
                exact ⟨hres.1, hres.2⟩
              | stateCallNode a b c =>
                simp only [hd2, hbc2] at h
                have hres := scalar_tail5 ({ st with store := storeSetEnd st.store top (some te), breadcrumbs := st.breadcrumbs.dropLast }) top2 v ts te st' (InvStore_setEnd _ _ _ hs) h
                exact ⟨hres.1, hres.2⟩
              | requisitesNode a b =>
                simp only [hd2, hbc2] at h
                have hres := scalar_tail5 ({ st with store := storeSetEnd st.store top (some te), breadcrumbs := st.breadcrumbs.dropLast }) top2 v ts te st' (InvStore_setEnd _ _ _ hs) h
                exact ⟨hres.1, hres.2⟩
              | extendNode a =>
                simp only [hd2, hbc2] at h
                have hres := scalar_tail5 ({ st with store := storeSetEnd st.store top (some te), breadcrumbs := st.breadcrumbs.dropLast }) top2 v ts te st' (InvStore_setEnd _ _ _ hs) h
                exact ⟨hres.1, hres.2⟩
              | tokenNode a =>
                simp only [hd2, hbc2] at h
                have hres := scalar_tail5 ({ st with store := storeSetEnd st.store top (some te), breadcrumbs := st.breadcrumbs.dropLast }) top2 v ts te st' (InvStore_setEnd _ _ _ hs) h
                exact ⟨hres.1, hres.2⟩
              | stateParameterNode a b =>
                cases a with
                | none =>
                  simp only [hd2, hbc2] at h
                  have hres := scalar_tail5 ({ st with store := storeSetData (storeSetEnd st.store top (some te)) top2 (NodeData.stateParameterNode (some v) b), breadcrumbs := st.breadcrumbs.dropLast }) top2 v ts te st'
                    (InvStore_setData_other _ _ _ (by rw [hd2]; rfl) (by rw [hd2]; rfl) (InvStore_setEnd _ _ _ hs)) h
                  exact ⟨hres.1, hres.2⟩
                | some q =>
                  simp only [hd2, hbc2] at h
                  have hres := scalar_tail5 ({ st with store := storeSetEnd st.store top (some te), breadcrumbs := st.breadcrumbs.dropLast }) top2 v ts te st' (InvStore_setEnd _ _ _ hs) h
                  exact ⟨hres.1, hres.2⟩
          · rw [if_neg hrb] at h
            cases hbc3 : (st.breadcrumbs.dropLast).getLast? with
            | none =>
              simp only [hbc3, bind, Except.bind] at h
              exact absurd h (by simp)
            | some cur3 =>
              simp only [hbc3] at h
              have hres := scalar_tail3 ({ st with store := storeSetEnd st.store top (some te), breadcrumbs := st.breadcrumbs.dropLast }) cur3 v ts te st' (InvStore_setEnd _ _ _ hs) h
              exact ⟨hres.1, hres.2⟩

        | stateParameterNode a b =>
          simp only [hdt] at h
          try dsimp only at h
          by_cases hrb : isLastBreadcrumb ({ st with store := storeSetEnd st.store top (some te), breadcrumbs := st.breadcrumbs.dropLast }) NodeData.isRequisiteNode = true
          · rw [if_pos hrb] at h
            cases hbc2 : (st.breadcrumbs.dropLast).getLast? with
            | none =>
              simp only [hbc2, bind, Except.bind] at h
              exact absurd h (by simp)
            | some top2 =>
              simp only [hbc2] at h
              cases hd2 : (storeGet (storeSetEnd st.store top (some te)) top2).data with
              | requisiteNode m r =>
                simp only [hd2, hbc2] at h
                have hres := scalar_tail3 ({ st with store := storeSetData (storeSetEnd st.store top (some te)) top2 (NodeData.requisiteNode m (some v)), breadcrumbs := st.breadcrumbs.dropLast }) top2 v ts te st'
                  (InvStore_setData_other _ _ _ (by rw [hd2]; rfl) (by rw [hd2]; rfl) (InvStore_setEnd _ _ _ hs)) h
                exact ⟨hres.1, hres.2⟩
              | tree a b c =>
                simp only [hd2, hbc2] at h
                have hres := scalar_tail5 ({ st with store := storeSetEnd st.store top (some te), breadcrumbs := st.breadcrumbs.dropLast }) top2 v ts te st' (InvStore_setEnd _ _ _ hs) h
                exact ⟨hres.1, hres.2⟩
              | includesNode a =>
                simp only [hd2, hbc2] at h
                have hres := scalar_tail5 ({ st with store := storeSetEnd st.store top (some te), breadcrumbs := st.breadcrumbs.dropLast }) top2 v ts te st' (InvStore_setEnd _ _ _ hs) h
                exact ⟨hres.1, hres.2⟩
              | includeNode a =>
                simp only [hd2, hbc2] at h
                have hres := scalar_tail5 ({ st with store := storeSetEnd st.store top (some te), breadcrumbs := st.breadcrumbs.dropLast }) top2 v ts te st' (InvStore_setEnd _ _ _ hs) h
                exact ⟨hres.1, hres.2⟩
              | stateNode a b =>
                simp only [hd2, hbc2] at h
                have hres := scalar_tail5 ({ st with store := storeSetEnd st.store top (some te), breadcrumbs := st.breadcrumbs.dropLast }) top2 v ts te st' (InvStore_setEnd _ _ _ hs) h
                exact ⟨hres.1, hres.2⟩
              | stateCallNode a b c =>
                simp only [hd2, hbc2] at h
                have hres := scalar_tail5 ({ st with store := storeSetEnd st.store top (some te), breadcrumbs := st.breadcrumbs.dropLast }) top2 v ts te st' (InvStore_setEnd _ _ _ hs) h
                exact ⟨hres.1, hres.2⟩
              | requisitesNode a b =>
                simp only [hd2, hbc2] at h
                have hres := scalar_tail5 ({ st with store := storeSetEnd st.store top (some te), breadcrumbs := st.breadcrumbs.dropLast }) top2 v ts te st' (InvStore_setEnd _ _ _ hs) h
                exact ⟨hres.1, hres.2⟩
              | extendNode a =>
                simp only [hd2, hbc2] at h
                have hres := scalar_tail5 ({ st with store := storeSetEnd st.store top (some te), breadcrumbs := st.breadcrumbs.dropLast }) top2 v ts te st' (InvStore_setEnd _ _ _ hs) h
                exact ⟨hres.1, hres.2⟩
              | tokenNode a =>
                simp only [hd2, hbc2] at h
                have hres := scalar_tail5 ({ st with store := storeSetEnd st.store top (some te), breadcrumbs := st.breadcrumbs.dropLast }) top2 v ts te st' (InvStore_setEnd _ _ _ hs) h
                exact ⟨hres.1, hres.2⟩
              | stateParameterNode a b =>
                cases a with
                | none =>
                  simp only [hd2, hbc2] at h
                  have hres := scalar_tail5 ({ st with store := storeSetData (storeSetEnd st.store top (some te)) top2 (NodeData.stateParameterNode (some v) b), breadcrumbs := st.breadcrumbs.dropLast }) top2 v ts te st'
                    (InvStore_setData_other _ _ _ (by rw [hd2]; rfl) (by rw [hd2]; rfl) (InvStore_setEnd _ _ _ hs)) h
                  exact ⟨hres.1, hres.2⟩
                | some q =>
                  simp only [hd2, hbc2] at h
                  have hres := scalar_tail5 ({ st with store := storeSetEnd st.store top (some te), breadcrumbs := st.breadcrumbs.dropLast }) top2 v ts te st' (InvStore_setEnd _ _ _ hs) h
                  exact ⟨hres.1, hres.2⟩
          · rw [if_neg hrb] at h
            cases hbc3 : (st.breadcrumbs.dropLast).getLast? with
            | none =>
              simp only [hbc3, bind, Except.bind] at h
              exact absurd h (by simp)
            | some cur3 =>
              simp only [hbc3] at h
              have hres := scalar_tail3 ({ st with store := storeSetEnd st.store top (some te), breadcrumbs := st.breadcrumbs.dropLast }) cur3 v ts te st' (InvStore_setEnd _ _ _ hs) h
              exact ⟨hres.1, hres.2⟩

    · rw [if_neg hib] at h
      try dsimp only at h
      by_cases hrb : isLastBreadcrumb (st) NodeData.isRequisiteNode = true
      · rw [if_pos hrb] at h
        cases hbc2 : (st.breadcrumbs).getLast? with
        | none =>
          simp only [hbc2, bind, Except.bind] at h
          exact absurd h (by simp)
        | some top2 =>
          simp only [hbc2] at h
          cases hd2 : (storeGet (st.store) top2).data with
          | requisiteNode m r =>
            simp only [hd2, hbc2] at h
            have hres := scalar_tail3 ({ st with store := storeSetData st.store top2 (NodeData.requisiteNode m (some v)) }) top2 v ts te st'
              (InvStore_setData_other _ _ _ (by rw [hd2]; rfl) (by rw [hd2]; rfl) hs) h
            exact ⟨hres.1, hres.2⟩
          | tree a b c =>
            simp only [hd2, hbc2] at h
            have hres := scalar_tail5 (st) top2 v ts te st' hs h
            exact ⟨hres.1, hres.2⟩
          | includesNode a =>
            simp only [hd2, hbc2] at h
            have hres := scalar_tail5 (st) top2 v ts te st' hs h
            exact ⟨hres.1, hres.2⟩
          | includeNode a =>
            simp only [hd2, hbc2] at h
            have hres := scalar_tail5 (st) top2 v ts te st' hs h
            exact ⟨hres.1, hres.2⟩
          | stateNode a b =>
            simp only [hd2, hbc2] at h
            have hres := scalar_tail5 (st) top2 v ts te st' hs h
            exact ⟨hres.1, hres.2⟩
          | stateCallNode a b c =>
            simp only [hd2, hbc2] at h
            have hres := scalar_tail5 (st) top2 v ts te st' hs h
            exact ⟨hres.1, hres.2⟩
          | requisitesNode a b =>
            simp only [hd2, hbc2] at h
            have hres := scalar_tail5 (st) top2 v ts te st' hs h
            exact ⟨hres.1, hres.2⟩
          | extendNode a =>
            simp only [hd2, hbc2] at h
            have hres := scalar_tail5 (st) top2 v ts te st' hs h
            exact ⟨hres.1, hres.2⟩
          | tokenNode a =>
            simp only [hd2, hbc2] at h
            have hres := scalar_tail5 (st) top2 v ts te st' hs h
            exact ⟨hres.1, hres.2⟩
          | stateParameterNode a b =>
            cases a with
            | none =>
              simp only [hd2, hbc2] at h
              have hres := scalar_tail5 ({ st with store := storeSetData st.store top2 (NodeData.stateParameterNode (some v) b) }) top2 v ts te st'
                (InvStore_setData_other _ _ _ (by rw [hd2]; rfl) (by rw [hd2]; rfl) hs) h
              exact ⟨hres.1, hres.2⟩
            | some q =>
              simp only [hd2, hbc2] at h
              have hres := scalar_tail5 (st) top2 v ts te st' hs h
              exact ⟨hres.1, hres.2⟩
      · rw [if_neg hrb] at h
        cases hbc3 : (st.breadcrumbs).getLast? with
        | none =>
          simp only [hbc3, bind, Except.bind] at h
          exact absurd h (by simp)
        | some cur3 =>
          simp only [hbc3] at h
          have hres := scalar_tail3 (st) cur3 v ts te st' hs h
          exact ⟨hres.1, hres.2⟩


theorem InvP_processTokenRest (st : PState) (tok : Token) (ts te : Position)
    (st' : PState) (h : processTokenRest st tok ts te = .ok st') (hP : InvP st) :
    InvP st' := by
  have tail2 : ∀ σ4 : PState, InvStore σ4.store → σ4.unprocessedTokens = none →
      (match tok.kind with
       | TokKind.scalar v => processTokenScalar σ4 v ts te
       | _ => Except.ok σ4) = .ok st' → InvP st' := by
    intro σ4 hs4 hn4 h4
    cases hkk : tok.kind with
    | scalar v =>
      rw [hkk] at h4
      try dsimp only at h4
      obtain ⟨hsA, hbA⟩ := InvP_processTokenScalar σ4 v ts te st' h4 hs4
      refine ⟨hsA, ?_⟩
      intro uid hu
      rw [hbA, hn4] at hu
      exact absurd hu (by simp)
    | streamStart =>
      rw [hkk] at h4
      try dsimp only at h4
      simp only [Except.ok.injEq] at h4
      subst h4
      refine ⟨hs4, ?_⟩
      intro uid hu
      rw [hn4] at hu
      exact absurd hu (by simp)
    | streamEnd =>
      rw [hkk] at h4
      try dsimp only at h4
      simp only [Except.ok.injEq] at h4
      subst h4
      refine ⟨hs4, ?_⟩
      intro uid hu
      rw [hn4] at hu
      exact absurd hu (by simp)
    | blockMappingStart =>
      rw [hkk] at h4
      try dsimp only at h4
      simp only [Except.ok.injEq] at h4
      subst h4
      refine ⟨hs4, ?_⟩
      intro uid hu
      rw [hn4] at hu
      exact absurd hu (by simp)
    | blockSequenceStart =>
      rw [hkk] at h4
      try dsimp only at h4
      simp only [Except.ok.injEq] at h4
      subst h4
      refine ⟨hs4, ?_⟩
      intro uid hu
      rw [hn4] at hu
      exact absurd hu (by simp)
    | flowSequenceStart =>
      rw [hkk] at h4
      try dsimp only at h4
      simp only [Except.ok.injEq] at h4
      subst h4
      refine ⟨hs4, ?_⟩
      intro uid hu
      rw [hn4] at hu
      exact absurd hu (by simp)
    | flowMappingStart =>
      rw [hkk] at h4
      try dsimp only at h4
      simp only [Except.ok.injEq] at h4
      subst h4
      refine ⟨hs4, ?_⟩
      intro uid hu
      rw [hn4] at hu
      exact absurd hu (by simp)
    | blockEnd =>
      rw [hkk] at h4
      try dsimp only at h4
      simp only [Except.ok.injEq] at h4
      subst h4
      refine ⟨hs4, ?_⟩
      intro uid hu
      rw [hn4] at hu
      exact absurd hu (by simp)
    | flowSequenceEnd =>
      rw [hkk] at h4
      try dsimp only at h4
      simp only [Except.ok.injEq] at h4
      subst h4
      refine ⟨hs4, ?_⟩
      intro uid hu
      rw [hn4] at hu
      exact absurd hu (by simp)
    | flowMappingEnd =>
      rw [hkk] at h4
      try dsimp only at h4
      simp only [Except.ok.injEq] at h4
      subst h4
      refine ⟨hs4, ?_⟩
      intro uid hu
      rw [hn4] at hu
      exact absurd hu (by simp)
    | key =>
      rw [hkk] at h4
      try dsimp only at h4
      simp only [Except.ok.injEq] at h4
      subst h4
      refine ⟨hs4, ?_⟩
      intro uid hu
      rw [hn4] at hu
      exact absurd hu (by simp)
    | value =>
      rw [hkk] at h4
      try dsimp only at h4
      simp only [Except.ok.injEq] at h4
      subst h4
      refine ⟨hs4, ?_⟩
      intro uid hu
      rw [hn4] at hu
      exact absurd hu (by simp)
    | blockEntry =>
      rw [hkk] at h4
      try dsimp only at h4
      simp only [Except.ok.injEq] at h4
      subst h4
      refine ⟨hs4, ?_⟩
      intro uid hu
      rw [hn4] at hu
      exact absurd hu (by simp)
  have tail3 : ∀ σ3 : PState, InvStore σ3.store → σ3.unprocessedTokens = none →
      ((do
        let st4 ← if tok.kind == TokKind.blockEntry then processTokenBlockEntry σ3 tok ts
                  else .ok σ3
        match tok.kind with
        | TokKind.scalar v => processTokenScalar st4 v ts te
        | _ => Except.ok st4) : Except PyErr PState) = .ok st' → InvP st' := by
    intro σ3 hs3 hn3 h3
    by_cases hbe : (tok.kind == TokKind.blockEntry) = true
    · rw [if_pos hbe] at h3
      cases h4 : processTokenBlockEntry σ3 tok ts with
      | error e =>
        rw [h4] at h3
        exact absurd h3 (by simp [bind, Except.bind])
      | ok σ4 =>
        rw [h4] at h3
        simp only [bind, Except.bind] at h3
        obtain ⟨hs4, hb4⟩ := InvP_processTokenBlockEntry σ3 tok ts σ4 h4 hs3
        exact tail2 σ4 hs4 (hb4.trans hn3) h3
    · rw [if_neg hbe] at h3
      simp only [bind, Except.bind] at h3
      exact tail2 σ3 hs3 hn3 h3
  have tailP : ∀ σ2 : PState, InvP σ2 →
      ((if σ2.unprocessedTokens.isSome then Except.ok { σ2 with nextTokenIsValue := false }
        else do
          let st3 ← if tok.kind == TokKind.key then processKey σ2 ts else .ok σ2
          let st4 ← if tok.kind == TokKind.blockEntry then processTokenBlockEntry st3 tok ts
                    else .ok st3
          match tok.kind with
          | TokKind.scalar v => processTokenScalar st4 v ts te
          | _ => Except.ok st4) : Except PyErr PState) = .ok st' → InvP st' := by
    intro σ2 hP2 h2
    by_cases hbuf : σ2.unprocessedTokens.isSome = true
    · rw [if_pos hbuf] at h2
      simp only [Except.ok.injEq] at h2
      subst h2
      exact ⟨hP2.1, hP2.2⟩
    · rw [if_neg hbuf] at h2
      have hn2 : σ2.unprocessedTokens = none := by
        cases hu : σ2.unprocessedTokens with
        | none => rfl
        | some l => rw [hu] at hbuf; exact absurd rfl hbuf
      by_cases hk : (tok.kind == TokKind.key) = true
      · rw [if_pos hk] at h2
        cases h3 : processKey σ2 ts with
        | error e =>
          rw [h3] at h2
          exact absurd h2 (by simp [bind, Except.bind])
        | ok σ3 =>
          rw [h3] at h2
          simp only [bind, Except.bind] at h2
          obtain ⟨hs3, hb3⟩ := InvP_processKey σ2 ts σ3 h3 hP2.1
          exact tail3 σ3 hs3 (hb3.trans hn2) h2
      · rw [if_neg hk] at h2
        simp only [bind, Except.bind] at h2
        exact tail3 σ2 hP2.1 hn2 h2
  rw [processTokenRest] at h
  try dsimp only at h
  by_cases h1 : st.unprocessedTokens.isSome = true
  · rw [if_pos h1] at h
    by_cases h2 : tok.kind.isStarEnd = true
    · rw [if_pos h2] at h
      exact tailP (processStarEnd (processUnprocessedTokens st tok) te)
        (InvP_processStarEnd _ te (InvP_processUnprocessedTokens st tok hP)) h
    · rw [if_neg h2] at h
      exact tailP (processUnprocessedTokens st tok)
        (InvP_processUnprocessedTokens st tok hP) h
  · rw [if_neg h1] at h
    by_cases h2 : tok.kind.isStarEnd = true
    · rw [if_pos h2] at h
      exact tailP (processStarEnd st te) (InvP_processStarEnd st te hP) h
    · rw [if_neg h2] at h
      exact tailP st hP h

theorem InvP_mod_setStart (st : PState) (k : Nat) (p : Option Position) (hP : InvP st) :
    InvP { st with store := storeSetStart st.store k p } := by
  obtain ⟨hs, hb⟩ := hP
  refine ⟨InvStore_setStart _ _ _ hs, ?_⟩
  intro uid hu
  rw [data_storeSetStart]
  exact hb uid hu

theorem InvP_mod_setEnd (st : PState) (k : Nat) (p : Option Position) (hP : InvP st) :
    InvP { st with store := storeSetEnd st.store k p } := by
  obtain ⟨hs, hb⟩ := hP
  refine ⟨InvStore_setEnd _ _ _ hs, ?_⟩
  intro uid hu
  rw [data_storeSetEnd]
  exact hb uid hu

theorem InvP_processToken (st : PState) (tok : Token) (st' : PState)
    (h : processToken st tok = .ok st') (hP : InvP st) : InvP st' := by
  rw [processToken] at h
  try dsimp only at h
  by_cases h1c : (tok.kind == TokKind.streamStart) = true
  · rw [if_pos h1c] at h
    by_cases h2c : (tok.kind == TokKind.streamEnd) = true
    · rw [if_pos h2c] at h
      by_cases h3c : tok.kind.isStarStart = true
      · rw [if_pos h3c] at h
        by_cases hval : (tok.kind == TokKind.value) = true
        · rw [if_pos hval] at h
          try dsimp only at h
          by_cases hpar : (isLastBreadcrumb ({ (processTokenStarStart ({ st with store := storeSetEnd (storeSetStart st.store 0 (some tok.start_mark)) 0 (some tok.end_mark) }) tok) with nextTokenIsValue := true }) NodeData.isStateParameter && bufferFalsy (((processTokenStarStart ({ st with store := storeSetEnd (storeSetStart st.store 0 (some tok.start_mark)) 0 (some tok.end_mark) }) tok)).unprocessedTokens)) = true
          · rw [if_pos hpar] at h
            simp only [Except.ok.injEq] at h
            subst h
            refine ⟨((InvP_processTokenStarStart ({ st with store := storeSetEnd (storeSetStart st.store 0 (some tok.start_mark)) 0 (some tok.end_mark) }) tok (InvP_mod_setEnd ({ st with store := storeSetStart st.store 0 (some tok.start_mark) }) 0 (some tok.end_mark) (InvP_mod_setStart st 0 (some tok.start_mark) hP)))).1, ?_⟩
            intro uid hu
            exact absurd hu (by simp)
          · rw [if_neg hpar] at h
            exact InvP_processTokenRest ({ (processTokenStarStart ({ st with store := storeSetEnd (storeSetStart st.store 0 (some tok.start_mark)) 0 (some tok.end_mark) }) tok) with nextTokenIsValue := true }) tok _ _ st' h ⟨((InvP_processTokenStarStart ({ st with store := storeSetEnd (storeSetStart st.store 0 (some tok.start_mark)) 0 (some tok.end_mark) }) tok (InvP_mod_setEnd ({ st with store := storeSetStart st.store 0 (some tok.start_mark) }) 0 (some tok.end_mark) (InvP_mod_setStart st 0 (some tok.start_mark) hP)))).1, ((InvP_processTokenStarStart ({ st with store := storeSetEnd (storeSetStart st.store 0 (some tok.start_mark)) 0 (some tok.end_mark) }) tok (InvP_mod_setEnd ({ st with store := storeSetStart st.store 0 (some tok.start_mark) }) 0 (some tok.end_mark) (InvP_mod_setStart st 0 (some tok.start_mark) hP)))).2⟩
        · rw [if_neg hval] at h
          exact InvP_processTokenRest ((processTokenStarStart ({ st with store := storeSetEnd (storeSetStart st.store 0 (some tok.start_mark)) 0 (some tok.end_mark) }) tok)) tok _ _ st' h (InvP_processTokenStarStart ({ st with store := storeSetEnd (storeSetStart st.store 0 (some tok.start_mark)) 0 (some tok.end_mark) }) tok (InvP_mod_setEnd ({ st with store := storeSetStart st.store 0 (some tok.start_mark) }) 0 (some tok.end_mark) (InvP_mod_setStart st 0 (some tok.start_mark) hP)))
      · rw [if_neg h3c] at h
        by_cases hval : (tok.kind == TokKind.value) = true
        · rw [if_pos hval] at h
          try dsimp only at h
          by_cases hpar : (isLastBreadcrumb ({ st with store := storeSetEnd (storeSetStart st.store 0 (some tok.start_mark)) 0 (some tok.end_mark), nextTokenIsValue := true }) NodeData.isStateParameter && bufferFalsy (st.unprocessedTokens)) = true
          · rw [if_pos hpar] at h
            simp only [Except.ok.injEq] at h
            subst h
            refine ⟨((InvP_mod_setEnd ({ st with store := storeSetStart st.store 0 (some tok.start_mark) }) 0 (some tok.end_mark) (InvP_mod_setStart st 0 (some tok.start_mark) hP))).1, ?_⟩
            intro uid hu
            exact absurd hu (by simp)
          · rw [if_neg hpar] at h
            exact InvP_processTokenRest ({ st with store := storeSetEnd (storeSetStart st.store 0 (some tok.start_mark)) 0 (some tok.end_mark), nextTokenIsValue := true }) tok _ _ st' h ⟨((InvP_mod_setEnd ({ st with store := storeSetStart st.store 0 (some tok.start_mark) }) 0 (some tok.end_mark) (InvP_mod_setStart st 0 (some tok.start_mark) hP))).1, ((InvP_mod_setEnd ({ st with store := storeSetStart st.store 0 (some tok.start_mark) }) 0 (some tok.end_mark) (InvP_mod_setStart st 0 (some tok.start_mark) hP))).2⟩
        · rw [if_neg hval] at h
          exact InvP_processTokenRest ({ st with store := storeSetEnd (storeSetStart st.store 0 (some tok.start_mark)) 0 (some tok.end_mark) }) tok _ _ st' h (InvP_mod_setEnd ({ st with store := storeSetStart st.store 0 (some tok.start_mark) }) 0 (some tok.end_mark) (InvP_mod_setStart st 0 (some tok.start_mark) hP))
    · rw [if_neg h2c] at h
      by_cases h3c : tok.kind.isStarStart = true
      · rw [if_pos h3c] at h
        by_cases hval : (tok.kind == TokKind.value) = true
        · rw [if_pos hval] at h
          try dsimp only at h
          by_cases hpar : (isLastBreadcrumb ({ (processTokenStarStart ({ st with store := storeSetStart st.store 0 (some tok.start_mark) }) tok) with nextTokenIsValue := true }) NodeData.isStateParameter && bufferFalsy (((processTokenStarStart ({ st with store := storeSetStart st.store 0 (some tok.start_mark) }) tok)).unprocessedTokens)) = true
          · rw [if_pos hpar] at h
            simp only [Except.ok.injEq] at h
            subst h
            refine ⟨((InvP_processTokenStarStart ({ st with store := storeSetStart st.store 0 (some tok.start_mark) }) tok (InvP_mod_setStart st 0 (some tok.start_mark) hP))).1, ?_⟩
            intro uid hu
            exact absurd hu (by simp)
          · rw [if_neg hpar] at h
            exact InvP_processTokenRest ({ (processTokenStarStart ({ st with store := storeSetStart st.store 0 (some tok.start_mark) }) tok) with nextTokenIsValue := true }) tok _ _ st' h ⟨((InvP_processTokenStarStart ({ st with store := storeSetStart st.store 0 (some tok.start_mark) }) tok (InvP_mod_setStart st 0 (some tok.start_mark) hP))).1, ((InvP_processTokenStarStart ({ st with store := storeSetStart st.store 0 (some tok.start_mark) }) tok (InvP_mod_setStart st 0 (some tok.start_mark) hP))).2⟩
        · rw [if_neg hval] at h
          exact InvP_processTokenRest ((processTokenStarStart ({ st with store := storeSetStart st.store 0 (some tok.start_mark) }) tok)) tok _ _ st' h (InvP_processTokenStarStart ({ st with store := storeSetStart st.store 0 (some tok.start_mark) }) tok (InvP_mod_setStart st 0 (some tok.start_mark) hP))
      · rw [if_neg h3c] at h
        by_cases hval : (tok.kind == TokKind.value) = true
        · rw [if_pos hval] at h
          try dsimp only at h
          by_cases hpar : (isLastBreadcrumb ({ st with store := storeSetStart st.store 0 (some tok.start_mark), nextTokenIsValue := true }) NodeData.isStateParameter && bufferFalsy (st.unprocessedTokens)) = true
          · rw [if_pos hpar] at h
            simp only [Except.ok.injEq] at h
            subst h
            refine ⟨((InvP_mod_setStart st 0 (some tok.start_mark) hP)).1, ?_⟩
            intro uid hu
            exact absurd hu (by simp)
          · rw [if_neg hpar] at h
            exact InvP_processTokenRest ({ st with store := storeSetStart st.store 0 (some tok.start_mark), nextTokenIsValue := true }) tok _ _ st' h ⟨((InvP_mod_setStart st 0 (some tok.start_mark) hP)).1, ((InvP_mod_setStart st 0 (some tok.start_mark) hP)).2⟩
        · rw [if_neg hval] at h
          exact InvP_processTokenRest ({ st with store := storeSetStart st.store 0 (some tok.start_mark) }) tok _ _ st' h (InvP_mod_setStart st 0 (some tok.start_mark) hP)
  · rw [if_neg h1c] at h
    by_cases h2c : (tok.kind == TokKind.streamEnd) = true
    · rw [if_pos h2c] at h
      by_cases h3c : tok.kind.isStarStart = true
      · rw [if_pos h3c] at h
        by_cases hval : (tok.kind == TokKind.value) = true
        · rw [if_pos hval] at h
          try dsimp only at h
          by_cases hpar : (isLastBreadcrumb ({ (processTokenStarStart ({ st with store := storeSetEnd (st.store) 0 (some tok.end_mark) }) tok) with nextTokenIsValue := true }) NodeData.isStateParameter && bufferFalsy (((processTokenStarStart ({ st with store := storeSetEnd (st.store) 0 (some tok.end_mark) }) tok)).unprocessedTokens)) = true
          · rw [if_pos hpar] at h
            simp only [Except.ok.injEq] at h
            subst h
            refine ⟨((InvP_processTokenStarStart ({ st with store := storeSetEnd (st.store) 0 (some tok.end_mark) }) tok (InvP_mod_setEnd (st) 0 (some tok.end_mark) hP))).1, ?_⟩
            intro uid hu
            exact absurd hu (by simp)
          · rw [if_neg hpar] at h
            exact InvP_processTokenRest ({ (processTokenStarStart ({ st with store := storeSetEnd (st.store) 0 (some tok.end_mark) }) tok) with nextTokenIsValue := true }) tok _ _ st' h ⟨((InvP_processTokenStarStart ({ st with store := storeSetEnd (st.store) 0 (some tok.end_mark) }) tok (InvP_mod_setEnd (st) 0 (some tok.end_mark) hP))).1, ((InvP_processTokenStarStart ({ st with store := storeSetEnd (st.store) 0 (some tok.end_mark) }) tok (InvP_mod_setEnd (st) 0 (some tok.end_mark) hP))).2⟩
        · rw [if_neg hval] at h
          exact InvP_processTokenRest ((processTokenStarStart ({ st with store := storeSetEnd (st.store) 0 (some tok.end_mark) }) tok)) tok _ _ st' h (InvP_processTokenStarStart ({ st with store := storeSetEnd (st.store) 0 (some tok.end_mark) }) tok (InvP_mod_setEnd (st) 0 (some tok.end_mark) hP))
      · rw [if_neg h3c] at h
        by_cases hval : (tok.kind == TokKind.value) = true
        · rw [if_pos hval] at h
          try dsimp only at h
          by_cases hpar : (isLastBreadcrumb ({ st with store := storeSetEnd (st.store) 0 (some tok.end_mark), nextTokenIsValue := true }) NodeData.isStateParameter && bufferFalsy (st.unprocessedTokens)) = true
          · rw [if_pos hpar] at h
            simp only [Except.ok.injEq] at h
            subst h
            refine ⟨((InvP_mod_setEnd (st) 0 (some tok.end_mark) hP)).1, ?_⟩
            intro uid hu
            exact absurd hu (by simp)
          · rw [if_neg hpar] at h
            exact InvP_processTokenRest ({ st with store := storeSetEnd (st.store) 0 (some tok.end_mark), nextTokenIsValue := true }) tok _ _ st' h ⟨((InvP_mod_setEnd (st) 0 (some tok.end_mark) hP)).1, ((InvP_mod_setEnd (st) 0 (some tok.end_mark) hP)).2⟩
        · rw [if_neg hval] at h
          exact InvP_processTokenRest ({ st with store := storeSetEnd (st.store) 0 (some tok.end_mark) }) tok _ _ st' h (InvP_mod_setEnd (st) 0 (some tok.end_mark) hP)
    · rw [if_neg h2c] at h
      by_cases h3c : tok.kind.isStarStart = true
      · rw [if_pos h3c] at h
        by_cases hval : (tok.kind == TokKind.value) = true
        · rw [if_pos hval] at h
          try dsimp only at h
          by_cases hpar : (isLastBreadcrumb ({ (processTokenStarStart (st) tok) with nextTokenIsValue := true }) NodeData.isStateParameter && bufferFalsy (((processTokenStarStart (st) tok)).unprocessedTokens)) = true
          · rw [if_pos hpar] at h
            simp only [Except.ok.injEq] at h
            subst h
            refine ⟨((InvP_processTokenStarStart (st) tok hP)).1, ?_⟩
            intro uid hu
            exact absurd hu (by simp)
          · rw [if_neg hpar] at h
            exact InvP_processTokenRest ({ (processTokenStarStart (st) tok) with nextTokenIsValue := true }) tok _ _ st' h ⟨((InvP_processTokenStarStart (st) tok hP)).1, ((InvP_processTokenStarStart (st) tok hP)).2⟩
        · rw [if_neg hval] at h
          exact InvP_processTokenRest ((processTokenStarStart (st) tok)) tok _ _ st' h (InvP_processTokenStarStart (st) tok hP)
      · rw [if_neg h3c] at h
        by_cases hval : (tok.kind == TokKind.value) = true
        · rw [if_pos hval] at h
          try dsimp only at h
          by_cases hpar : (isLastBreadcrumb ({ st with nextTokenIsValue := true }) NodeData.isStateParameter && bufferFalsy (st.unprocessedTokens)) = true
          · rw [if_pos hpar] at h
            simp only [Except.ok.injEq] at h
            subst h
            refine ⟨(hP).1, ?_⟩
            intro uid hu
            exact absurd hu (by simp)
          · rw [if_neg hpar] at h
            exact InvP_processTokenRest ({ st with nextTokenIsValue := true }) tok _ _ st' h ⟨(hP).1, (hP).2⟩
        · rw [if_neg hval] at h
          exact InvP_processTokenRest (st) tok _ _ st' h hP

theorem InvP_runTokens : ∀ (ts : List Token) (st st' : PState),
    runTokens st ts = .ok st' → InvP st → InvP st' := by
  intro ts
  induction ts with
  | nil =>
    intro st st' h hP
    simp only [runTokens, Except.ok.injEq] at h
    subst h
    exact hP
  | cons t ts1 ih =>
    intro st st' h hP
    simp only [runTokens] at h
    cases h1 : processToken st t with
    | error e =>
      rw [h1] at h
      simp [bind, Except.bind] at h
    | ok st1 =>
      rw [h1] at h
      simp only [bind, Except.bind] at h
      exact ih st1 st' h (InvP_processToken st t st1 h1 hP)

theorem InvP_initState : InvP initState := by
  refine ⟨⟨by decide, rfl, ?_⟩, ?_⟩
  · intro sid hsid
    have hempty : rootStates initState.store = [] := rfl
    rw [hempty] at hsid
    exact absurd hsid (by simp)
  · intro uid hu
    exact absurd hu (by simp [initState])

theorem InvP_recoverBody (document : String) (e : ScanErr) (st : PState) (nid : Nat)
    (st' : PState) (h : recoverBody document e st nid = .ok st') (hP : InvP st) :
    InvP st' := by
  rw [recoverBody] at h
  try dsimp only at h
  cases hsp : (storeGet st.store nid).start with
  | none =>
    rw [hsp] at h
    try dsimp only at h
    cases hpm : e.problem_mark with
    | none =>
      rw [hpm] at h
      simp only [Except.ok.injEq] at h
      subst h
      exact hP
    | some pm =>
      rw [hpm] at h
      simp only [Except.ok.injEq] at h
      subst h
      exact InvP_mod_setEnd st nid _ hP
  | some sp =>
    rw [hsp] at h
    try dsimp only at h
    cases hcm : e.context_mark with
    | none =>
      rw [hcm] at h
      try dsimp only at h
      cases hpm : e.problem_mark with
      | none =>
        rw [hpm] at h
        simp only [Except.ok.injEq] at h
        subst h
        exact hP
      | some pm =>
        rw [hpm] at h
        simp only [Except.ok.injEq] at h
        subst h
        exact InvP_mod_setEnd st nid _ hP
    | some cm =>
      rw [hcm] at h
      try dsimp only at h
      by_cases hlt : cm.col < sp.col
      · rw [if_pos hlt] at h
        exact InvP_processToken st _ st' h hP
      · rw [if_neg hlt] at h
        by_cases heq2 : (cm.col == sp.col) = true
        · rw [if_pos heq2] at h
          cases h1 : processToken st (blockEndTokenAt cm) with
          | error e1 =>
            rw [h1] at h
            simp [bind, Except.bind] at h
          | ok st1 =>
            rw [h1] at h
            simp only [bind, Except.bind] at h
            have hP1 : InvP st1 := InvP_processToken st _ st1 h1 hP
            cases hpm : e.problem_mark with
            | none =>
              rw [hpm] at h
              simp only [Except.ok.injEq] at h
              subst h
              exact hP1
            | some pm =>
              rw [hpm] at h
              try dsimp only at h
              exact InvP_processToken st1 _ st' h hP1
        · rw [if_neg heq2] at h
          cases hpm : e.problem_mark with
          | none =>
            rw [hpm] at h
            simp only [Except.ok.injEq] at h
            subst h
            exact hP
          | some pm =>
            rw [hpm] at h
            simp only [Except.ok.injEq] at h
            subst h
            exact InvP_mod_setEnd st nid _ hP

theorem InvP_recoverLoop (document : String) (e : ScanErr) :
    ∀ (f : Nat) (st st' : PState),
      recoverLoop document e st f = .ok st' → InvP st → InvP st' := by
  intro f
  induction f with
  | zero =>
    intro st st' h hP
    simp only [recoverLoop, Except.ok.injEq] at h
    subst h
    exact hP
  | succ i ih =>
    intro st st' h hP
    simp only [recoverLoop] at h
    by_cases hlen : i < st.breadcrumbs.length
    · rw [if_pos hlen] at h
      cases hg : st.breadcrumbs.get? i with
      | none =>
        rw [hg] at h
        simp only [Except.ok.injEq] at h
        subst h
        exact hP
      | some nid =>
        rw [hg] at h
        try dsimp only at h
        cases h1 : recoverBody document e st nid with
        | error e1 =>
          rw [h1] at h
          simp [bind, Except.bind] at h
        | ok st1 =>
          rw [h1] at h
          simp only [bind, Except.bind] at h
          exact ih st1 st' h (InvP_recoverBody document e st nid st1 h1 hP)
    · rw [if_neg hlen] at h
      simp only [Except.ok.injEq] at h
      subst h
      exact hP

theorem InvP_parseModel (document : String) (tokens : List Token) (err : Option ScanErr)
    (st : PState) (h : parseModel document tokens err = .ok st) : InvP st := by
  rw [parseModel] at h
  try dsimp only at h
  cases h0 : runTokens initState tokens with
  | error e =>
    rw [h0] at h
    simp [bind, Except.bind] at h
  | ok st1 =>
    rw [h0] at h
    simp only [bind, Except.bind] at h
    have hP1 : InvP st1 := InvP_runTokens tokens initState st1 h0 InvP_initState
    cases herr : err with
    | none =>
      rw [herr] at h
      simp only [Except.ok.injEq] at h
      subst h
      exact hP1
    | some e =>
      rw [herr] at h
      try dsimp only at h
      by_cases hemp : tokens.isEmpty = true
      · rw [if_pos hemp] at h
        simp only [Except.ok.injEq] at h
        subst h
        exact hP1
      · rw [if_neg hemp] at h
        exact InvP_recoverLoop document e _ st1 st h hP1

/-- C3: a provisional `StateNode` whose key-setter receives literally
`include` or `extend` while its parent is the root `Tree` is removed from
the tree's state list (the list becomes the removal result `rst1`), the
tree's `includes` (respectively `extend`) singleton field is created as a
fresh node inheriting the removed node's start position and owned by the
tree, and that fresh node is returned as the new current node; moreover,
for every document whose parse returns a tree — including parses that went
through scan-error recovery — no member of the root's state list is a
`StateNode` whose identifier is `include` or `extend`. -/
theorem c3_include_extend_singleton :
    (∀ (s : Store) (sid r : Nat) (key : String) (nm : Option String)
       (sts rst rst1 : List Nat) (inc ext : Option Nat),
      (key = ("include") ∨ key = ("extend")) →
      (storeGet s sid).data = NodeData.stateNode nm sts →
      (storeGet s sid).parent = some r →
      (storeGet s r).data = NodeData.tree inc ext rst →
      pyListRemove s rst sid = some rst1 →
      ∃ s1, set_key s sid key = .ok (s1, storeSize s) ∧
        storeSize s ≠ sid ∧
        (storeGet s1 r).data = (if key = ("include")
            then NodeData.tree (some (storeSize s)) ext rst1
            else NodeData.tree inc (some (storeSize s)) rst1) ∧
        (storeGet s1 (storeSize s)).data = (if key = ("include")
            then NodeData.includesNode [] else NodeData.extendNode []) ∧
        (storeGet s1 (storeSize s)).start = (storeGet s sid).start ∧
        (storeGet s1 (storeSize s)).parent = some r ∧
        storeGet s1 sid = storeGet s sid) ∧
    (∀ (document : String) (tokens : List Token) (err : Option ScanErr) (st : PState),
      parseModel document tokens err = .ok st →
      ∀ sid ∈ rootStates st.store,
        stateIdentifier st.store sid ≠ some ("include") ∧
        stateIdentifier st.store sid ≠ some ("extend")) := by
  constructor
  · intro s sid r key nm sts rst rst1 inc ext hkey hdata hpar htr hrem
    have hslt : sid < storeSize s := by
      apply lt_size_of_data_ne
      rw [hdata]
      simp [defaultNode]
    have hrst : rst ≠ [] := by
      intro hq
      rw [hq, pyListRemove] at hrem
      exact Option.noConfusion hrem
    have hrlt : r < storeSize s := by
      apply lt_size_of_data_ne
      rw [htr]
      intro hq
      simp only [defaultNode] at hq
      injection hq with q1 q2 q3
      exact hrst q3
    have hsr : sid ≠ r := by
      intro hq
      rw [hq, htr] at hdata
      exact NodeData.noConfusion hdata
    have hptree : parentIsTree s sid = true := by
      simp only [parentIsTree, hpar]
      rw [htr]
      rfl
    have hkb : ((key == "include" || key == "extend") && parentIsTree s sid) = true := by
      rcases hkey with hk | hk <;> subst hk <;> simp [hptree]
    have hsk : set_key s sid key = tree_convert s r sid key := by
      simp only [set_key, hdata, hkb, if_true, hpar]
    rw [hsk]
    have hrid : storeSize s ≠ r := by omega
    have hsid2 : storeSize s ≠ sid := by omega
    rcases hkey with hk | hk
    · subst hk
      simp only [tree_convert, htr, hrem, storeAlloc, storeSize_setData]
      rw [if_pos (by rfl)]
      have hsz1 : storeSize (storeSetData s r (NodeData.tree inc ext rst1)) =
          storeSize s := storeSize_setData _ _ _
      have hszA : storeSize (storeSetData s r (NodeData.tree inc ext rst1) ++
          [{ start := (storeGet s sid).start, end_ := none, parent := some r, id := none,
              data := NodeData.includesNode [] }]) = storeSize s + 1 := by
        rw [storeSize_alloc, hsz1]
      refine ⟨_, rfl, hsid2, ?_, ?_, ?_, ?_, ?_⟩
      · simp only [if_true]
        rw [storeGet_setData_self _ _ _ (by rw [hszA]; omega)]
      · simp only [if_true]
        rw [storeGet_setData_ne _ _ _ _ (Ne.symm hrid), ← hsz1, storeGet_alloc_self]
      · rw [storeGet_setData_ne _ _ _ _ (Ne.symm hrid), ← hsz1, storeGet_alloc_self]
      · rw [storeGet_setData_ne _ _ _ _ (Ne.symm hrid), ← hsz1, storeGet_alloc_self]
      · rw [storeGet_setData_ne _ _ _ _ (Ne.symm hsr)]
        rw [storeGet_alloc_lt _ _ _ (by rw [hsz1]; omega)]
        rw [storeGet_setData_ne _ _ _ _ (Ne.symm hsr)]
    · subst hk
      simp only [tree_convert, htr, hrem, storeAlloc, storeSize_setData]
      rw [if_neg (by decide), if_pos (by rfl)]
      have hsz1 : storeSize (storeSetData s r (NodeData.tree inc ext rst1)) =
          storeSize s := storeSize_setData _ _ _
      have hszA : storeSize (storeSetData s r (NodeData.tree inc ext rst1) ++
          [{ start := (storeGet s sid).start, end_ := none, parent := some r, id := none,
              data := NodeData.extendNode [] }]) = storeSize s + 1 := by
        rw [storeSize_alloc, hsz1]
      refine ⟨_, rfl, hsid2, ?_, ?_, ?_, ?_, ?_⟩
      · rw [if_neg (by decide)]
        rw [storeGet_setData_self _ _ _ (by rw [hszA]; omega)]
      · rw [if_neg (by decide)]
        rw [storeGet_setData_ne _ _ _ _ (Ne.symm hrid), ← hsz1, storeGet_alloc_self]
      · rw [storeGet_setData_ne _ _ _ _ (Ne.symm hrid), ← hsz1, storeGet_alloc_self]
      · rw [storeGet_setData_ne _ _ _ _ (Ne.symm hrid), ← hsz1, storeGet_alloc_self]
      · rw [storeGet_setData_ne _ _ _ _ (Ne.symm hsr)]
        rw [storeGet_alloc_lt _ _ _ (by rw [hsz1]; omega)]
        rw [storeGet_setData_ne _ _ _ _ (Ne.symm hsr)]
  · intro document tokens err st h sid hsid
    obtain ⟨⟨h0, ht, hm⟩, _⟩ := InvP_parseModel document tokens err st h
    obtain ⟨⟨nm, sts, hdata, h1, h2⟩, _⟩ := hm sid hsid
    constructor
    · intro hq
      simp only [stateIdentifier, hdata] at hq
      exact h1 hq
    · intro hq
      simp only [stateIdentifier, hdata] at hq
      exact h2 hq

/-- Witness for C3: the `docC3w` run parses successfully; its root state
list is `[4]` with identifier `foo`, its `includes` field is populated
(node 2), and the theorem's closure applies to this concrete tree. -/
theorem c3_include_extend_singleton_witness :
    parseModel docC3w toksC3w none = .ok c3St ∧
    (storeGet c3St.store 0).data = NodeData.tree (some 2) none [4] ∧
    stateIdentifier c3St.store 4 = some ("foo") ∧
    (∀ sid ∈ rootStates c3St.store,
      stateIdentifier c3St.store sid ≠ some ("include") ∧
      stateIdentifier c3St.store sid ≠ some ("extend")) := by
  refine ⟨rfl, rfl, rfl, ?_⟩
  exact c3_include_extend_singleton.2 docC3w toksC3w none c3St rfl

end SaltLsp
